import Mathlib

/-!
# RED SDK: the synchronous-call bridge

A shallow embedding of `examples/cpp/common/src/sync_api.cpp`
(`common::sync_api_t`), `tests/examples/cpp/common/src/eventfd.cpp`
(`common::eventfd_t`) and `tests/examples/c/common/src/sync_api.c`
(`common_sync_wait`).

The bridge talks to three primitives that are not part of the repository:
`poll(2)` on two descriptors, `read(2)`/`write(2)` on the bridge's private
eventfd, and the runtime's `red_client_lib_poll`.  Their answers are supplied
by three reply lists (one per primitive, consumed front to back), so that every
behaviour of the primitives - real or fake - is a choice of lists.  The loop
of `wait` performs exactly one `poll` per iteration and is therefore defined
by structural recursion over the list of `poll` replies; a run that is still
looping when the replies end has `ret = none`.

Memory is a map from addresses to bridge objects; every externally visible
action is appended to a chronological log.

The file also embeds `simple_s3_client.cpp` (`s3bucket`, `s3client` over the
interface `IRedClient` of `simple_s3_client.hpp`), the two implementations
of `split_tensubten` (`string_utils.c`, `string_utils.cpp`), the inline
functions `red_rc2status`, `rfs_is_valid_etag_type`,
`rfs_is_valid_checksum_type` and `red_next_s3_partinfo` of the headers, and the
control flow of the two `hello_world` drivers; see the sections on them below.
-/

namespace RedSdk

/-! ## Constants -/

/-- Status `RED_SUCCESS` of `red_status.h`. -/
def RED_SUCCESS : Int := 0

/-- Status `RED_ENOMEM` of `red_status.h`. -/
def RED_ENOMEM : Int := -12

/-- Status `RED_EINVAL` of `red_status.h`. -/
def RED_EINVAL : Int := -22

/-- Value of `EINTR` in `errno.h`. -/
def EINTR : Int := 4

/-- Value of `EAGAIN` in `errno.h`. -/
def EAGAIN : Int := 11

/-- Bit `POLLIN` of `poll.h`. -/
def POLLIN : Nat := 1

/-- Largest value an eventfd counter can hold (`2^64 - 2`). -/
def EFD_MAX : Nat := 18446744073709551614

/-! ## Data model -/

/-- Values of the function pointer type `rfs_two_arg_cbp_t` that the model
distinguishes: the null pointer, the completion callback of the C++ bridge
(`sync_api_t::callback`), the one of the C bridge
(`common_sync_api_callback`), and any other application callback, which is
opaque code outside the bridge. -/
inductive CbFun where
  | null
  | sync_api_callback
  | common_sync_api_callback
  | other (k : Nat)
  deriving DecidableEq, Repr

/-- Callback record `rfs_usercb_t` of `red_client_types.h`. -/
structure rfs_usercb_t where
  ucb_fun : CbFun
  ucb_arg : Nat
  ucb_e2e : Nat
  deriving DecidableEq, Repr

/-- Completion record `rfs_usercomp_t` of `red_client_types.h`. -/
structure rfs_usercomp_t where
  ucp_fun : CbFun
  ucp_arg : Nat
  ucp_res : Int
  deriving DecidableEq, Repr

/-- Class `eventfd_t`: the descriptor number it stores, together with the
kernel counter of that descriptor (the number of signals written and not yet
consumed). -/
structure eventfd_t where
  event_fd : Int
  counter : Nat
  deriving DecidableEq, Repr

/-- Class `sync_api_t`; the C context `common_sync_api_ctx_t` has the same
three fields (its `eventfd` is the bare descriptor). -/
structure sync_api_t where
  rs : Int
  ucb : rfs_usercb_t
  eventfd : eventfd_t
  deriving DecidableEq, Repr

/-- Externally visible actions, in the order in which they happen. -/
inductive Event where
  /-- The call `poll(pfds, 2, -1)` with the two descriptors watched. -/
  | poll (fd0 fd1 : Int)
  /-- A completion whose callback the runtime invoked itself, from its own
  progress thread. -/
  | direct (c : rfs_usercomp_t)
  /-- A write of 1 to an eventfd. -/
  | efd_write (fd : Int)
  /-- A read from an eventfd. -/
  | efd_read (fd : Int)
  /-- The call `red_client_lib_poll(ucps, num_ucps)`. -/
  | lib_poll (num_ucps : Nat)
  /-- The call `ucp.ucp_fun(ucp.ucp_res, ucp.ucp_arg)` made by `wait`. -/
  | dispatch (c : rfs_usercomp_t)
  deriving DecidableEq, Repr

/-- Memory (bridge objects by address), the descriptor that
`red_client_lib_poll_fd()` returns on this thread, and the log. -/
structure World where
  heap : Nat → sync_api_t
  poll_fd : Int
  log : List Event

/-- One answer of `poll(pfds, 2, -1)`: the completions that the runtime
delivered by direct callback invocation while the caller was blocked, the
return value, `errno`, and the `revents` of the two entries. -/
structure PollReply where
  during : List rfs_usercomp_t
  rc : Int
  errno : Int
  revents0 : Nat
  revents1 : Nat
  deriving DecidableEq, Repr

/-- One answer of `read(fd, &val, 8)` on an eventfd: return value and `errno`. -/
structure ReadReply where
  ret : Int
  errno : Int
  deriving DecidableEq, Repr

/-- One answer of `red_client_lib_poll(&ucp, 1)`: return value and the
contents of `ucp` after the call. -/
structure DrainReply where
  rc : Int
  ucp : rfs_usercomp_t
  deriving DecidableEq, Repr

/-- Result of a run of `wait`: the returned status (`none` when the replies
ran out while `wait` was still looping), the final world, and the replies
that were not consumed. -/
structure Outcome where
  ret : Option Int
  world : World
  polls : List PollReply
  reads : List ReadReply
  drains : List DrainReply

/-! ## Memory and log -/

/-- Append an action to the log. -/
def World.emit (w : World) (e : Event) : World :=
  { w with log := w.log ++ [e] }

/-- Overwrite the bridge object at address `a`. -/
def World.store (w : World) (a : Nat) (b : sync_api_t) : World :=
  { w with heap := Function.update w.heap a b }

/-- Kernel side of a write of 1 to the eventfd of the bridge at `a`: the call
is logged; on a valid descriptor the counter grows by one unless it is at its
maximum (then the write does not change it). -/
def sys_eventfd_write (w : World) (a : Nat) : World :=
  let b := w.heap a
  let w1 := w.emit (.efd_write b.eventfd.event_fd)
  if 0 ≤ b.eventfd.event_fd ∧ b.eventfd.counter + 1 ≤ EFD_MAX then
    w1.store a { b with eventfd := { b.eventfd with counter := b.eventfd.counter + 1 } }
  else w1

/-- Kernel side of a read from the eventfd of the bridge at `a` that was
answered by `r`: the call is logged; a complete read of 8 bytes resets the
counter. -/
def sys_eventfd_read (w : World) (a : Nat) (r : ReadReply) : World :=
  let b := w.heap a
  let w1 := w.emit (.efd_read b.eventfd.event_fd)
  if r.ret = 8 then
    w1.store a { b with eventfd := { b.eventfd with counter := 0 } }
  else w1

/-- Library function `eventfd_read` of glibc: 0 when 8 bytes were read, -1
otherwise. -/
def eventfd_read (r : ReadReply) : Int :=
  if r.ret ≠ 8 then -1 else 0

/-! ## eventfd.cpp -/

/-- Method `eventfd_t::kick` of the eventfd of the bridge at `this`. -/
def eventfd_t.kick (w : World) (this : Nat) : World :=
  if 0 ≤ (w.heap this).eventfd.event_fd then sys_eventfd_write w this else w

/-- Method `eventfd_t::read` of the eventfd of the bridge at `this`; `none`
when the call is made and no reply is left.  In the branch `rc < 0` with an
`errno` other than `EAGAIN` and `EINTR` the statement `assert(rc)` holds
(`rc` is non-zero), so control reaches `return true`. -/
def eventfd_t.read (w : World) (this : Nat) (reads : List ReadReply) :
    Option (Bool × World × List ReadReply) :=
  if (w.heap this).eventfd.event_fd < 0 then some (false, w, reads)
  else
    match reads with
    | [] => none
    | r :: rest =>
      let w1 := sys_eventfd_read w this r
      if eventfd_read r < 0 then
        if r.errno = EAGAIN ∨ r.errno = EINTR then some (false, w1, rest)
        else some (true, w1, rest)
      else some (true, w1, rest)

/-! ## sync_api.cpp -/

/-- Constructor `sync_api_t::sync_api_t()` of the object at address `this`:
`fd` is what `eventfd(0, EFD_CLOEXEC | EFD_NONBLOCK)` returned, `e2e` the
content of the field that the constructor does not initialise. -/
def sync_api_t.ctor (this : Nat) (fd : Int) (e2e : Nat) : sync_api_t :=
  { rs := RED_SUCCESS
    ucb := { ucb_fun := .sync_api_callback, ucb_arg := this, ucb_e2e := e2e }
    eventfd := { event_fd := fd, counter := 0 } }

/-- Method `sync_api_t::done`. -/
def sync_api_t.done (w : World) (this : Nat) (status : Int) : World :=
  eventfd_t.kick (w.store this { w.heap this with rs := status }) this

/-- Static method `sync_api_t::callback`. -/
def sync_api_t.callback (w : World) (status : Int) (arg : Nat) : World :=
  sync_api_t.done w arg status

/-- Method `sync_api_t::get_ucb`: the callback record of the bridge. -/
def sync_api_t.get_ucb (w : World) (this : Nat) : rfs_usercb_t :=
  (w.heap this).ucb

/-! ## sync_api.c -/

/-- Function `common_sync_api_callback`. -/
def common_sync_api_callback (w : World) (status : Int) (arg : Nat) : World :=
  sys_eventfd_write (w.store arg { w.heap arg with rs := status }) arg

/-- Function `common_sync_api_init`: `addr` is what `calloc` returned (`none`
for a null pointer) and `fd` what `eventfd(0, EFD_CLOEXEC)` returned; the
result is the address and the content of the new context, or `none` for
`NULL`. -/
def common_sync_api_init (addr : Option Nat) (fd : Int) : Option (Nat × sync_api_t) :=
  match addr with
  | none => none
  | some ctx =>
    if fd < 0 then none
    else some (ctx,
      { rs := RED_SUCCESS
        ucb := { ucb_fun := .common_sync_api_callback, ucb_arg := ctx, ucb_e2e := 0 }
        eventfd := { event_fd := fd, counter := 0 } })

/-! ## Calling a callback -/

/-- The call `f(res, arg)` through a function pointer.  Application callbacks
other than the two bridge callbacks are outside the bridge and have no access
to bridge objects. -/
def call (w : World) (f : CbFun) (res : Int) (arg : Nat) : World :=
  match f with
  | .null => w
  | .sync_api_callback => sync_api_t.callback w res arg
  | .common_sync_api_callback => common_sync_api_callback w res arg
  | .other _ => w

/-- Completions delivered by the runtime itself (direct callback invocation),
in order. -/
def deliver (w : World) : List rfs_usercomp_t → World
  | [] => w
  | c :: cs => deliver (call (w.emit (.direct c)) c.ucp_fun c.ucp_res c.ucp_arg) cs

/-- The call `poll(pfds, 2, -1)` answered by `p`. -/
def sys_poll (w : World) (fd0 fd1 : Int) (p : PollReply) : World :=
  deliver (w.emit (.poll fd0 fd1)) p.during

/-- The `while (true)` loop of `sync_api_t::wait`; `fd0` and `fd1` are the
descriptors stored in `pfds` before the loop. -/
def sync_api_t.wait_loop (this : Nat) (fd0 fd1 : Int) :
    World → List PollReply → List ReadReply → List DrainReply → Outcome
  | w, [], reads, drains => ⟨none, w.emit (.poll fd0 fd1), [], reads, drains⟩
  | w, p :: polls, reads, drains =>
    let w1 := sys_poll w fd0 fd1 p
    if p.rc < 0 then
      if p.errno = EINTR then sync_api_t.wait_loop this fd0 fd1 w1 polls reads drains
      else ⟨some RED_EINVAL, w1, polls, reads, drains⟩
    else if p.rc = 0 then sync_api_t.wait_loop this fd0 fd1 w1 polls reads drains
    else if p.revents0 &&& POLLIN ≠ 0 then
      match eventfd_t.read w1 this reads with
      | none => ⟨none, w1.emit (.efd_read (w1.heap this).eventfd.event_fd), polls, [], drains⟩
      | some (false, w2, reads2) => sync_api_t.wait_loop this fd0 fd1 w2 polls reads2 drains
      | some (true, w2, reads2) => ⟨some (w2.heap this).rs, w2, polls, reads2, drains⟩
    else if p.revents1 &&& POLLIN ≠ 0 then
      match drains with
      | [] => ⟨none, w1.emit (.lib_poll 1), polls, reads, []⟩
      | d :: drains2 =>
        let w2 := w1.emit (.lib_poll 1)
        if d.rc = 1 ∧ d.ucp.ucp_fun ≠ .null then
          sync_api_t.wait_loop this fd0 fd1
            (call (w2.emit (.dispatch d.ucp)) d.ucp.ucp_fun d.ucp.ucp_res d.ucp.ucp_arg)
            polls reads drains2
        else sync_api_t.wait_loop this fd0 fd1 w2 polls reads drains2
    else sync_api_t.wait_loop this fd0 fd1 w1 polls reads drains

/-- Method `sync_api_t::wait`. -/
def sync_api_t.wait (w : World) (this : Nat) (rc : Int)
    (polls : List PollReply) (reads : List ReadReply) (drains : List DrainReply) : Outcome :=
  if rc ≠ 0 then
    let w1 := sync_api_t.done w this rc
    ⟨some (w1.heap this).rs, w1, polls, reads, drains⟩
  else
    sync_api_t.wait_loop this (w.heap this).eventfd.event_fd w.poll_fd w polls reads drains

/-- The `while (1)` loop of `common_sync_wait`. -/
def common_sync_wait_loop (ctx : Nat) (fd0 fd1 : Int) :
    World → List PollReply → List ReadReply → List DrainReply → Outcome
  | w, [], reads, drains => ⟨none, w.emit (.poll fd0 fd1), [], reads, drains⟩
  | w, p :: polls, reads, drains =>
    let w1 := sys_poll w fd0 fd1 p
    if p.rc < 0 then
      if p.errno = EINTR then common_sync_wait_loop ctx fd0 fd1 w1 polls reads drains
      else ⟨some RED_EINVAL, w1, polls, reads, drains⟩
    else if p.rc = 0 then common_sync_wait_loop ctx fd0 fd1 w1 polls reads drains
    else if p.revents0 &&& POLLIN ≠ 0 then
      match reads with
      | [] => ⟨none, w1.emit (.efd_read (w1.heap ctx).eventfd.event_fd), polls, [], drains⟩
      | r :: reads2 =>
        let w2 := sys_eventfd_read w1 ctx r
        if r.ret ≠ 8 then common_sync_wait_loop ctx fd0 fd1 w2 polls reads2 drains
        else ⟨some (w2.heap ctx).rs, w2, polls, reads2, drains⟩
    else if p.revents1 &&& POLLIN ≠ 0 then
      match drains with
      | [] => ⟨none, w1.emit (.lib_poll 1), polls, reads, []⟩
      | d :: drains2 =>
        let w2 := w1.emit (.lib_poll 1)
        if d.rc = 1 ∧ d.ucp.ucp_fun ≠ .null then
          common_sync_wait_loop ctx fd0 fd1
            (call (w2.emit (.dispatch d.ucp)) d.ucp.ucp_fun d.ucp.ucp_res d.ucp.ucp_arg)
            polls reads drains2
        else common_sync_wait_loop ctx fd0 fd1 w2 polls reads drains2
    else common_sync_wait_loop ctx fd0 fd1 w1 polls reads drains

/-- Function `common_sync_wait`. -/
def common_sync_wait (w : World) (ctx : Nat) (rc : Int)
    (polls : List PollReply) (reads : List ReadReply) (drains : List DrainReply) : Outcome :=
  if rc ≠ 0 then
    let w1 := w.store ctx { w.heap ctx with rs := rc }
    ⟨some (w1.heap ctx).rs, w1, polls, reads, drains⟩
  else
    common_sync_wait_loop ctx (w.heap ctx).eventfd.event_fd w.poll_fd w polls reads drains

/-! ## Observations on the log -/

/-- Number of calls of the readiness wait in a log. -/
def countPolls : List Event → Nat
  | [] => 0
  | .poll _ _ :: l => countPolls l + 1
  | _ :: l => countPolls l

/-- Number of calls of the drain primitive in a log. -/
def countDrains : List Event → Nat
  | [] => 0
  | .lib_poll _ :: l => countDrains l + 1
  | _ :: l => countDrains l

/-- The completions whose callbacks `wait` invoked, in order. -/
def dispatched : List Event → List rfs_usercomp_t
  | [] => []
  | .dispatch c :: l => c :: dispatched l
  | _ :: l => dispatched l

/-- The parts of the world that no operation of the bridge writes after
construction: the runtime descriptor, and of every bridge object the callback
record and the descriptor number of its eventfd. -/
def Stable (w v : World) : Prop :=
  v.poll_fd = w.poll_fd ∧
  ∀ c, (v.heap c).ucb = (w.heap c).ucb ∧
    (v.heap c).eventfd.event_fd = (w.heap c).eventfd.event_fd

/-- The two completion callbacks of the bridges (`sync_api_t::callback` and
`common_sync_api_callback`). -/
def CbFun.isBridge : CbFun → Bool
  | .sync_api_callback => true
  | .common_sync_api_callback => true
  | _ => false

/-- The runtime completes, with status `res`, the call that was submitted with
the callback record `ucb`: it calls `ucb.ucb_fun(res, ucb.ucb_arg)`. -/
def complete (w : World) (ucb : rfs_usercb_t) (res : Int) : World :=
  call w ucb.ucb_fun res ucb.ucb_arg

/-- The completion record that the drain primitive returns for the call that
was submitted with the callback record `ucb` and finished with `res`. -/
def completion (ucb : rfs_usercb_t) (res : Int) : rfs_usercomp_t :=
  { ucp_fun := ucb.ucb_fun, ucp_arg := ucb.ucb_arg, ucp_res := res }

/-- The test `rc == 1 && ucp.ucp_fun` that `wait` applies to an answer of the
drain primitive. -/
def DrainReply.invoked (d : DrainReply) : Bool :=
  decide (d.rc = 1 ∧ d.ucp.ucp_fun ≠ .null)

/-- What holds of every run `o` of the loop of `wait` for the bridge at `this`
that started in world `w` with the drain replies `drains`: callback records
and descriptors are as before; `poll` was called at least once; a returned
status is `RED_EINVAL` or the status recorded in the bridge at the return; and
the callbacks that `wait` invoked are, in order, the completions of the
consumed drain replies that pass the test `rc == 1 && ucp.ucp_fun`. -/
def Trace (this : Nat) (w : World) (drains : List DrainReply) (o : Outcome) : Prop :=
  Stable w o.world ∧
  countPolls w.log + 1 ≤ countPolls o.world.log ∧
  (∀ s, o.ret = some s → s = RED_EINVAL ∨ s = (o.world.heap this).rs) ∧
  ∃ used : List DrainReply, drains = used ++ o.drains ∧
    dispatched o.world.log
      = dispatched w.log ++ (used.filter DrainReply.invoked).map DrainReply.ucp

/-! ## Concrete scenarios -/

/-- A world of freshly constructed C++ bridges: the object at address `a` owns
descriptor `a + 10`; the runtime descriptor is 3 and the log is empty. -/
def cppWorld : World :=
  { heap := fun a => sync_api_t.ctor a (a + 10) 0, poll_fd := 3, log := [] }

/-- A world of freshly initialised C contexts: the context at address `a` owns
descriptor `a + 10`; the runtime descriptor is 3 and the log is empty. -/
def cWorld : World :=
  { heap := fun a =>
      { rs := RED_SUCCESS
        ucb := { ucb_fun := .common_sync_api_callback, ucb_arg := a, ucb_e2e := 0 }
        eventfd := { event_fd := a + 10, counter := 0 } }
    poll_fd := 3, log := [] }

/-- A reply of `poll` that reports only the bridge's own eventfd readable. -/
def pollOwn : PollReply :=
  { during := [], rc := 1, errno := 0, revents0 := POLLIN, revents1 := 0 }

/-- A reply of `poll` that reports only the bridge's own eventfd readable,
after the runtime delivered the completions `cs` by direct callback. -/
def pollOwnAfter (cs : List rfs_usercomp_t) : PollReply :=
  { during := cs, rc := 1, errno := 0, revents0 := POLLIN, revents1 := 0 }

/-- A reply of `poll` that reports only the runtime descriptor readable. -/
def pollRuntime : PollReply :=
  { during := [], rc := 1, errno := 0, revents0 := 0, revents1 := POLLIN }

/-- A reply of `poll` that reports both descriptors readable. -/
def pollBoth : PollReply :=
  { during := [], rc := 2, errno := 0, revents0 := POLLIN, revents1 := POLLIN }

/-- A reply of `poll` that fails with `errno`. -/
def pollFail (errno : Int) : PollReply :=
  { during := [], rc := -1, errno := errno, revents0 := 0, revents1 := 0 }

/-- A reply of `poll` that reports no descriptor ready. -/
def pollNone : PollReply :=
  { during := [], rc := 0, errno := 0, revents0 := 0, revents1 := 0 }

/-- A reply of `read` that transferred the 8 bytes of the counter. -/
def readOk : ReadReply := { ret := 8, errno := 0 }

/-! ## simple_s3_client: handles and the client interface

The classes `s3bucket` and `s3client` of `simple_s3_client.cpp` talk to the
storage through the interface `IRedClient`, which the unit tests replace by a
mock.  A client is modelled by its behaviour: the reply it gives to a request,
given all exchanges that happened before.  Every exchange is appended to the
world.  Buckets live behind `std::shared_ptr`; the world maps an address to the
object and its use count. -/

/-- Type `rfs_open_hndl_t` of `red_client_types.h`. -/
structure rfs_open_hndl_t where
  fd : Nat
  deriving DecidableEq, Repr

/-- Type `rfs_dataset_hndl_t` of `red_client_types.h`; the pointer `hndl` is
an address, 0 for `NULL`. -/
structure rfs_dataset_hndl_t where
  hndl : Nat
  deriving DecidableEq, Repr

/-- Macro `RED_IS_VALID_HANDLE`. -/
def RED_IS_VALID_HANDLE (h : rfs_dataset_hndl_t) : Bool := h.hndl != 0

/-- Macro `RED_IS_VALID_OPEN_HANDLE`. -/
def RED_IS_VALID_OPEN_HANDLE (h : rfs_open_hndl_t) : Bool := h.fd != 0

/-- Macro `RED_INVALID_HANDLE`. -/
def RED_INVALID_HANDLE : rfs_dataset_hndl_t := { hndl := 0 }

/-- Macro `RED_INVALID_OPEN_HANDLE`. -/
def RED_INVALID_OPEN_HANDLE : rfs_open_hndl_t := { fd := 0 }

/-- Macro `RED_MAX_STRIPES`. -/
def RED_MAX_STRIPES : Nat := 256

/-- Flag `O_RDONLY` of `fcntl.h`. -/
def O_RDONLY : Nat := 0

/-- Flag `O_WRONLY` of `fcntl.h`. -/
def O_WRONLY : Nat := 1

/-- Flag `O_CREAT` of `fcntl.h` (octal 0100). -/
def O_CREAT : Nat := 64

/-- The fields of `red_ds_props_t` that `create_bucket` sets; all others are
zero. -/
structure red_ds_props_t where
  poolid : Nat
  ltid : Nat
  nstripes : Nat
  bucket_size : Nat
  block_size : Nat
  ec_nparity : Nat
  deriving DecidableEq, Repr

/-- A call of a method of `IRedClient` with its input arguments (the `user`
argument is the same pointer in every call and is left out; a buffer is given
by the bytes it holds). -/
inductive Request where
  | obtain_dataset (name cluster : String) (props : red_ds_props_t)
  | open_root (ds_hndl : rfs_dataset_hndl_t)
  | openat (dir_oh : rfs_open_hndl_t) (path : String) (flags mode : Nat)
  | pwrite (oh : rfs_open_hndl_t) (buf : String) (count : Nat) (offset : Int)
  | pread (oh : rfs_open_hndl_t) (buf : String) (count : Nat) (offset : Int)
  | close (oh : rfs_open_hndl_t)
  | close_dataset (ds_hndl : rfs_dataset_hndl_t)
  deriving DecidableEq, Repr

/-- What a method of `IRedClient` hands back: the returned status and the
content of its output argument after the call (`oh` for `open_root` and
`openat`, `hndl` for `obtain_dataset`, `nbytes` for `pwrite` and `pread`). -/
structure Reply where
  rs : Int
  oh : rfs_open_hndl_t
  hndl : rfs_dataset_hndl_t
  nbytes : Int
  deriving DecidableEq, Repr

/-- Behaviour of an implementation of `IRedClient` (the real client or a
mock): the reply to a request, given the exchanges so far. -/
abbrev IRedClient := List (Request × Reply) → Request → Reply

/-- Class `s3bucket`. -/
structure s3bucket where
  bucket_hndl : rfs_dataset_hndl_t
  bucket_name : String
  red_client : IRedClient

/-- The lines written with `COMMON_LOG` by `simple_s3_client.cpp`. -/
inductive LogLine where
  | obtain_dataset_failed (rs : Int)
  | invalid_bucket_handle
  | open_root_failed (rs : Int)
  | open_file_failed (key : String) (rs : Int)
  | write_failed (rs : Int)
  | read_failed (rs : Int)
  deriving DecidableEq, Repr

/-- The state around an `s3client`: for every address the `s3bucket` created
there by `std::make_shared` with its use count (`none` before creation and
after destruction), the address of the next allocation, the exchanges with
`IRedClient` and the lines logged, both in order.  `clear_order` belongs to
the C++ library: for the elements of a `std::set`, listed in the order of
their insertion, it gives the order in which `clear()` destroys them.  The
language leaves that order to the library, so all that is known of it is that
it rearranges the elements (`clear_perm`). -/
structure S3World where
  objects : Nat → Option (s3bucket × Nat)
  next : Nat
  calls : List (Request × Reply)
  logged : List LogLine
  clear_order : List Nat → List Nat
  clear_perm : ∀ l : List Nat, (clear_order l).Perm l

/-- Class `s3client`: the set `buckets` (addresses of the buckets it shares)
and the client behind `red_client`. -/
structure s3client where
  buckets : List Nat
  red_client : IRedClient

/-- A call of a method of the client `c`: the reply, and the world with the
exchange appended. -/
def S3World.call (w : S3World) (c : IRedClient) (q : Request) : Reply × S3World :=
  (c w.calls q, { w with calls := w.calls ++ [(q, c w.calls q)] })

/-- A line written with `COMMON_LOG`. -/
def S3World.log (w : S3World) (l : LogLine) : S3World :=
  { w with logged := w.logged ++ [l] }

/-- Method `s3bucket::handle`. -/
def s3bucket.handle (b : s3bucket) : rfs_dataset_hndl_t := b.bucket_hndl

/-- Destructor `s3bucket::~s3bucket`. -/
def s3bucket.dtor (w : S3World) (b : s3bucket) : S3World :=
  if RED_IS_VALID_HANDLE b.bucket_hndl then
    (w.call b.red_client (.close_dataset b.bucket_hndl)).2
  else w

/-- Function `std::make_shared<s3bucket>`: a new object with use count 1. -/
def make_shared (w : S3World) (b : s3bucket) : Nat × S3World :=
  (w.next, { w with objects := Function.update w.objects w.next (some (b, 1)),
                    next := w.next + 1 })

/-- Copy of a `std::shared_ptr` to the object at `a`. -/
def shared_ptr.copy (w : S3World) (a : Nat) : S3World :=
  match w.objects a with
  | some (b, n) => { w with objects := Function.update w.objects a (some (b, n + 1)) }
  | none => w

/-- Destruction of a `std::shared_ptr` to the object at `a`; the last owner
destroys the object. -/
def shared_ptr.release (w : S3World) (a : Nat) : S3World :=
  match w.objects a with
  | some (b, n) =>
    if n ≤ 1 then s3bucket.dtor { w with objects := Function.update w.objects a none } b
    else { w with objects := Function.update w.objects a (some (b, n - 1)) }
  | none => w

/-- Method `std::weak_ptr::expired`; `none` is an empty `weak_ptr`. -/
def weak_ptr.expired (w : S3World) (p : Option Nat) : Bool :=
  match p with
  | none => true
  | some a =>
    match w.objects a with
    | some (_, n) => n == 0
    | none => true

/-- Method `std::weak_ptr::lock`: address and object of the new
`std::shared_ptr`, or `none` for an empty one. -/
def weak_ptr.lock (w : S3World) (p : Option Nat) : Option (Nat × s3bucket) × S3World :=
  match p with
  | none => (none, w)
  | some a =>
    match w.objects a with
    | some (b, n) =>
      if n = 0 then (none, w)
      else (some (a, b), { w with objects := Function.update w.objects a (some (b, n + 1)) })
    | none => (none, w)

/-- Conversion `static_cast<ssize_t>(size)` of a `size_t`. -/
def ssize_cast (size : Nat) : Int :=
  if size % 2 ^ 64 < 2 ^ 63 then (size % 2 ^ 64 : Nat) else (size % 2 ^ 64 : Nat) - 2 ^ 64

/-- Destructor `s3client::~s3client`: `buckets.clear()` destroys the shared
pointers of the set, in the order that the library chooses. -/
def s3client.dtor (self : s3client) (w : S3World) : S3World :=
  (w.clear_order self.buckets).foldl shared_ptr.release w

/-- Method `s3client::create_bucket`: the returned `weak_ptr`, the client and
the world after the call. -/
def s3client.create_bucket (self : s3client) (w : S3World) (cluster bucket_name : String) :
    Option Nat × s3client × S3World :=
  let bucket_props : red_ds_props_t :=
    { nstripes := RED_MAX_STRIPES, bucket_size := 256 * 1024, block_size := 4 * 1024,
      ec_nparity := 2, poolid := 1, ltid := 1 }
  let r := w.call self.red_client (.obtain_dataset bucket_name cluster bucket_props)
  if r.1.rs ≠ RED_SUCCESS then
    (none, self, r.2.log (.obtain_dataset_failed r.1.rs))
  else
    let m := make_shared r.2 { bucket_hndl := r.1.hndl, bucket_name := bucket_name,
                               red_client := self.red_client }
    if m.1 ∈ self.buckets then
      (some m.1, self, shared_ptr.release m.2 m.1)
    else
      (some m.1, { self with buckets := self.buckets ++ [m.1] },
        shared_ptr.release (shared_ptr.copy m.2 m.1) m.1)

/-- Method `s3client::put_object`: the returned status and the world after
the call. -/
def s3client.put_object (self : s3client) (w : S3World) (bucket_weak : Option Nat)
    (key : String) (data : String) (size : Nat) : Int × S3World :=
  match weak_ptr.lock w bucket_weak with
  | (none, w0) => (RED_EINVAL, w0.log .invalid_bucket_handle)
  | (some (a, bucket), w0) =>
    let r1 := w0.call self.red_client (.open_root bucket.handle)
    if r1.1.rs ≠ RED_SUCCESS then
      (r1.1.rs, shared_ptr.release (r1.2.log (.open_root_failed r1.1.rs)) a)
    else
      let r2 := r1.2.call self.red_client
        (.openat r1.1.oh key (O_CREAT ||| O_WRONLY) 0o644)
      if r2.1.rs ≠ RED_SUCCESS then
        let w3 := (r2.2.log (.open_file_failed key r2.1.rs)).call self.red_client
          (.close r1.1.oh)
        (r2.1.rs, shared_ptr.release w3.2 a)
      else
        let r3 := r2.2.call self.red_client (.pwrite r2.1.oh data size 0)
        let w4 :=
          if r3.1.rs ≠ RED_SUCCESS ∨ r3.1.nbytes ≠ ssize_cast size then
            r3.2.log (.write_failed r3.1.rs)
          else r3.2
        let w5 := (w4.call self.red_client (.close r2.1.oh)).2
        let w6 := (w5.call self.red_client (.close r1.1.oh)).2
        (r3.1.rs, shared_ptr.release w6 a)

/-- Method `s3client::get_object`: the returned status, the content of
`*bytes_read` after the call (`bytes_read0` is its content before), and the
world after the call. -/
def s3client.get_object (self : s3client) (w : S3World) (bucket_weak : Option Nat)
    (key : String) (buffer : String) (size : Nat) (bytes_read0 : Int) :
    Int × Int × S3World :=
  match weak_ptr.lock w bucket_weak with
  | (none, w0) => (RED_EINVAL, bytes_read0, w0.log .invalid_bucket_handle)
  | (some (a, bucket), w0) =>
    let r1 := w0.call self.red_client (.open_root bucket.handle)
    if r1.1.rs ≠ RED_SUCCESS then
      (r1.1.rs, bytes_read0, shared_ptr.release (r1.2.log (.open_root_failed r1.1.rs)) a)
    else
      let r2 := r1.2.call self.red_client (.openat r1.1.oh key O_RDONLY 0)
      if r2.1.rs ≠ RED_SUCCESS then
        let w3 := (r2.2.log (.open_file_failed key r2.1.rs)).call self.red_client
          (.close r1.1.oh)
        (r2.1.rs, bytes_read0, shared_ptr.release w3.2 a)
      else
        let r3 := r2.2.call self.red_client (.pread r2.1.oh buffer size 0)
        let w4 :=
          if r3.1.rs ≠ RED_SUCCESS then r3.2.log (.read_failed r3.1.rs) else r3.2
        let w5 := (w4.call self.red_client (.close r2.1.oh)).2
        let w6 := (w5.call self.red_client (.close r1.1.oh)).2
        (r3.1.rs, r3.1.nbytes, shared_ptr.release w6 a)

/-- The handles that a successful `open_root` or `openat` returned, in order. -/
def opened : List (Request × Reply) → List rfs_open_hndl_t
  | [] => []
  | (.open_root _, r) :: l => if r.rs = RED_SUCCESS then r.oh :: opened l else opened l
  | (.openat _ _ _ _, r) :: l => if r.rs = RED_SUCCESS then r.oh :: opened l else opened l
  | _ :: l => opened l

/-- The handles passed to `close`, in order. -/
def closed : List (Request × Reply) → List rfs_open_hndl_t
  | [] => []
  | (.close oh, _) :: l => oh :: closed l
  | _ :: l => closed l

/-- The handles passed to `close_dataset`, in order. -/
def closedDatasets : List (Request × Reply) → List rfs_dataset_hndl_t
  | [] => []
  | (.close_dataset h, _) :: l => h :: closedDatasets l
  | _ :: l => closedDatasets l

/-- The requests of a list of exchanges. -/
def requests (l : List (Request × Reply)) : List Request := l.map Prod.fst

/-- The requests `open_root`, `openat`, `pwrite` and `pread`: the steps of
`put_object` and `get_object` whose status decides the result. -/
def Request.isStep : Request → Bool
  | .open_root _ => true
  | .openat _ _ _ _ => true
  | .pwrite _ _ _ _ => true
  | .pread _ _ _ _ => true
  | _ => false

/-- Constructor `s3client::s3client`: no buckets yet. -/
def s3client.ctor (client : IRedClient) : s3client :=
  { buckets := [], red_client := client }

/-- An operation on the objects of a bucket, with its arguments. -/
inductive S3Op where
  | put (bucket_weak : Option Nat) (key data : String) (size : Nat)
  | get (bucket_weak : Option Nat) (key buffer : String) (size : Nat) (bytes_read0 : Int)

/-- A sequence of calls of `put_object` and `get_object` on the client. -/
def s3client.run (self : s3client) : S3World → List S3Op → S3World
  | w, [] => w
  | w, .put p key data size :: ops =>
    s3client.run self (self.put_object w p key data size).2 ops
  | w, .get p key buffer size n :: ops =>
    s3client.run self (self.get_object w p key buffer size n).2.2 ops

/-- A world without buckets, exchanges and log lines, with a library whose
`clear()` destroys the elements of a set from the last inserted to the
first. -/
def emptyS3 : S3World :=
  { objects := fun _ => none, next := 0, calls := [], logged := [],
    clear_order := List.reverse, clear_perm := List.reverse_perm }

/-- The mock client of the unit test `basic_test.cpp`: every method returns
`RED_SUCCESS`; `obtain_dataset` hands out the dataset handle `{1}`,
`open_root` the handle `{2}`, `openat` the handle `{3}`, and `pwrite` and
`pread` report the requested count. -/
def mockClient : IRedClient := fun _ q =>
  match q with
  | .obtain_dataset _ _ _ => { rs := 0, oh := ⟨0⟩, hndl := ⟨1⟩, nbytes := 0 }
  | .open_root _ => { rs := 0, oh := ⟨2⟩, hndl := ⟨0⟩, nbytes := 0 }
  | .openat _ _ _ _ => { rs := 0, oh := ⟨3⟩, hndl := ⟨0⟩, nbytes := 0 }
  | .pwrite _ _ count _ => { rs := 0, oh := ⟨0⟩, hndl := ⟨0⟩, nbytes := count }
  | .pread _ _ count _ => { rs := 0, oh := ⟨0⟩, hndl := ⟨0⟩, nbytes := count }
  | .close _ => { rs := 0, oh := ⟨0⟩, hndl := ⟨0⟩, nbytes := 0 }
  | .close_dataset _ => { rs := 0, oh := ⟨0⟩, hndl := ⟨0⟩, nbytes := 0 }

/-- The mock client of the unit test, except that `pwrite` fails with status
`wr` and every `close` returns status `cl`. -/
def mockWriteFails (wr cl : Int) : IRedClient := fun h q =>
  match q with
  | .pwrite _ _ _ _ => { rs := wr, oh := ⟨0⟩, hndl := ⟨0⟩, nbytes := -1 }
  | .close _ => { rs := cl, oh := ⟨0⟩, hndl := ⟨0⟩, nbytes := 0 }
  | _ => mockClient h q

/-- A world with one bucket at address 0 (dataset handle `{1}`, use count 1)
that belongs to a client with behaviour `c`. -/
def oneBucket (c : IRedClient) : S3World :=
  { objects := fun a =>
      if a = 0 then some ({ bucket_hndl := ⟨1⟩, bucket_name := "test_bucket",
                            red_client := c }, 1)
      else none
    next := 1, calls := [], logged := [],
    clear_order := List.reverse, clear_perm := List.reverse_perm }

/-- The three ways in which a run of `put_object` or `get_object` on a bucket
with dataset handle `h` can go once the bucket is locked: `open_root` fails;
`openat` fails and the root is closed; or the transfer `io` is made and both
handles are closed.  `rs` is the returned status and `tr` the exchanges of the
run. -/
def RunShape (h : rfs_dataset_hndl_t) (key : String) (flags mode : Nat)
    (io : rfs_open_hndl_t → Request) (rs : Int) (tr : List (Request × Reply)) : Prop :=
  (∃ r1 : Reply, r1.rs ≠ RED_SUCCESS ∧ rs = r1.rs ∧ tr = [(.open_root h, r1)]) ∨
  (∃ r1 r2 r3 : Reply, r1.rs = RED_SUCCESS ∧ r2.rs ≠ RED_SUCCESS ∧ rs = r2.rs ∧
    tr = [(.open_root h, r1), (.openat r1.oh key flags mode, r2), (.close r1.oh, r3)]) ∨
  (∃ r1 r2 r3 r4 r5 : Reply, r1.rs = RED_SUCCESS ∧ r2.rs = RED_SUCCESS ∧ rs = r3.rs ∧
    tr = [(.open_root h, r1), (.openat r1.oh key flags mode, r2), (io r2.oh, r3),
      (.close r2.oh, r4), (.close r1.oh, r5)])

/-- The run of the unit test `PutObject` against a client with behaviour `c`:
`put_object` of the 9 bytes "test data" under the key "test_object" into the
bucket at address 0 of `oneBucket c`. -/
def putRun (c : IRedClient) : Int × S3World :=
  s3client.put_object { buckets := [0], red_client := c } (oneBucket c) (some 0)
    "test_object" "test data" 9

/-! ## string_utils

A C string is the list of its characters before the terminating NUL.  The
allocator behind `strdup` is a parameter `mem`: the copy of `s` is made if
`mem s` holds, otherwise `strdup` returns `NULL` (`none`). -/

/-- The string literal "red". -/
def RED_STR : List Char := ['r', 'e', 'd']

/-- Library function `strdup` with the allocator `mem`. -/
def strdup (mem : List Char → Bool) (s : List Char) : Option (List Char) :=
  if mem s then some s else none

/-- Library function `strtok_r(str, delim, &saveptr)` on the string `str`
(for a call with `NULL`, the string that `saveptr` points to): `none` for
`NULL`, otherwise the token and the string `saveptr` points to afterwards.
Leading delimiters are skipped; the token ends before the next delimiter, which
is overwritten by NUL, and `saveptr` is set behind it. -/
def strtok_r (str delim : List Char) : Option (List Char × List Char) :=
  match str.dropWhile (fun c => delim.contains c) with
  | [] => none
  | c :: cs =>
    some ((c :: cs).takeWhile (fun x => !delim.contains x),
      ((c :: cs).dropWhile (fun x => !delim.contains x)).drop 1)

/-- The loop `while (*first_tenant == ' ') first_tenant++;`. -/
def skip_spaces (first_tenant : List Char) : List Char :=
  first_tenant.dropWhile (fun c => c == ' ')

/-- The loop that lowers `tenant_len` while the last character is a space,
followed by `first_tenant[tenant_len] = 0`. -/
def cut_trailing_spaces (first_tenant : List Char) : List Char :=
  (first_tenant.reverse.dropWhile (fun c => c == ' ')).reverse

/-- Function `common_split_tensubten` of `string_utils.c`: the strings stored
in `*ten` and `*subten` (`none` for `NULL`); the input `none` is `NULL`. -/
def common_split_tensubten (mem : List Char → Bool) (ten_subten : Option (List Char)) :
    Option (List Char) × Option (List Char) :=
  match ten_subten with
  | none => (strdup mem RED_STR, strdup mem RED_STR)
  | some [] => (strdup mem RED_STR, strdup mem RED_STR)
  | some (c :: cs) =>
    match strdup mem (c :: cs) with
    | none => (strdup mem RED_STR, strdup mem RED_STR)
    | some tenant_str =>
      match strtok_r tenant_str [','] with
      | none => (strdup mem RED_STR, strdup mem RED_STR)
      | some (first_tenant, _) =>
        match strdup mem (cut_trailing_spaces (skip_spaces first_tenant)) with
        | none => (strdup mem RED_STR, strdup mem RED_STR)
        | some dup =>
          match strtok_r dup ['/'] with
          | some (str, saveptr) =>
            (strdup mem str,
              match strtok_r saveptr ['/'] with
              | some (str2, _) => strdup mem str2
              | none => strdup mem RED_STR)
          | none => (strdup mem RED_STR, strdup mem RED_STR)

/-- Method `std::string::find_first_of`: position of the first character of
`s` that occurs in `chars`, `none` for `npos`. -/
def find_first_of : List Char → List Char → Option Nat
  | [], _ => none
  | c :: cs, chars =>
    if chars.contains c then some 0 else (find_first_of cs chars).map (· + 1)

/-- The loop `while ((pos = tenant_env.find_first_of(",")) != npos)` of
`common::split_tensubten`, run for at most `fuel` iterations: the values of
`tenant_env` and `tenant_vec` after the loop, `none` if the iterations do not
suffice. -/
def tenant_vec_loop : Nat → List Char → List (List Char) →
    Option (List Char × List (List Char))
  | 0, _, _ => none
  | fuel + 1, tenant_env, tenant_vec =>
    match find_first_of tenant_env [','] with
    | some pos =>
      tenant_vec_loop fuel (tenant_env.drop (pos + 1)) (tenant_vec ++ [tenant_env.take pos])
    | none => some (tenant_env, tenant_vec)

/-- Function `common::split_tensubten` of `string_utils.cpp`: the strings
stored in `*ten` and `*subten` (`none` for `NULL`).  The result is `none` when
`strdup` fails for `dup`, which the function passes on to `strtok_r`
unchecked. -/
def common.split_tensubten (mem : List Char → Bool) (ten_subten : List Char) :
    Option (Option (List Char) × Option (List Char)) :=
  match tenant_vec_loop (ten_subten.length + 1) ten_subten [] with
  | none => none
  | some (tenant_env, vec) =>
    match (if tenant_env.length > 0 then vec ++ [tenant_env] else vec) with
    | [] => some (strdup mem RED_STR, strdup mem RED_STR)
    | t0 :: _ =>
      match strdup mem t0 with
      | none => none
      | some dup =>
        match strtok_r dup ['/'] with
        | some (str, rem) =>
          some (strdup mem str,
            match strtok_r rem ['/'] with
            | some (str2, _) => strdup mem str2
            | none => strdup mem RED_STR)
        | none => some (strdup mem RED_STR, strdup mem RED_STR)

/-- An allocator that never fails. -/
def memOk : List Char → Bool := fun _ => true

/-! ## red_status.h, red_client_types.h, red_s3_api.h

The types `red_rc_t`, `red_status_t` and `red_s3_checksum_type_e` are C
integers of type `int`; addresses and `size_t` values are numbers below
`2 ^ 64`. -/

/-- Inline function `red_rc2status` of `red_status.h`. -/
def red_rc2status (rc : Int) : Int :=
  if rc < 0 then rc else RED_SUCCESS

/-- Enumerator `RED_S3CS_NONE` of `red_s3_checksum_type_e`. -/
def RED_S3CS_NONE : Int := 0

/-- Enumerator `RED_S3CS_CRC32`. -/
def RED_S3CS_CRC32 : Int := 1

/-- Enumerator `RED_S3CS_CRC32C`. -/
def RED_S3CS_CRC32C : Int := 2

/-- Enumerator `RED_S3CS_SHA1`. -/
def RED_S3CS_SHA1 : Int := 3

/-- Enumerator `RED_S3CS_SHA256`. -/
def RED_S3CS_SHA256 : Int := 4

/-- Enumerator `RED_S3CS_MD5`. -/
def RED_S3CS_MD5 : Int := 5

/-- Enumerator `RED_S3CS_CRC64NVME`. -/
def RED_S3CS_CRC64NVME : Int := 6

/-- Enumerator `RED_S3CS_UUID`. -/
def RED_S3CS_UUID : Int := 7

/-- Enumerator `RED_S3CS_GTX`. -/
def RED_S3CS_GTX : Int := 8

/-- Enumerator `RED_S3CS_TOTAL`. -/
def RED_S3CS_TOTAL : Int := 9

/-- Inline function `rfs_is_valid_etag_type` of `red_client_types.h`. -/
def rfs_is_valid_etag_type (type : Int) : Bool :=
  type == RED_S3CS_MD5 || type == RED_S3CS_CRC32C || type == RED_S3CS_UUID ||
    type == RED_S3CS_GTX

/-- Inline function `rfs_is_valid_checksum_type` of `red_client_types.h`. -/
def rfs_is_valid_checksum_type (type : Int) : Bool :=
  type == RED_S3CS_NONE || type == RED_S3CS_CRC32 || type == RED_S3CS_CRC32C ||
    type == RED_S3CS_CRC64NVME || type == RED_S3CS_SHA1 || type == RED_S3CS_SHA256

/-- The enumerators whose comment in `red_s3_checksum_type_e` names the ETag
as a use ("for the checksum or ETag", "for the ETag"), in the order of the
enumeration. -/
def documentedEtagTypes : List Int :=
  [RED_S3CS_CRC32C, RED_S3CS_MD5, RED_S3CS_UUID, RED_S3CS_GTX]

/-- The enumerators whose comment in `red_s3_checksum_type_e` names the
checksum as a use ("for the checksum", "for the checksum or ETag"), in the
order of the enumeration. -/
def documentedChecksumTypes : List Int :=
  [RED_S3CS_CRC32, RED_S3CS_CRC32C, RED_S3CS_SHA1, RED_S3CS_SHA256, RED_S3CS_CRC64NVME]

/-- Inline function `red_next_s3_partinfo` of `red_s3_api.h`, as a function of
the address `p` and of the field `p->xattr_info.etag_size`; the first argument
is the value of `sizeof(red_part_info_t)`.  The sums are `size_t` and
`uintptr_t` sums, and `~7LU` is `2 ^ 64 - 8`. -/
def red_next_s3_partinfo (sizeof_red_part_info_t p etag_size : Nat) : Nat :=
  let nob := (sizeof_red_part_info_t + etag_size) % 2 ^ 64
  ((p + nob + 7) % 2 ^ 64) &&& (2 ^ 64 - 8)

/-! ## hello_world.c, hello_world.cpp

The drivers call the storage one step after the other.  What a step hands back
is decided outside the driver, so the model takes it as input, one field per
call site. -/

/-- Status `RED_EIO` of `red_status.h`. -/
def RED_EIO : Int := -5

/-- Value of `EXIT_SUCCESS` in `stdlib.h`. -/
def EXIT_SUCCESS : Int := 0

/-- Value of `EXIT_FAILURE` in `stdlib.h`. -/
def EXIT_FAILURE : Int := 1

/-- What the calls of `example_create_object` (C) and `rfs_create_object`
(C++) hand back.  The fields `ctx_*` say whether `common_sync_api_init`
returned a context at the call site before that step (C only).  The other
fields are the statuses of the steps: in C the value of `common_sync_wait`
or of the helper function, in C++ the value of the wrapper in `red::` or of
the helper function.  `created_oh` and `reopened_oh` are the contents of
`obj_oh` after `red_s3_create_version` and after `red_s3_open`. -/
structure ObjectCalls where
  ctx_create : Bool
  create_version : Int
  created_oh : rfs_open_hndl_t
  write : Int
  set_acl : Int
  ctx_publish : Bool
  publish : Int
  ctx_close : Bool
  close : Int
  ctx_open : Bool
  s3_open : Int
  reopened_oh : rfs_open_hndl_t
  validate_etag : Int
  ctx_cleanup : Bool
  cleanup_close : Int
  deriving DecidableEq, Repr

/-- The code of `example_create_object` from the label `put_xerror` on, reached
with the values `obj_oh` and `rs`. -/
def example_create_object.put_xerror (k : ObjectCalls) (obj_oh : rfs_open_hndl_t)
    (rs : Int) : Int :=
  if RED_IS_VALID_OPEN_HANDLE obj_oh then
    if !k.ctx_cleanup then RED_ENOMEM
    else
      let rs := k.cleanup_close
      rs
  else rs

/-- Function `example_create_object` of `hello_world.c`: the returned
status. -/
def example_create_object (k : ObjectCalls) : Int :=
  if !k.ctx_create then RED_ENOMEM
  else
    let obj_oh := k.created_oh
    if k.create_version ≠ RED_SUCCESS then
      example_create_object.put_xerror k obj_oh k.create_version
    else if k.write ≠ RED_SUCCESS then
      example_create_object.put_xerror k obj_oh k.write
    else if k.set_acl ≠ RED_SUCCESS then
      example_create_object.put_xerror k obj_oh k.set_acl
    else if !k.ctx_publish then RED_ENOMEM
    else if k.publish ≠ RED_SUCCESS then
      example_create_object.put_xerror k obj_oh k.publish
    else if !k.ctx_close then RED_ENOMEM
    else if k.close ≠ RED_SUCCESS then
      example_create_object.put_xerror k obj_oh k.close
    else if !k.ctx_open then RED_ENOMEM
    else
      let obj_oh := k.reopened_oh
      if k.s3_open ≠ RED_SUCCESS then
        example_create_object.put_xerror k obj_oh k.s3_open
      else example_create_object.put_xerror k obj_oh k.validate_etag

/-- The code of `rfs_create_object` from the label `put_xerror` on, reached
with the values `obj_oh` and `rs`. -/
def rfs_create_object.put_xerror (k : ObjectCalls) (obj_oh : rfs_open_hndl_t)
    (rs : Int) : Int :=
  if RED_IS_VALID_OPEN_HANDLE obj_oh then
    let cls_rs := k.cleanup_close
    if cls_rs ≠ RED_SUCCESS then
      if rs = RED_SUCCESS then cls_rs else rs
    else rs
  else rs

/-- Function `rfs_create_object` of `hello_world.cpp`: the returned status. -/
def rfs_create_object (k : ObjectCalls) : Int :=
  let obj_oh := k.created_oh
  if k.create_version ≠ RED_SUCCESS then
    rfs_create_object.put_xerror k obj_oh k.create_version
  else if k.write ≠ RED_SUCCESS then
    rfs_create_object.put_xerror k obj_oh k.write
  else if k.set_acl ≠ RED_SUCCESS then
    rfs_create_object.put_xerror k obj_oh k.set_acl
  else if k.publish ≠ RED_SUCCESS then
    rfs_create_object.put_xerror k obj_oh k.publish
  else if k.close ≠ RED_SUCCESS then
    rfs_create_object.put_xerror k obj_oh k.close
  else
    let obj_oh := k.reopened_oh
    if k.s3_open ≠ RED_SUCCESS then
      rfs_create_object.put_xerror k obj_oh k.s3_open
    else rfs_create_object.put_xerror k obj_oh k.validate_etag

/-- A run in which the object is created with handle `{7}`, the write fails
with status `e`, and the close made at `put_xerror` returns `c`; every context
is allocated, and the steps that are not reached have status 0. -/
def writeFails (e c : Int) : ObjectCalls :=
  { ctx_create := true, create_version := 0, created_oh := ⟨7⟩, write := e, set_acl := 0,
    ctx_publish := true, publish := 0, ctx_close := true, close := 0, ctx_open := true,
    s3_open := 0, reopened_oh := ⟨8⟩, validate_etag := 0, ctx_cleanup := true,
    cleanup_close := c }

/-- What the calls of `main` hand back: the values of `parse_args`,
`red_client_lib_init_v3`, `red_client_is_ready`, `red_establish_session`, of
the function that opens the bucket and of the function that creates the
object. -/
structure MainCalls where
  parse_args : Int
  lib_init : Int
  is_ready : Bool
  establish_session : Int
  open_bucket : Int
  create_object : Int
  deriving DecidableEq, Repr

/-- The last statement of both `main` functions,
`exit(rs != RED_SUCCESS ? EXIT_FAILURE : EXIT_SUCCESS)`.  The cleanup between
the label `exit_error` and this statement assigns `rc`, `root_oh` and
`bucket_hndl` only. -/
def exit_error (rs : Int) : Int :=
  if rs ≠ RED_SUCCESS then EXIT_FAILURE else EXIT_SUCCESS

/-- Function `main` of `hello_world.c`: the exit status of the process. -/
def hello_world_c.main (k : MainCalls) : Int :=
  let rs := k.parse_args
  if rs ≠ RED_SUCCESS then EXIT_FAILURE
  else
    let rc := k.lib_init
    if rc ≠ 0 then EXIT_FAILURE
    else if !k.is_ready then EXIT_FAILURE
    else
      let rc := k.establish_session
      if rc ≠ RED_SUCCESS then exit_error rs
      else
        let rs := k.open_bucket
        if rs ≠ RED_SUCCESS then exit_error rs
        else
          let rs := k.create_object
          exit_error rs

/-- Function `main` of `hello_world.cpp`: the exit status of the process. -/
def hello_world_cpp.main (k : MainCalls) : Int :=
  let rs := k.parse_args
  if rs ≠ RED_SUCCESS then EXIT_FAILURE
  else
    let rc := k.lib_init
    if rc ≠ 0 then EXIT_FAILURE
    else if !k.is_ready then EXIT_FAILURE
    else
      let rc := k.establish_session
      if rc ≠ RED_SUCCESS then exit_error rs
      else
        let rs := k.open_bucket
        if rs ≠ RED_SUCCESS then exit_error rs
        else
          let rs := k.create_object
          exit_error rs

/-- A run of `main` in which `red_establish_session` returns `e` and every
other call succeeds. -/
def sessionFails (e : Int) : MainCalls :=
  { parse_args := 0, lib_init := 0, is_ready := true, establish_session := e,
    open_bucket := 0, create_object := 0 }

/-- Conversion `(size_t)write_ret_size` of an `ssize_t`. -/
def size_cast (n : Int) : Nat := (n % 2 ^ 64).toNat

/-- Function `rfs_example_write` of `hello_world.cpp`: `rs` and
`write_ret_size` are what `red::red_pwrite` handed back, `sha256_rc` and
`md5_rc` the values of the two calls of `red_dhash_data`.  The result is `none`
when the `assert` on the first of them fails. -/
def rfs_example_write (rs write_ret_size : Int) (io_size : Nat) (chksum_type : Int)
    (sha256_rc md5_rc : Int) : Option Int :=
  if rs ≠ RED_SUCCESS ∨ size_cast write_ret_size ≠ io_size % 2 ^ 64 then
    some (if rs = RED_SUCCESS then RED_EINVAL else rs)
  else if chksum_type = RED_S3CS_SHA256 ∧ sha256_rc ≠ 0 then none
  else if md5_rc ≠ 0 then some RED_EINVAL
  else some RED_SUCCESS

/-- The mock client of the unit test, except that `pwrite` succeeds with one
byte less than requested. -/
def mockShortWrite : IRedClient := fun h q =>
  match q with
  | .pwrite _ _ count _ => { rs := 0, oh := ⟨0⟩, hndl := ⟨0⟩, nbytes := (count : Int) - 1 }
  | _ => mockClient h q

/-- A client whose `obtain_dataset` fails with status `e`; the other methods
are those of the mock client of the unit test. -/
def mockObtainFails (e : Int) : IRedClient := fun h q =>
  match q with
  | .obtain_dataset _ _ _ => { rs := e, oh := ⟨0⟩, hndl := ⟨0⟩, nbytes := 0 }
  | _ => mockClient h q

/-! ## Basic facts about memory and log -/

@[simp] theorem emit_heap (w : World) (e : Event) : (w.emit e).heap = w.heap := rfl

@[simp] theorem emit_poll_fd (w : World) (e : Event) : (w.emit e).poll_fd = w.poll_fd := rfl

@[simp] theorem emit_log (w : World) (e : Event) : (w.emit e).log = w.log ++ [e] := rfl

@[simp] theorem store_heap_same (w : World) (a : Nat) (b : sync_api_t) :
    (w.store a b).heap a = b := by
  simp [World.store]

theorem store_heap_other (w : World) (a c : Nat) (b : sync_api_t) (h : c ≠ a) :
    (w.store a b).heap c = w.heap c := by
  simp [World.store, Function.update_noteq h]

@[simp] theorem store_poll_fd (w : World) (a : Nat) (b : sync_api_t) :
    (w.store a b).poll_fd = w.poll_fd := rfl

@[simp] theorem store_log (w : World) (a : Nat) (b : sync_api_t) :
    (w.store a b).log = w.log := rfl

theorem countPolls_append (l m : List Event) :
    countPolls (l ++ m) = countPolls l + countPolls m := by
  induction l with
  | nil => simp [countPolls]
  | cons e l ih => cases e <;> simp [countPolls, ih]; omega

theorem countDrains_append (l m : List Event) :
    countDrains (l ++ m) = countDrains l + countDrains m := by
  induction l with
  | nil => simp [countDrains]
  | cons e l ih => cases e <;> simp [countDrains, ih]; omega

theorem dispatched_append (l m : List Event) :
    dispatched (l ++ m) = dispatched l ++ dispatched m := by
  induction l with
  | nil => simp [dispatched]
  | cons e l ih => cases e <;> simp [dispatched, ih]

/-! ## The eventfd primitives -/

theorem sys_eventfd_write_log (w : World) (a : Nat) :
    (sys_eventfd_write w a).log = w.log ++ [.efd_write (w.heap a).eventfd.event_fd] := by
  simp only [sys_eventfd_write]
  split <;> simp

theorem sys_eventfd_write_rs (w : World) (a c : Nat) :
    ((sys_eventfd_write w a).heap c).rs = (w.heap c).rs := by
  simp only [sys_eventfd_write]
  by_cases h : c = a
  · subst h; split <;> simp
  · split <;> simp [store_heap_other _ _ _ _ h]

theorem sys_eventfd_write_ucb (w : World) (a c : Nat) :
    ((sys_eventfd_write w a).heap c).ucb = (w.heap c).ucb := by
  simp only [sys_eventfd_write]
  by_cases h : c = a
  · subst h; split <;> simp
  · split <;> simp [store_heap_other _ _ _ _ h]

theorem sys_eventfd_write_fd (w : World) (a c : Nat) :
    ((sys_eventfd_write w a).heap c).eventfd.event_fd = (w.heap c).eventfd.event_fd := by
  simp only [sys_eventfd_write]
  by_cases h : c = a
  · subst h; split <;> simp
  · split <;> simp [store_heap_other _ _ _ _ h]

theorem sys_eventfd_write_other (w : World) (a c : Nat) (h : c ≠ a) :
    (sys_eventfd_write w a).heap c = w.heap c := by
  simp only [sys_eventfd_write]
  split <;> simp [store_heap_other _ _ _ _ h]

theorem kick_log (w : World) (a : Nat) :
    (eventfd_t.kick w a).log = w.log ∨
    (eventfd_t.kick w a).log = w.log ++ [.efd_write (w.heap a).eventfd.event_fd] := by
  unfold eventfd_t.kick
  split
  · right; exact sys_eventfd_write_log w a
  · left; rfl

theorem kick_rs (w : World) (a c : Nat) :
    ((eventfd_t.kick w a).heap c).rs = (w.heap c).rs := by
  unfold eventfd_t.kick
  split
  · exact sys_eventfd_write_rs w a c
  · rfl

theorem sys_eventfd_write_poll_fd (w : World) (a : Nat) :
    (sys_eventfd_write w a).poll_fd = w.poll_fd := by
  simp only [sys_eventfd_write]
  split <;> simp

theorem sys_eventfd_write_counter_pos (w : World) (a : Nat)
    (h : 0 ≤ (w.heap a).eventfd.event_fd) :
    0 < ((sys_eventfd_write w a).heap a).eventfd.counter := by
  simp only [sys_eventfd_write]
  split
  · simp
  · rename_i hn
    have : ¬ ((w.heap a).eventfd.counter + 1 ≤ EFD_MAX) := fun hc => hn ⟨h, hc⟩
    simp only [emit_heap]
    unfold EFD_MAX at this
    omega

theorem sys_eventfd_read_log (w : World) (a : Nat) (r : ReadReply) :
    (sys_eventfd_read w a r).log = w.log ++ [.efd_read (w.heap a).eventfd.event_fd] := by
  simp only [sys_eventfd_read]
  split <;> simp

theorem sys_eventfd_read_poll_fd (w : World) (a : Nat) (r : ReadReply) :
    (sys_eventfd_read w a r).poll_fd = w.poll_fd := by
  simp only [sys_eventfd_read]
  split <;> simp

theorem sys_eventfd_read_rs (w : World) (a c : Nat) (r : ReadReply) :
    ((sys_eventfd_read w a r).heap c).rs = (w.heap c).rs := by
  simp only [sys_eventfd_read]
  by_cases h : c = a
  · subst h; split <;> simp
  · split <;> simp [store_heap_other _ _ _ _ h]

theorem sys_eventfd_read_ucb (w : World) (a c : Nat) (r : ReadReply) :
    ((sys_eventfd_read w a r).heap c).ucb = (w.heap c).ucb := by
  simp only [sys_eventfd_read]
  by_cases h : c = a
  · subst h; split <;> simp
  · split <;> simp [store_heap_other _ _ _ _ h]

theorem sys_eventfd_read_fd (w : World) (a c : Nat) (r : ReadReply) :
    ((sys_eventfd_read w a r).heap c).eventfd.event_fd = (w.heap c).eventfd.event_fd := by
  simp only [sys_eventfd_read]
  by_cases h : c = a
  · subst h; split <;> simp
  · split <;> simp [store_heap_other _ _ _ _ h]

theorem sys_eventfd_read_other (w : World) (a c : Nat) (r : ReadReply) (h : c ≠ a) :
    (sys_eventfd_read w a r).heap c = w.heap c := by
  simp only [sys_eventfd_read]
  split <;> simp [store_heap_other _ _ _ _ h]

/-- A successful read is reported as `true` by `eventfd_t::read`. -/
theorem eventfd_read_true (w : World) (this : Nat) (r : ReadReply) (reads : List ReadReply)
    (hfd : 0 ≤ (w.heap this).eventfd.event_fd) (hr : r.ret = 8) :
    eventfd_t.read w this (r :: reads) = some (true, sys_eventfd_read w this r, reads) := by
  have h1 : ¬ (w.heap this).eventfd.event_fd < 0 := by omega
  simp [eventfd_t.read, h1, eventfd_read, hr]

/-! ## The two completion callbacks -/

theorem done_rs (w : World) (this : Nat) (s : Int) :
    ((sync_api_t.done w this s).heap this).rs = s := by
  simp [sync_api_t.done, kick_rs]

theorem done_log (w : World) (this : Nat) (s : Int)
    (h : 0 ≤ (w.heap this).eventfd.event_fd) :
    (sync_api_t.done w this s).log = w.log ++ [.efd_write (w.heap this).eventfd.event_fd] := by
  simp [sync_api_t.done, eventfd_t.kick, h, sys_eventfd_write_log]

theorem done_counter_pos (w : World) (this : Nat) (s : Int)
    (h : 0 ≤ (w.heap this).eventfd.event_fd) :
    0 < ((sync_api_t.done w this s).heap this).eventfd.counter := by
  have h2 : 0 ≤ ((w.store this { w.heap this with rs := s }).heap this).eventfd.event_fd := by
    simpa using h
  simp only [sync_api_t.done, eventfd_t.kick, h2, if_true]
  exact sys_eventfd_write_counter_pos _ _ h2

theorem done_other (w : World) (this c : Nat) (s : Int) (h : c ≠ this) :
    (sync_api_t.done w this s).heap c = w.heap c := by
  simp only [sync_api_t.done, eventfd_t.kick]
  split
  · rw [sys_eventfd_write_other _ _ _ h, store_heap_other _ _ _ _ h]
  · rw [store_heap_other _ _ _ _ h]

theorem common_callback_rs (w : World) (ctx : Nat) (s : Int) :
    ((common_sync_api_callback w s ctx).heap ctx).rs = s := by
  simp [common_sync_api_callback, sys_eventfd_write_rs]

theorem common_callback_log (w : World) (ctx : Nat) (s : Int) :
    (common_sync_api_callback w s ctx).log
      = w.log ++ [.efd_write (w.heap ctx).eventfd.event_fd] := by
  simp [common_sync_api_callback, sys_eventfd_write_log]

theorem common_callback_counter_pos (w : World) (ctx : Nat) (s : Int)
    (h : 0 ≤ (w.heap ctx).eventfd.event_fd) :
    0 < ((common_sync_api_callback w s ctx).heap ctx).eventfd.counter := by
  have h2 : 0 ≤ ((w.store ctx { w.heap ctx with rs := s }).heap ctx).eventfd.event_fd := by
    simpa using h
  exact sys_eventfd_write_counter_pos _ _ h2

theorem common_callback_other (w : World) (ctx c : Nat) (s : Int) (h : c ≠ ctx) :
    (common_sync_api_callback w s ctx).heap c = w.heap c := by
  simp only [common_sync_api_callback]
  rw [sys_eventfd_write_other _ _ _ h, store_heap_other _ _ _ _ h]

theorem call_bridge_rs (w : World) (f : CbFun) (s : Int) (a : Nat)
    (hf : f.isBridge = true) : ((call w f s a).heap a).rs = s := by
  cases f
  · simp [CbFun.isBridge] at hf
  · exact done_rs w a s
  · exact common_callback_rs w a s
  · simp [CbFun.isBridge] at hf

theorem call_bridge_log (w : World) (f : CbFun) (s : Int) (a : Nat)
    (hf : f.isBridge = true) (h : 0 ≤ (w.heap a).eventfd.event_fd) :
    (call w f s a).log = w.log ++ [.efd_write (w.heap a).eventfd.event_fd] := by
  cases f
  · simp [CbFun.isBridge] at hf
  · exact done_log w a s h
  · exact common_callback_log w a s
  · simp [CbFun.isBridge] at hf

theorem call_bridge_counter_pos (w : World) (f : CbFun) (s : Int) (a : Nat)
    (hf : f.isBridge = true) (h : 0 ≤ (w.heap a).eventfd.event_fd) :
    0 < ((call w f s a).heap a).eventfd.counter := by
  cases f
  · simp [CbFun.isBridge] at hf
  · exact done_counter_pos w a s h
  · exact common_callback_counter_pos w a s h
  · simp [CbFun.isBridge] at hf

/-- Calling a callback with argument `a` leaves every other object as it is. -/
theorem call_other (w : World) (f : CbFun) (s : Int) (a c : Nat) (h : c ≠ a) :
    (call w f s a).heap c = w.heap c := by
  cases f
  · rfl
  · exact done_other w a c s h
  · exact common_callback_other w a c s h
  · rfl

/-! ## Stability of callback records and descriptors -/

theorem Stable.refl (w : World) : Stable w w := ⟨rfl, fun _ => ⟨rfl, rfl⟩⟩

theorem Stable.trans {u v w : World} (h1 : Stable u v) (h2 : Stable v w) : Stable u w :=
  ⟨h2.1.trans h1.1, fun c =>
    ⟨((h2.2 c).1).trans ((h1.2 c).1), ((h2.2 c).2).trans ((h1.2 c).2)⟩⟩

theorem stable_emit (w : World) (e : Event) : Stable w (w.emit e) :=
  ⟨rfl, fun _ => ⟨rfl, rfl⟩⟩

theorem stable_set_rs (w : World) (a : Nat) (s : Int) :
    Stable w (w.store a { w.heap a with rs := s }) := by
  refine ⟨rfl, fun c => ?_⟩
  by_cases h : c = a
  · subst h; simp
  · simp [store_heap_other _ _ _ _ h]

theorem stable_sys_eventfd_write (w : World) (a : Nat) : Stable w (sys_eventfd_write w a) :=
  ⟨sys_eventfd_write_poll_fd w a, fun c =>
    ⟨sys_eventfd_write_ucb w a c, sys_eventfd_write_fd w a c⟩⟩

theorem stable_sys_eventfd_read (w : World) (a : Nat) (r : ReadReply) :
    Stable w (sys_eventfd_read w a r) :=
  ⟨sys_eventfd_read_poll_fd w a r, fun c =>
    ⟨sys_eventfd_read_ucb w a c r, sys_eventfd_read_fd w a c r⟩⟩

theorem stable_kick (w : World) (a : Nat) : Stable w (eventfd_t.kick w a) := by
  unfold eventfd_t.kick
  split
  · exact stable_sys_eventfd_write w a
  · exact Stable.refl w

theorem stable_done (w : World) (this : Nat) (s : Int) :
    Stable w (sync_api_t.done w this s) :=
  (stable_set_rs w this s).trans (stable_kick _ this)

theorem stable_common_callback (w : World) (ctx : Nat) (s : Int) :
    Stable w (common_sync_api_callback w s ctx) :=
  (stable_set_rs w ctx s).trans (stable_sys_eventfd_write _ ctx)

theorem stable_call (w : World) (f : CbFun) (res : Int) (arg : Nat) :
    Stable w (call w f res arg) := by
  cases f
  · exact Stable.refl w
  · exact stable_done w arg res
  · exact stable_common_callback w arg res
  · exact Stable.refl w

theorem stable_deliver (w : World) (cs : List rfs_usercomp_t) : Stable w (deliver w cs) := by
  induction cs generalizing w with
  | nil => exact Stable.refl w
  | cons c cs ih =>
    exact ((stable_emit w _).trans (stable_call _ _ _ _)).trans (ih _)

theorem stable_sys_poll (w : World) (fd0 fd1 : Int) (p : PollReply) :
    Stable w (sys_poll w fd0 fd1 p) :=
  (stable_emit w _).trans (stable_deliver _ _)

/-! ## One iteration of the loop -/

theorem sys_poll_quiet (w : World) (fd0 fd1 : Int) (p : PollReply) (h : p.during = []) :
    sys_poll w fd0 fd1 p = w.emit (.poll fd0 fd1) := by
  simp [sys_poll, h, deliver]

theorem cpp_loop_retry (this : Nat) (fd0 fd1 : Int) (w : World) (p : PollReply)
    (polls : List PollReply) (reads : List ReadReply) (drains : List DrainReply)
    (h : (p.rc < 0 ∧ p.errno = EINTR) ∨ p.rc = 0) :
    sync_api_t.wait_loop this fd0 fd1 w (p :: polls) reads drains
      = sync_api_t.wait_loop this fd0 fd1 (sys_poll w fd0 fd1 p) polls reads drains := by
  rcases h with ⟨h1, h2⟩ | h1
  · simp [sync_api_t.wait_loop, h1, h2]
  · simp [sync_api_t.wait_loop, h1]

theorem cpp_loop_error (this : Nat) (fd0 fd1 : Int) (w : World) (p : PollReply)
    (polls : List PollReply) (reads : List ReadReply) (drains : List DrainReply)
    (h1 : p.rc < 0) (h2 : p.errno ≠ EINTR) :
    sync_api_t.wait_loop this fd0 fd1 w (p :: polls) reads drains
      = ⟨some RED_EINVAL, sys_poll w fd0 fd1 p, polls, reads, drains⟩ := by
  simp [sync_api_t.wait_loop, h1, h2]

theorem cpp_loop_own (this : Nat) (fd0 fd1 : Int) (w : World) (p : PollReply)
    (r : ReadReply)
    (polls : List PollReply) (reads : List ReadReply) (drains : List DrainReply)
    (h1 : 0 < p.rc) (h2 : p.revents0 &&& POLLIN ≠ 0)
    (hfd : 0 ≤ ((sys_poll w fd0 fd1 p).heap this).eventfd.event_fd) (hr : r.ret = 8) :
    sync_api_t.wait_loop this fd0 fd1 w (p :: polls) (r :: reads) drains
      = ⟨some ((sys_eventfd_read (sys_poll w fd0 fd1 p) this r).heap this).rs,
          sys_eventfd_read (sys_poll w fd0 fd1 p) this r, polls, reads, drains⟩ := by
  have a1 : ¬ p.rc < 0 := by omega
  have a2 : ¬ p.rc = 0 := by omega
  simp only [sync_api_t.wait_loop, a1, a2, if_false]
  rw [if_pos h2, eventfd_read_true _ _ _ _ hfd hr]

theorem cpp_loop_drain (this : Nat) (fd0 fd1 : Int) (w : World) (p : PollReply)
    (d : DrainReply)
    (polls : List PollReply) (reads : List ReadReply) (drains : List DrainReply)
    (h1 : 0 < p.rc) (h2 : ¬ (p.revents0 &&& POLLIN ≠ 0)) (h3 : p.revents1 &&& POLLIN ≠ 0) :
    sync_api_t.wait_loop this fd0 fd1 w (p :: polls) reads (d :: drains)
      = sync_api_t.wait_loop this fd0 fd1
          (if d.rc = 1 ∧ d.ucp.ucp_fun ≠ .null then
            call (((sys_poll w fd0 fd1 p).emit (.lib_poll 1)).emit (.dispatch d.ucp))
              d.ucp.ucp_fun d.ucp.ucp_res d.ucp.ucp_arg
          else (sys_poll w fd0 fd1 p).emit (.lib_poll 1))
          polls reads drains := by
  have a1 : ¬ p.rc < 0 := by omega
  have a2 : ¬ p.rc = 0 := by omega
  simp only [sync_api_t.wait_loop, a1, a2, if_false]
  rw [if_neg h2, if_pos h3]
  split <;> rfl

theorem c_loop_retry (ctx : Nat) (fd0 fd1 : Int) (w : World) (p : PollReply)
    (polls : List PollReply) (reads : List ReadReply) (drains : List DrainReply)
    (h : (p.rc < 0 ∧ p.errno = EINTR) ∨ p.rc = 0) :
    common_sync_wait_loop ctx fd0 fd1 w (p :: polls) reads drains
      = common_sync_wait_loop ctx fd0 fd1 (sys_poll w fd0 fd1 p) polls reads drains := by
  rcases h with ⟨h1, h2⟩ | h1
  · simp [common_sync_wait_loop, h1, h2]
  · simp [common_sync_wait_loop, h1]

theorem c_loop_error (ctx : Nat) (fd0 fd1 : Int) (w : World) (p : PollReply)
    (polls : List PollReply) (reads : List ReadReply) (drains : List DrainReply)
    (h1 : p.rc < 0) (h2 : p.errno ≠ EINTR) :
    common_sync_wait_loop ctx fd0 fd1 w (p :: polls) reads drains
      = ⟨some RED_EINVAL, sys_poll w fd0 fd1 p, polls, reads, drains⟩ := by
  simp [common_sync_wait_loop, h1, h2]

theorem c_loop_own (ctx : Nat) (fd0 fd1 : Int) (w : World) (p : PollReply)
    (r : ReadReply)
    (polls : List PollReply) (reads : List ReadReply) (drains : List DrainReply)
    (h1 : 0 < p.rc) (h2 : p.revents0 &&& POLLIN ≠ 0) (hr : r.ret = 8) :
    common_sync_wait_loop ctx fd0 fd1 w (p :: polls) (r :: reads) drains
      = ⟨some ((sys_eventfd_read (sys_poll w fd0 fd1 p) ctx r).heap ctx).rs,
          sys_eventfd_read (sys_poll w fd0 fd1 p) ctx r, polls, reads, drains⟩ := by
  have a1 : ¬ p.rc < 0 := by omega
  have a2 : ¬ p.rc = 0 := by omega
  simp only [common_sync_wait_loop, a1, a2, if_false]
  rw [if_pos h2]
  simp [hr]

theorem c_loop_drain (ctx : Nat) (fd0 fd1 : Int) (w : World) (p : PollReply)
    (d : DrainReply)
    (polls : List PollReply) (reads : List ReadReply) (drains : List DrainReply)
    (h1 : 0 < p.rc) (h2 : ¬ (p.revents0 &&& POLLIN ≠ 0)) (h3 : p.revents1 &&& POLLIN ≠ 0) :
    common_sync_wait_loop ctx fd0 fd1 w (p :: polls) reads (d :: drains)
      = common_sync_wait_loop ctx fd0 fd1
          (if d.rc = 1 ∧ d.ucp.ucp_fun ≠ .null then
            call (((sys_poll w fd0 fd1 p).emit (.lib_poll 1)).emit (.dispatch d.ucp))
              d.ucp.ucp_fun d.ucp.ucp_res d.ucp.ucp_arg
          else (sys_poll w fd0 fd1 p).emit (.lib_poll 1))
          polls reads drains := by
  have a1 : ¬ p.rc < 0 := by omega
  have a2 : ¬ p.rc = 0 := by omega
  simp only [common_sync_wait_loop, a1, a2, if_false]
  rw [if_neg h2, if_pos h3]
  split <;> rfl

theorem cpp_wait_accepted (w : World) (this : Nat)
    (polls : List PollReply) (reads : List ReadReply) (drains : List DrainReply) :
    sync_api_t.wait w this 0 polls reads drains
      = sync_api_t.wait_loop this (w.heap this).eventfd.event_fd w.poll_fd w
          polls reads drains := by
  simp [sync_api_t.wait]

theorem c_wait_accepted (w : World) (ctx : Nat)
    (polls : List PollReply) (reads : List ReadReply) (drains : List DrainReply) :
    common_sync_wait w ctx 0 polls reads drains
      = common_sync_wait_loop ctx (w.heap ctx).eventfd.event_fd w.poll_fd w
          polls reads drains := by
  simp [common_sync_wait]

/-! ## Two bridges on one thread -/

theorem stable_fd {w v : World} (h : Stable w v) (c : Nat) :
    (v.heap c).eventfd.event_fd = (w.heap c).eventfd.event_fd := (h.2 c).2

/-- State and log after the scenario "the drain step of the bridge at `b1`
calls the callback of the bridge at `b2`, then the runtime completes `b1`
directly during the next `poll`, then `b1` consumes its signal". -/
theorem two_bridge_run (w : World) (b1 b2 : Nat) (S1 S2 : Int) (f1 f2 : CbFun)
    (r : ReadReply) (fd pfd : Int) (c1 c2 : rfs_usercomp_t)
    (hne : b1 ≠ b2)
    (hfd1 : 0 ≤ (w.heap b1).eventfd.event_fd) (hfd2 : 0 ≤ (w.heap b2).eventfd.event_fd)
    (hf1 : f1.isBridge = true) (hf2 : f2.isBridge = true) :
    ((sys_eventfd_read (call (((call (((w.emit (.poll fd pfd)).emit (.lib_poll 1)).emit
        (.dispatch c2)) f2 S2 b2).emit (.poll fd pfd)).emit (.direct c1)) f1 S1 b1)
        b1 r).heap b1).rs = S1 ∧
    ((sys_eventfd_read (call (((call (((w.emit (.poll fd pfd)).emit (.lib_poll 1)).emit
        (.dispatch c2)) f2 S2 b2).emit (.poll fd pfd)).emit (.direct c1)) f1 S1 b1)
        b1 r).heap b2).rs = S2 ∧
    0 < ((sys_eventfd_read (call (((call (((w.emit (.poll fd pfd)).emit (.lib_poll 1)).emit
        (.dispatch c2)) f2 S2 b2).emit (.poll fd pfd)).emit (.direct c1)) f1 S1 b1)
        b1 r).heap b2).eventfd.counter ∧
    (sys_eventfd_read (call (((call (((w.emit (.poll fd pfd)).emit (.lib_poll 1)).emit
        (.dispatch c2)) f2 S2 b2).emit (.poll fd pfd)).emit (.direct c1)) f1 S1 b1)
        b1 r).log
      = w.log ++ [.poll fd pfd, .lib_poll 1, .dispatch c2,
          .efd_write (w.heap b2).eventfd.event_fd, .poll fd pfd, .direct c1,
          .efd_write (w.heap b1).eventfd.event_fd,
          .efd_read (w.heap b1).eventfd.event_fd] := by
  have hne2 : b2 ≠ b1 := fun h => hne h.symm
  have s2 : Stable w (call (((w.emit (.poll fd pfd)).emit (.lib_poll 1)).emit
      (.dispatch c2)) f2 S2 b2) :=
    (stable_emit w _).trans ((stable_emit _ _).trans ((stable_emit _ _).trans
      (stable_call _ _ _ _)))
  have s3 : Stable w (call (((call (((w.emit (.poll fd pfd)).emit (.lib_poll 1)).emit
      (.dispatch c2)) f2 S2 b2).emit (.poll fd pfd)).emit (.direct c1)) f1 S1 b1) :=
    s2.trans ((stable_emit _ _).trans ((stable_emit _ _).trans (stable_call _ _ _ _)))
  have g1 : 0 ≤ ((((call (((w.emit (.poll fd pfd)).emit (.lib_poll 1)).emit
      (.dispatch c2)) f2 S2 b2).emit (.poll fd pfd)).emit (.direct c1)).heap
      b1).eventfd.event_fd := by
    simp only [emit_heap]; rw [stable_fd s2]; exact hfd1
  have g2 : 0 ≤ ((((w.emit (.poll fd pfd)).emit (.lib_poll 1)).emit
      (.dispatch c2)).heap b2).eventfd.event_fd := by
    simp only [emit_heap]; exact hfd2
  refine ⟨?_, ?_, ?_, ?_⟩
  · rw [sys_eventfd_read_rs, call_bridge_rs _ _ _ _ hf1]
  · rw [sys_eventfd_read_rs, call_other _ _ _ _ _ hne2]
    simp only [emit_heap]
    rw [call_bridge_rs _ _ _ _ hf2]
  · rw [sys_eventfd_read_other _ _ _ _ hne2, call_other _ _ _ _ _ hne2]
    simp only [emit_heap]
    exact call_bridge_counter_pos _ _ _ _ hf2 g2
  · rw [sys_eventfd_read_log, stable_fd s3, call_bridge_log _ _ _ _ hf1 g1]
    simp only [emit_heap, emit_log]
    rw [stable_fd s2, call_bridge_log _ _ _ _ hf2 g2]
    simp only [emit_heap, emit_log, List.append_assoc, List.singleton_append,
      List.cons_append, List.nil_append]

/-! ## Retried wakeups -/

theorem cpp_loop_retries (this : Nat) (fd0 fd1 : Int) (rest : List PollReply)
    (reads : List ReadReply) (drains : List DrainReply) :
    ∀ (pre : List PollReply) (w : World),
      (∀ q ∈ pre, q.during = [] ∧ ((q.rc < 0 ∧ q.errno = EINTR) ∨ q.rc = 0)) →
      ∃ v : World, v.heap = w.heap ∧ v.poll_fd = w.poll_fd ∧
        v.log = w.log ++ List.replicate pre.length (.poll fd0 fd1) ∧
        sync_api_t.wait_loop this fd0 fd1 w (pre ++ rest) reads drains
          = sync_api_t.wait_loop this fd0 fd1 v rest reads drains := by
  intro pre
  induction pre with
  | nil => intro w _; exact ⟨w, rfl, rfl, by simp, rfl⟩
  | cons q pre ih =>
    intro w h
    have hq := h q (List.mem_cons_self _ _)
    obtain ⟨v, h1, h2, h3, h4⟩ := ih (w.emit (.poll fd0 fd1))
      (fun x hx => h x (List.mem_cons_of_mem _ hx))
    refine ⟨v, h1, h2, ?_, ?_⟩
    · rw [h3]; simp [List.replicate_succ]
    · rw [List.cons_append, cpp_loop_retry _ _ _ _ _ _ _ _ hq.2, sys_poll_quiet _ _ _ _ hq.1]
      exact h4

theorem c_loop_retries (ctx : Nat) (fd0 fd1 : Int) (rest : List PollReply)
    (reads : List ReadReply) (drains : List DrainReply) :
    ∀ (pre : List PollReply) (w : World),
      (∀ q ∈ pre, q.during = [] ∧ ((q.rc < 0 ∧ q.errno = EINTR) ∨ q.rc = 0)) →
      ∃ v : World, v.heap = w.heap ∧ v.poll_fd = w.poll_fd ∧
        v.log = w.log ++ List.replicate pre.length (.poll fd0 fd1) ∧
        common_sync_wait_loop ctx fd0 fd1 w (pre ++ rest) reads drains
          = common_sync_wait_loop ctx fd0 fd1 v rest reads drains := by
  intro pre
  induction pre with
  | nil => intro w _; exact ⟨w, rfl, rfl, by simp, rfl⟩
  | cons q pre ih =>
    intro w h
    have hq := h q (List.mem_cons_self _ _)
    obtain ⟨v, h1, h2, h3, h4⟩ := ih (w.emit (.poll fd0 fd1))
      (fun x hx => h x (List.mem_cons_of_mem _ hx))
    refine ⟨v, h1, h2, ?_, ?_⟩
    · rw [h3]; simp [List.replicate_succ]
    · rw [List.cons_append, c_loop_retry _ _ _ _ _ _ _ _ hq.2, sys_poll_quiet _ _ _ _ hq.1]
      exact h4

/-! ## What the primitives add to the log -/

theorem call_log_cases (w : World) (f : CbFun) (s : Int) (a : Nat) :
    (call w f s a).log = w.log ∨ ∃ fd, (call w f s a).log = w.log ++ [.efd_write fd] := by
  cases f
  · left; rfl
  · rcases kick_log (w.store a { w.heap a with rs := s }) a with h | h
    · left; simpa [call, sync_api_t.callback, sync_api_t.done] using h
    · right; exact ⟨_, by simpa [call, sync_api_t.callback, sync_api_t.done] using h⟩
  · right; exact ⟨_, common_callback_log w a s⟩
  · left; rfl

theorem countPolls_call (w : World) (f : CbFun) (s : Int) (a : Nat) :
    countPolls (call w f s a).log = countPolls w.log := by
  rcases call_log_cases w f s a with h | ⟨fd, h⟩
  · rw [h]
  · rw [h, countPolls_append]; simp [countPolls]

theorem countDrains_call (w : World) (f : CbFun) (s : Int) (a : Nat) :
    countDrains (call w f s a).log = countDrains w.log := by
  rcases call_log_cases w f s a with h | ⟨fd, h⟩
  · rw [h]
  · rw [h, countDrains_append]; simp [countDrains]

theorem dispatched_call (w : World) (f : CbFun) (s : Int) (a : Nat) :
    dispatched (call w f s a).log = dispatched w.log := by
  rcases call_log_cases w f s a with h | ⟨fd, h⟩
  · rw [h]
  · rw [h, dispatched_append]; simp [dispatched]

theorem countPolls_deliver (w : World) (cs : List rfs_usercomp_t) :
    countPolls (deliver w cs).log = countPolls w.log := by
  induction cs generalizing w with
  | nil => rfl
  | cons c cs ih =>
    simp only [deliver]
    rw [ih, countPolls_call, emit_log, countPolls_append]; simp [countPolls]

theorem countDrains_deliver (w : World) (cs : List rfs_usercomp_t) :
    countDrains (deliver w cs).log = countDrains w.log := by
  induction cs generalizing w with
  | nil => rfl
  | cons c cs ih =>
    simp only [deliver]
    rw [ih, countDrains_call, emit_log, countDrains_append]; simp [countDrains]

theorem dispatched_deliver (w : World) (cs : List rfs_usercomp_t) :
    dispatched (deliver w cs).log = dispatched w.log := by
  induction cs generalizing w with
  | nil => rfl
  | cons c cs ih =>
    simp only [deliver]
    rw [ih, dispatched_call, emit_log, dispatched_append]; simp [dispatched]

theorem countPolls_sys_poll (w : World) (fd0 fd1 : Int) (p : PollReply) :
    countPolls (sys_poll w fd0 fd1 p).log = countPolls w.log + 1 := by
  simp only [sys_poll]
  rw [countPolls_deliver, emit_log, countPolls_append]; simp [countPolls]

theorem countDrains_sys_poll (w : World) (fd0 fd1 : Int) (p : PollReply) :
    countDrains (sys_poll w fd0 fd1 p).log = countDrains w.log := by
  simp only [sys_poll]
  rw [countDrains_deliver, emit_log, countDrains_append]; simp [countDrains]

theorem dispatched_sys_poll (w : World) (fd0 fd1 : Int) (p : PollReply) :
    dispatched (sys_poll w fd0 fd1 p).log = dispatched w.log := by
  simp only [sys_poll]
  rw [dispatched_deliver, emit_log, dispatched_append]; simp [dispatched]

theorem countPolls_sys_eventfd_read (w : World) (a : Nat) (r : ReadReply) :
    countPolls (sys_eventfd_read w a r).log = countPolls w.log := by
  rw [sys_eventfd_read_log, countPolls_append]; simp [countPolls]

theorem countDrains_sys_eventfd_read (w : World) (a : Nat) (r : ReadReply) :
    countDrains (sys_eventfd_read w a r).log = countDrains w.log := by
  rw [sys_eventfd_read_log, countDrains_append]; simp [countDrains]

theorem dispatched_sys_eventfd_read (w : World) (a : Nat) (r : ReadReply) :
    dispatched (sys_eventfd_read w a r).log = dispatched w.log := by
  rw [sys_eventfd_read_log, dispatched_append]; simp [dispatched]

/-! ## Every run of the loop -/

theorem trace_return (this : Nat) (w v : World) (drains : List DrainReply) (o : Outcome)
    (hs : Stable w v) (hp : countPolls w.log + 1 ≤ countPolls v.log)
    (hd : dispatched v.log = dispatched w.log)
    (hw : o.world = v) (hdr : o.drains = drains)
    (hr : ∀ s, o.ret = some s → s = RED_EINVAL ∨ s = (v.heap this).rs) :
    Trace this w drains o := by
  refine ⟨by rw [hw]; exact hs, by rw [hw]; exact hp, by rw [hw]; exact hr, [], ?_, ?_⟩
  · rw [hdr]; rfl
  · rw [hw, hd]; simp

theorem trace_step (this : Nat) (w v : World) (drains : List DrainReply) (o : Outcome)
    (hs : Stable w v) (hp : countPolls w.log ≤ countPolls v.log)
    (hd : dispatched v.log = dispatched w.log)
    (h : Trace this v drains o) : Trace this w drains o := by
  obtain ⟨h1, h2, h3, used, h4, h5⟩ := h
  refine ⟨hs.trans h1, by omega, h3, used, h4, ?_⟩
  rw [h5, hd]

theorem trace_drain_step (this : Nat) (w v : World) (d : DrainReply)
    (drains : List DrainReply) (o : Outcome)
    (hs : Stable w v) (hp : countPolls w.log ≤ countPolls v.log)
    (hd : dispatched v.log = dispatched w.log ++ (if d.invoked then [d.ucp] else []))
    (h : Trace this v drains o) : Trace this w (d :: drains) o := by
  obtain ⟨h1, h2, h3, used, h4, h5⟩ := h
  refine ⟨hs.trans h1, by omega, h3, d :: used, by rw [h4]; rfl, ?_⟩
  rw [h5, hd]
  by_cases hi : d.invoked = true
  · simp [List.filter, hi]
  · simp [List.filter, hi]

/-- What `eventfd_t::read` may change. -/
theorem eventfd_t_read_facts (w v : World) (this : Nat) (reads rest : List ReadReply)
    (b : Bool) (h : eventfd_t.read w this reads = some (b, v, rest)) :
    Stable w v ∧ countPolls v.log = countPolls w.log ∧
      dispatched v.log = dispatched w.log := by
  unfold eventfd_t.read at h
  split at h
  · simp only [Option.some.injEq, Prod.mk.injEq] at h
    obtain ⟨_, h2, _⟩ := h
    subst h2
    exact ⟨Stable.refl _, rfl, rfl⟩
  · cases reads with
    | nil => simp at h
    | cons r reads =>
      have hv : v = sys_eventfd_read w this r := by
        simp only at h
        split at h
        · split at h <;>
            (simp only [Option.some.injEq, Prod.mk.injEq] at h; exact h.2.1.symm)
        · simp only [Option.some.injEq, Prod.mk.injEq] at h; exact h.2.1.symm
      subst hv
      exact ⟨stable_sys_eventfd_read _ _ _, countPolls_sys_eventfd_read _ _ _,
        dispatched_sys_eventfd_read _ _ _⟩

/-- World after the drain step of an iteration. -/
theorem drain_step_facts (w1 : World) (d : DrainReply) :
    Stable w1 (if d.rc = 1 ∧ d.ucp.ucp_fun ≠ .null then
        call ((w1.emit (.lib_poll 1)).emit (.dispatch d.ucp))
          d.ucp.ucp_fun d.ucp.ucp_res d.ucp.ucp_arg
      else w1.emit (.lib_poll 1)) ∧
    countPolls (if d.rc = 1 ∧ d.ucp.ucp_fun ≠ .null then
        call ((w1.emit (.lib_poll 1)).emit (.dispatch d.ucp))
          d.ucp.ucp_fun d.ucp.ucp_res d.ucp.ucp_arg
      else w1.emit (.lib_poll 1)).log = countPolls w1.log ∧
    dispatched (if d.rc = 1 ∧ d.ucp.ucp_fun ≠ .null then
        call ((w1.emit (.lib_poll 1)).emit (.dispatch d.ucp))
          d.ucp.ucp_fun d.ucp.ucp_res d.ucp.ucp_arg
      else w1.emit (.lib_poll 1)).log
      = dispatched w1.log ++ (if d.invoked then [d.ucp] else []) := by
  by_cases hc : d.rc = 1 ∧ d.ucp.ucp_fun ≠ .null
  · have hi : d.invoked = true := by simp [DrainReply.invoked, hc]
    rw [if_pos hc, hi]
    refine ⟨(stable_emit _ _).trans ((stable_emit _ _).trans (stable_call _ _ _ _)), ?_, ?_⟩
    · rw [countPolls_call]; simp [countPolls_append, countPolls]
    · rw [dispatched_call]; simp [dispatched_append, dispatched]
  · have hi : d.invoked = false := by simp [DrainReply.invoked, hc]
    rw [if_neg hc, hi]
    refine ⟨stable_emit _ _, ?_, ?_⟩
    · simp [countPolls_append, countPolls]
    · simp [dispatched_append, dispatched]

theorem cpp_loop_trace (this : Nat) (fd0 fd1 : Int) :
    ∀ (polls : List PollReply) (w : World) (reads : List ReadReply)
      (drains : List DrainReply),
      Trace this w drains (sync_api_t.wait_loop this fd0 fd1 w polls reads drains) := by
  intro polls
  induction polls with
  | nil =>
    intro w reads drains
    simp only [sync_api_t.wait_loop]
    exact trace_return this w _ drains _ (stable_emit _ _)
      (by simp [countPolls_append, countPolls]) (by simp [dispatched_append, dispatched])
      rfl rfl (by intro s hs; simp at hs)
  | cons p polls ih =>
    intro w reads drains
    have hs := stable_sys_poll w fd0 fd1 p
    have hp := countPolls_sys_poll w fd0 fd1 p
    have hd := dispatched_sys_poll w fd0 fd1 p
    simp only [sync_api_t.wait_loop]
    split
    · split
      · exact trace_step this w _ drains _ hs (by omega) hd (ih _ _ _)
      · exact trace_return this w _ drains _ hs (by omega) hd rfl rfl
          (by intro s hs; left; simpa using hs.symm)
    · split
      · exact trace_step this w _ drains _ hs (by omega) hd (ih _ _ _)
      · split
        · split
          · exact trace_return this w _ drains _ (hs.trans (stable_emit _ _))
              (by simp [countPolls_append, countPolls, hp]) (by
                simp [dispatched_append, dispatched, hd])
              rfl rfl (by intro s hs; simp at hs)
          · rename_i w2 reads2 he
            obtain ⟨f1, f2, f3⟩ := eventfd_t_read_facts _ _ _ _ _ _ he
            exact trace_step this w _ drains _ (hs.trans f1) (by omega) (by rw [f3, hd])
              (ih _ _ _)
          · rename_i w2 reads2 he
            obtain ⟨f1, f2, f3⟩ := eventfd_t_read_facts _ _ _ _ _ _ he
            exact trace_return this w _ drains _ (hs.trans f1) (by omega) (by rw [f3, hd])
              rfl rfl (by intro s hs; right; simpa using hs.symm)
        · split
          · cases drains with
            | nil =>
              exact trace_return this w _ [] _ (hs.trans (stable_emit _ _))
                (by simp [countPolls_append, countPolls, hp]) (by
                  simp [dispatched_append, dispatched, hd])
                rfl rfl (by intro s hs; simp at hs)
            | cons d drains2 =>
              obtain ⟨g1, g2, g3⟩ := drain_step_facts (sys_poll w fd0 fd1 p) d
              have key := trace_drain_step this w _ d drains2 _ (hs.trans g1) (by omega)
                (by rw [g3, hd]) (ih _ reads drains2)
              simp only
              split
              · rename_i hc
                rw [if_pos hc] at key
                exact key
              · rename_i hc
                rw [if_neg hc] at key
                exact key
          · exact trace_step this w _ drains _ hs (by omega) hd (ih _ _ _)

theorem c_loop_trace (ctx : Nat) (fd0 fd1 : Int) :
    ∀ (polls : List PollReply) (w : World) (reads : List ReadReply)
      (drains : List DrainReply),
      Trace ctx w drains (common_sync_wait_loop ctx fd0 fd1 w polls reads drains) := by
  intro polls
  induction polls with
  | nil =>
    intro w reads drains
    simp only [common_sync_wait_loop]
    exact trace_return ctx w _ drains _ (stable_emit _ _)
      (by simp [countPolls_append, countPolls]) (by simp [dispatched_append, dispatched])
      rfl rfl (by intro s hs; simp at hs)
  | cons p polls ih =>
    intro w reads drains
    have hs := stable_sys_poll w fd0 fd1 p
    have hp := countPolls_sys_poll w fd0 fd1 p
    have hd := dispatched_sys_poll w fd0 fd1 p
    simp only [common_sync_wait_loop]
    split
    · split
      · exact trace_step ctx w _ drains _ hs (by omega) hd (ih _ _ _)
      · exact trace_return ctx w _ drains _ hs (by omega) hd rfl rfl
          (by intro s hs; left; simpa using hs.symm)
    · split
      · exact trace_step ctx w _ drains _ hs (by omega) hd (ih _ _ _)
      · split
        · cases reads with
          | nil =>
            exact trace_return ctx w _ drains _ (hs.trans (stable_emit _ _))
              (by simp [countPolls_append, countPolls, hp]) (by
                simp [dispatched_append, dispatched, hd])
              rfl rfl (by intro s hs; simp at hs)
          | cons r reads2 =>
            have f1 := stable_sys_eventfd_read (sys_poll w fd0 fd1 p) ctx r
            have f2 := countPolls_sys_eventfd_read (sys_poll w fd0 fd1 p) ctx r
            have f3 := dispatched_sys_eventfd_read (sys_poll w fd0 fd1 p) ctx r
            simp only
            split
            · exact trace_step ctx w _ drains _ (hs.trans f1) (by omega) (by rw [f3, hd])
                (ih _ _ _)
            · exact trace_return ctx w _ drains _ (hs.trans f1) (by omega) (by rw [f3, hd])
                rfl rfl (by intro s hs; right; simpa using hs.symm)
        · split
          · cases drains with
            | nil =>
              exact trace_return ctx w _ [] _ (hs.trans (stable_emit _ _))
                (by simp [countPolls_append, countPolls, hp]) (by
                  simp [dispatched_append, dispatched, hd])
                rfl rfl (by intro s hs; simp at hs)
            | cons d drains2 =>
              obtain ⟨g1, g2, g3⟩ := drain_step_facts (sys_poll w fd0 fd1 p) d
              have key := trace_drain_step ctx w _ d drains2 _ (hs.trans g1) (by omega)
                (by rw [g3, hd]) (ih _ reads drains2)
              simp only
              split
              · rename_i hc
                rw [if_pos hc] at key
                exact key
              · rename_i hc
                rw [if_neg hc] at key
                exact key
          · exact trace_step ctx w _ drains _ hs (by omega) hd (ih _ _ _)

theorem cpp_wait_trace (w : World) (this : Nat)
    (polls : List PollReply) (reads : List ReadReply) (drains : List DrainReply) :
    Trace this w drains (sync_api_t.wait w this 0 polls reads drains) := by
  rw [cpp_wait_accepted]
  exact cpp_loop_trace _ _ _ _ _ _ _

theorem c_wait_trace (w : World) (ctx : Nat)
    (polls : List PollReply) (reads : List ReadReply) (drains : List DrainReply) :
    Trace ctx w drains (common_sync_wait w ctx 0 polls reads drains) := by
  rw [c_wait_accepted]
  exact c_loop_trace _ _ _ _ _ _ _

theorem cpp_wait_rejected (w : World) (this : Nat) (r : Int) (h : r ≠ 0)
    (polls : List PollReply) (reads : List ReadReply) (drains : List DrainReply) :
    sync_api_t.wait w this r polls reads drains
      = ⟨some ((sync_api_t.done w this r).heap this).rs, sync_api_t.done w this r,
          polls, reads, drains⟩ := by
  simp [sync_api_t.wait, h]

theorem c_wait_rejected (w : World) (ctx : Nat) (r : Int) (h : r ≠ 0)
    (polls : List PollReply) (reads : List ReadReply) (drains : List DrainReply) :
    common_sync_wait w ctx r polls reads drains
      = ⟨some r, w.store ctx { w.heap ctx with rs := r }, polls, reads, drains⟩ := by
  simp [common_sync_wait, h]

theorem countPolls_done (w : World) (this : Nat) (s : Int) :
    countPolls (sync_api_t.done w this s).log = countPolls w.log :=
  countPolls_call w .sync_api_callback s this

/-! ## Own completion returned by the drain primitive -/

/-- State and log after the scenario "the drain step of the bridge at `b`
calls the bridge's own callback, the next `poll` reports its signal, and the
bridge consumes it". -/
theorem own_drain_run (w : World) (b : Nat) (S : Int) (f : CbFun)
    (r : ReadReply) (fd pfd : Int) (c : rfs_usercomp_t)
    (hfd : 0 ≤ (w.heap b).eventfd.event_fd) (hf : f.isBridge = true) :
    ((sys_eventfd_read ((call (((w.emit (.poll fd pfd)).emit (.lib_poll 1)).emit
        (.dispatch c)) f S b).emit (.poll fd pfd)) b r).heap b).rs = S ∧
    (sys_eventfd_read ((call (((w.emit (.poll fd pfd)).emit (.lib_poll 1)).emit
        (.dispatch c)) f S b).emit (.poll fd pfd)) b r).log
      = w.log ++ [.poll fd pfd, .lib_poll 1, .dispatch c,
          .efd_write (w.heap b).eventfd.event_fd, .poll fd pfd,
          .efd_read (w.heap b).eventfd.event_fd] := by
  have s2 : Stable w (call (((w.emit (.poll fd pfd)).emit (.lib_poll 1)).emit
      (.dispatch c)) f S b) :=
    (stable_emit w _).trans ((stable_emit _ _).trans ((stable_emit _ _).trans
      (stable_call _ _ _ _)))
  have g2 : 0 ≤ ((((w.emit (.poll fd pfd)).emit (.lib_poll 1)).emit
      (.dispatch c)).heap b).eventfd.event_fd := by
    simp only [emit_heap]; exact hfd
  constructor
  · rw [sys_eventfd_read_rs, emit_heap, call_bridge_rs _ _ _ _ hf]
  · rw [sys_eventfd_read_log, emit_heap, stable_fd s2, emit_log,
      call_bridge_log _ _ _ _ hf g2]
    simp only [emit_heap, emit_log, List.append_assoc, List.singleton_append,
      List.cons_append, List.nil_append]

/-- State and log after the scenario "the runtime completes the bridge at `b`
directly while `poll` is blocked, `poll` reports the signal, and the bridge
consumes it". -/
theorem own_direct_run (w : World) (b : Nat) (S : Int) (f : CbFun)
    (r : ReadReply) (fd pfd : Int) (c : rfs_usercomp_t)
    (hfd : 0 ≤ (w.heap b).eventfd.event_fd) (hf : f.isBridge = true) :
    ((sys_eventfd_read (call ((w.emit (.poll fd pfd)).emit (.direct c)) f S b)
        b r).heap b).rs = S ∧
    (sys_eventfd_read (call ((w.emit (.poll fd pfd)).emit (.direct c)) f S b) b r).log
      = w.log ++ [.poll fd pfd, .direct c, .efd_write (w.heap b).eventfd.event_fd,
          .efd_read (w.heap b).eventfd.event_fd] := by
  have s2 : Stable w (call ((w.emit (.poll fd pfd)).emit (.direct c)) f S b) :=
    (stable_emit w _).trans ((stable_emit _ _).trans (stable_call _ _ _ _))
  have g2 : 0 ≤ (((w.emit (.poll fd pfd)).emit (.direct c)).heap b).eventfd.event_fd := by
    simp only [emit_heap]; exact hfd
  constructor
  · rw [sys_eventfd_read_rs, call_bridge_rs _ _ _ _ hf]
  · rw [sys_eventfd_read_log, stable_fd s2, call_bridge_log _ _ _ _ hf g2]
    simp only [emit_heap, emit_log, List.append_assoc, List.singleton_append,
      List.cons_append, List.nil_append]

/-! ## Claims -/

/-- C1: a negative submission result `r` is returned as it is by both bridges
(`sync_api_t::wait` and `common_sync_wait`), whatever the state of the bridge;
no reply of the readiness wait or of the drain primitive is consumed, and the
log gains no call of `poll` and no call of `red_client_lib_poll`. -/
theorem wait_rejected_returns_without_polling (w : World) (this : Nat) (r : Int)
    (polls : List PollReply) (reads : List ReadReply) (drains : List DrainReply)
    (h : r < 0) :
    ((sync_api_t.wait w this r polls reads drains).ret = some r ∧
      (sync_api_t.wait w this r polls reads drains).polls = polls ∧
      (sync_api_t.wait w this r polls reads drains).drains = drains ∧
      countPolls (sync_api_t.wait w this r polls reads drains).world.log = countPolls w.log ∧
      countDrains (sync_api_t.wait w this r polls reads drains).world.log
        = countDrains w.log) ∧
    ((common_sync_wait w this r polls reads drains).ret = some r ∧
      (common_sync_wait w this r polls reads drains).polls = polls ∧
      (common_sync_wait w this r polls reads drains).drains = drains ∧
      countPolls (common_sync_wait w this r polls reads drains).world.log = countPolls w.log ∧
      countDrains (common_sync_wait w this r polls reads drains).world.log
        = countDrains w.log) := by
  have hr : r ≠ 0 := by omega
  constructor
  · have e : sync_api_t.wait w this r polls reads drains
        = ⟨some ((sync_api_t.done w this r).heap this).rs, sync_api_t.done w this r,
            polls, reads, drains⟩ := by
      simp [sync_api_t.wait, hr]
    rw [e]
    refine ⟨?_, rfl, rfl, ?_, ?_⟩
    · simp [sync_api_t.done, kick_rs]
    · rcases kick_log (w.store this { w.heap this with rs := r }) this with h1 | h1
      · simp [sync_api_t.done, h1]
      · simp [sync_api_t.done, h1, countPolls_append, countPolls]
    · rcases kick_log (w.store this { w.heap this with rs := r }) this with h1 | h1
      · simp [sync_api_t.done, h1]
      · simp [sync_api_t.done, h1, countDrains_append, countDrains]
  · simp [common_sync_wait, hr]

/-- Witness of C1 at the out-of-memory status `-12`. -/
theorem wait_rejected_returns_without_polling_witness :
    (-12 : Int) < 0 ∧
    (sync_api_t.wait cppWorld 1 (-12) [pollOwn] [] []).ret = some (-12) ∧
    (sync_api_t.wait cppWorld 1 (-12) [pollOwn] [] []).polls = [pollOwn] ∧
    (common_sync_wait cWorld 1 (-12) [pollOwn] [] []).ret = some (-12) ∧
    (common_sync_wait cWorld 1 (-12) [pollOwn] [] []).polls = [pollOwn] :=
  ⟨by decide,
    (wait_rejected_returns_without_polling cppWorld 1 (-12) [pollOwn] [] [] (by decide)).1.1,
    (wait_rejected_returns_without_polling cppWorld 1 (-12) [pollOwn] [] [] (by decide)).1.2.1,
    (wait_rejected_returns_without_polling cWorld 1 (-12) [pollOwn] [] [] (by decide)).2.1,
    (wait_rejected_returns_without_polling cWorld 1 (-12) [pollOwn] [] [] (by decide)).2.2.1⟩

/-- C2: the call was accepted (`rc = 0`) and the runtime completed it once
with status `S` through the bridge's own callback record, which records `S` and
raises the bridge's private signal.  When the readiness wait then reports the
private signal and the read of it succeeds, `wait(0)` returns `S`, having
called `poll` once and consumed the signal once; nothing follows the consume
(no further `poll`, no drain).  Both for `sync_api_t::wait` and for
`common_sync_wait`. -/
theorem wait_returns_signalled_status (w : World) (this : Nat) (S : Int)
    (p : PollReply) (r : ReadReply)
    (polls : List PollReply) (reads : List ReadReply) (drains : List DrainReply)
    (hfd : 0 ≤ (w.heap this).eventfd.event_fd)
    (hq : p.during = []) (hrc : 0 < p.rc) (hin : p.revents0 &&& POLLIN ≠ 0)
    (hr : r.ret = 8) :
    ((sync_api_t.get_ucb w this).ucb_fun = .sync_api_callback ∧
        (sync_api_t.get_ucb w this).ucb_arg = this →
      ((complete w (sync_api_t.get_ucb w this) S).heap this).rs = S ∧
      0 < ((complete w (sync_api_t.get_ucb w this) S).heap this).eventfd.counter ∧
      (sync_api_t.wait (complete w (sync_api_t.get_ucb w this) S) this 0
          (p :: polls) (r :: reads) drains).ret = some S ∧
      (sync_api_t.wait (complete w (sync_api_t.get_ucb w this) S) this 0
          (p :: polls) (r :: reads) drains).polls = polls ∧
      (sync_api_t.wait (complete w (sync_api_t.get_ucb w this) S) this 0
          (p :: polls) (r :: reads) drains).reads = reads ∧
      (sync_api_t.wait (complete w (sync_api_t.get_ucb w this) S) this 0
          (p :: polls) (r :: reads) drains).drains = drains ∧
      (sync_api_t.wait (complete w (sync_api_t.get_ucb w this) S) this 0
          (p :: polls) (r :: reads) drains).world.log
        = w.log ++ [.efd_write (w.heap this).eventfd.event_fd,
            .poll (w.heap this).eventfd.event_fd w.poll_fd,
            .efd_read (w.heap this).eventfd.event_fd]) ∧
    ((w.heap this).ucb.ucb_fun = .common_sync_api_callback ∧
        (w.heap this).ucb.ucb_arg = this →
      ((complete w (w.heap this).ucb S).heap this).rs = S ∧
      0 < ((complete w (w.heap this).ucb S).heap this).eventfd.counter ∧
      (common_sync_wait (complete w (w.heap this).ucb S) this 0
          (p :: polls) (r :: reads) drains).ret = some S ∧
      (common_sync_wait (complete w (w.heap this).ucb S) this 0
          (p :: polls) (r :: reads) drains).polls = polls ∧
      (common_sync_wait (complete w (w.heap this).ucb S) this 0
          (p :: polls) (r :: reads) drains).reads = reads ∧
      (common_sync_wait (complete w (w.heap this).ucb S) this 0
          (p :: polls) (r :: reads) drains).drains = drains ∧
      (common_sync_wait (complete w (w.heap this).ucb S) this 0
          (p :: polls) (r :: reads) drains).world.log
        = w.log ++ [.efd_write (w.heap this).eventfd.event_fd,
            .poll (w.heap this).eventfd.event_fd w.poll_fd,
            .efd_read (w.heap this).eventfd.event_fd]) := by
  constructor
  · rintro ⟨hf, ha⟩
    have hc : complete w (sync_api_t.get_ucb w this) S = sync_api_t.done w this S := by
      simp only [complete, hf, ha, call, sync_api_t.callback]
    have hst := stable_done w this S
    have hfd1 : ((sync_api_t.done w this S).heap this).eventfd.event_fd
        = (w.heap this).eventfd.event_fd := (hst.2 this).2
    have hfd2 : 0 ≤ ((sys_poll (sync_api_t.done w this S)
        ((sync_api_t.done w this S).heap this).eventfd.event_fd
        (sync_api_t.done w this S).poll_fd p).heap this).eventfd.event_fd := by
      rw [sys_poll_quiet _ _ _ _ hq, emit_heap, hfd1]; exact hfd
    rw [hc, cpp_wait_accepted, cpp_loop_own _ _ _ _ _ _ _ _ _ hrc hin hfd2 hr]
    refine ⟨done_rs w this S, done_counter_pos w this S hfd, ?_, rfl, rfl, rfl, ?_⟩
    · simp only [sys_eventfd_read_rs, sys_poll_quiet _ _ _ _ hq, emit_heap, done_rs]
    · simp only [sys_eventfd_read_log, sys_poll_quiet _ _ _ _ hq, emit_heap, emit_log,
        done_log w this S hfd, hfd1, hst.1, List.append_assoc, List.singleton_append,
        List.cons_append, List.nil_append]
  · rintro ⟨hf, ha⟩
    have hc : complete w (w.heap this).ucb S = common_sync_api_callback w S this := by
      simp only [complete, hf, ha, call]
    have hst := stable_common_callback w this S
    have hfd1 : ((common_sync_api_callback w S this).heap this).eventfd.event_fd
        = (w.heap this).eventfd.event_fd := (hst.2 this).2
    rw [hc, c_wait_accepted, c_loop_own _ _ _ _ _ _ _ _ _ hrc hin hr]
    refine ⟨common_callback_rs w this S, common_callback_counter_pos w this S hfd,
      ?_, rfl, rfl, rfl, ?_⟩
    · simp only [sys_eventfd_read_rs, sys_poll_quiet _ _ _ _ hq, emit_heap,
        common_callback_rs]
    · simp only [sys_eventfd_read_log, sys_poll_quiet _ _ _ _ hq, emit_heap, emit_log,
        common_callback_log, hfd1, hst.1, List.append_assoc, List.singleton_append,
        List.cons_append, List.nil_append]

/-- Witness of C2 at status `S = 0`, on freshly constructed bridges. -/
theorem wait_returns_signalled_status_witness :
    (sync_api_t.wait (complete cppWorld (sync_api_t.get_ucb cppWorld 1) 0) 1 0
        [pollOwn] [readOk] []).ret = some 0 ∧
    (common_sync_wait (complete cWorld (cWorld.heap 1).ucb 0) 1 0
        [pollOwn] [readOk] []).ret = some 0 :=
  ⟨((wait_returns_signalled_status cppWorld 1 0 pollOwn readOk [] [] []
        (by decide) rfl (by decide) (by decide) rfl).1 ⟨rfl, rfl⟩).2.2.1,
    ((wait_returns_signalled_status cWorld 1 0 pollOwn readOk [] [] []
        (by decide) rfl (by decide) (by decide) rfl).2 ⟨rfl, rfl⟩).2.2.1⟩

/-- C3: two bridges at `b1` and `b2` on the same thread.  While `b1` waits, the
first `poll` reports only the runtime descriptor and the drain primitive
returns the completion of `b2` (callback record of `b2`, result `S2`); only
during the second `poll` the runtime completes `b1` with `S1`, and that `poll`
reports the private signal of `b1`.  Then the wait of `b1` calls the callback
of `b2` (the status of `b2` becomes `S2` and its signal is raised) before it
consumes its own signal, and returns `S1`.  Both for `sync_api_t::wait` and
for `common_sync_wait`. -/
theorem foreign_completion_dispatched_before_own (w : World) (b1 b2 : Nat) (S1 S2 : Int)
    (p1 p2 : PollReply) (r : ReadReply)
    (polls : List PollReply) (reads : List ReadReply) (drains : List DrainReply)
    (hne : b1 ≠ b2)
    (hfd1 : 0 ≤ (w.heap b1).eventfd.event_fd) (hfd2 : 0 ≤ (w.heap b2).eventfd.event_fd)
    (ha1 : (w.heap b1).ucb.ucb_arg = b1) (ha2 : (w.heap b2).ucb.ucb_arg = b2)
    (hq1 : p1.during = []) (hrc1 : 0 < p1.rc)
    (hown1 : ¬ (p1.revents0 &&& POLLIN ≠ 0)) (hrt1 : p1.revents1 &&& POLLIN ≠ 0)
    (hq2 : p2.during = [completion (w.heap b1).ucb S1]) (hrc2 : 0 < p2.rc)
    (hown2 : p2.revents0 &&& POLLIN ≠ 0)
    (hr : r.ret = 8) :
    ((w.heap b1).ucb.ucb_fun = .sync_api_callback ∧
        (w.heap b2).ucb.ucb_fun = .sync_api_callback →
      ∀ o : Outcome,
        o = sync_api_t.wait w b1 0 (p1 :: p2 :: polls) (r :: reads)
              (⟨1, completion (w.heap b2).ucb S2⟩ :: drains) →
        o.ret = some S1 ∧ (o.world.heap b2).rs = S2 ∧
        0 < (o.world.heap b2).eventfd.counter ∧
        o.world.log = w.log ++
          [.poll (w.heap b1).eventfd.event_fd w.poll_fd, .lib_poll 1,
            .dispatch (completion (w.heap b2).ucb S2),
            .efd_write (w.heap b2).eventfd.event_fd,
            .poll (w.heap b1).eventfd.event_fd w.poll_fd,
            .direct (completion (w.heap b1).ucb S1),
            .efd_write (w.heap b1).eventfd.event_fd,
            .efd_read (w.heap b1).eventfd.event_fd] ∧
        o.polls = polls ∧ o.reads = reads ∧ o.drains = drains) ∧
    ((w.heap b1).ucb.ucb_fun = .common_sync_api_callback ∧
        (w.heap b2).ucb.ucb_fun = .common_sync_api_callback →
      ∀ o : Outcome,
        o = common_sync_wait w b1 0 (p1 :: p2 :: polls) (r :: reads)
              (⟨1, completion (w.heap b2).ucb S2⟩ :: drains) →
        o.ret = some S1 ∧ (o.world.heap b2).rs = S2 ∧
        0 < (o.world.heap b2).eventfd.counter ∧
        o.world.log = w.log ++
          [.poll (w.heap b1).eventfd.event_fd w.poll_fd, .lib_poll 1,
            .dispatch (completion (w.heap b2).ucb S2),
            .efd_write (w.heap b2).eventfd.event_fd,
            .poll (w.heap b1).eventfd.event_fd w.poll_fd,
            .direct (completion (w.heap b1).ucb S1),
            .efd_write (w.heap b1).eventfd.event_fd,
            .efd_read (w.heap b1).eventfd.event_fd] ∧
        o.polls = polls ∧ o.reads = reads ∧ o.drains = drains) := by
  constructor
  · intro ⟨hf1, hf2⟩ o ho
    have b1f : ((w.heap b1).ucb.ucb_fun).isBridge = true := by rw [hf1]; rfl
    have b2f : ((w.heap b2).ucb.ucb_fun).isBridge = true := by rw [hf2]; rfl
    have hd : (1 : Int) = 1 ∧ (completion (w.heap b2).ucb S2).ucp_fun ≠ CbFun.null := by
      simp [completion, hf2]
    have e1 : sys_poll w (w.heap b1).eventfd.event_fd w.poll_fd p1
        = w.emit (.poll (w.heap b1).eventfd.event_fd w.poll_fd) := sys_poll_quiet _ _ _ _ hq1
    have e2 : ∀ v : World, sys_poll v (w.heap b1).eventfd.event_fd w.poll_fd p2
        = call ((v.emit (.poll (w.heap b1).eventfd.event_fd w.poll_fd)).emit
            (.direct (completion (w.heap b1).ucb S1))) (w.heap b1).ucb.ucb_fun S1 b1 := by
      intro v
      simp only [sys_poll, hq2, deliver, completion, ha1]
    have g : 0 ≤ ((sys_poll (call (((w.emit (.poll (w.heap b1).eventfd.event_fd
        w.poll_fd)).emit (.lib_poll 1)).emit (.dispatch (completion (w.heap b2).ucb S2)))
        (w.heap b2).ucb.ucb_fun S2 b2) (w.heap b1).eventfd.event_fd w.poll_fd p2).heap
        b1).eventfd.event_fd := by
      rw [stable_fd ((stable_emit w _).trans ((stable_emit _ _).trans ((stable_emit _ _).trans
        ((stable_call _ _ _ _).trans (stable_sys_poll _ _ _ _)))))]
      exact hfd1
    have key : o = ⟨some ((sys_eventfd_read (call (((call (((w.emit
          (.poll (w.heap b1).eventfd.event_fd w.poll_fd)).emit (.lib_poll 1)).emit
          (.dispatch (completion (w.heap b2).ucb S2))) (w.heap b2).ucb.ucb_fun S2 b2).emit
          (.poll (w.heap b1).eventfd.event_fd w.poll_fd)).emit
          (.direct (completion (w.heap b1).ucb S1))) (w.heap b1).ucb.ucb_fun S1 b1)
          b1 r).heap b1).rs,
        sys_eventfd_read (call (((call (((w.emit
          (.poll (w.heap b1).eventfd.event_fd w.poll_fd)).emit (.lib_poll 1)).emit
          (.dispatch (completion (w.heap b2).ucb S2))) (w.heap b2).ucb.ucb_fun S2 b2).emit
          (.poll (w.heap b1).eventfd.event_fd w.poll_fd)).emit
          (.direct (completion (w.heap b1).ucb S1))) (w.heap b1).ucb.ucb_fun S1 b1)
          b1 r, polls, reads, drains⟩ := by
      rw [ho, cpp_wait_accepted, cpp_loop_drain _ _ _ _ _ _ _ _ _ hrc1 hown1 hrt1, if_pos hd, e1]
      have hu : (completion (w.heap b2).ucb S2).ucp_arg = b2 := ha2
      have hv : (completion (w.heap b2).ucb S2).ucp_fun = (w.heap b2).ucb.ucb_fun := rfl
      have hx : (completion (w.heap b2).ucb S2).ucp_res = S2 := rfl
      simp only [hu, hv, hx]
      rw [cpp_loop_own _ _ _ _ _ _ _ _ _ hrc2 hown2 g hr, e2]
    have facts := two_bridge_run w b1 b2 S1 S2 (w.heap b1).ucb.ucb_fun (w.heap b2).ucb.ucb_fun
      r (w.heap b1).eventfd.event_fd w.poll_fd (completion (w.heap b1).ucb S1)
      (completion (w.heap b2).ucb S2) hne hfd1 hfd2 b1f b2f
    rw [key]
    exact ⟨congrArg some facts.1, facts.2.1, facts.2.2.1, facts.2.2.2, rfl, rfl, rfl⟩
  · intro ⟨hf1, hf2⟩ o ho
    have b1f : ((w.heap b1).ucb.ucb_fun).isBridge = true := by rw [hf1]; rfl
    have b2f : ((w.heap b2).ucb.ucb_fun).isBridge = true := by rw [hf2]; rfl
    have hd : (1 : Int) = 1 ∧ (completion (w.heap b2).ucb S2).ucp_fun ≠ CbFun.null := by
      simp [completion, hf2]
    have e1 : sys_poll w (w.heap b1).eventfd.event_fd w.poll_fd p1
        = w.emit (.poll (w.heap b1).eventfd.event_fd w.poll_fd) := sys_poll_quiet _ _ _ _ hq1
    have e2 : ∀ v : World, sys_poll v (w.heap b1).eventfd.event_fd w.poll_fd p2
        = call ((v.emit (.poll (w.heap b1).eventfd.event_fd w.poll_fd)).emit
            (.direct (completion (w.heap b1).ucb S1))) (w.heap b1).ucb.ucb_fun S1 b1 := by
      intro v
      simp only [sys_poll, hq2, deliver, completion, ha1]
    have g : 0 ≤ ((sys_poll (call (((w.emit (.poll (w.heap b1).eventfd.event_fd
        w.poll_fd)).emit (.lib_poll 1)).emit (.dispatch (completion (w.heap b2).ucb S2)))
        (w.heap b2).ucb.ucb_fun S2 b2) (w.heap b1).eventfd.event_fd w.poll_fd p2).heap
        b1).eventfd.event_fd := by
      rw [stable_fd ((stable_emit w _).trans ((stable_emit _ _).trans ((stable_emit _ _).trans
        ((stable_call _ _ _ _).trans (stable_sys_poll _ _ _ _)))))]
      exact hfd1
    have key : o = ⟨some ((sys_eventfd_read (call (((call (((w.emit
          (.poll (w.heap b1).eventfd.event_fd w.poll_fd)).emit (.lib_poll 1)).emit
          (.dispatch (completion (w.heap b2).ucb S2))) (w.heap b2).ucb.ucb_fun S2 b2).emit
          (.poll (w.heap b1).eventfd.event_fd w.poll_fd)).emit
          (.direct (completion (w.heap b1).ucb S1))) (w.heap b1).ucb.ucb_fun S1 b1)
          b1 r).heap b1).rs,
        sys_eventfd_read (call (((call (((w.emit
          (.poll (w.heap b1).eventfd.event_fd w.poll_fd)).emit (.lib_poll 1)).emit
          (.dispatch (completion (w.heap b2).ucb S2))) (w.heap b2).ucb.ucb_fun S2 b2).emit
          (.poll (w.heap b1).eventfd.event_fd w.poll_fd)).emit
          (.direct (completion (w.heap b1).ucb S1))) (w.heap b1).ucb.ucb_fun S1 b1)
          b1 r, polls, reads, drains⟩ := by
      rw [ho, c_wait_accepted, c_loop_drain _ _ _ _ _ _ _ _ _ hrc1 hown1 hrt1, if_pos hd, e1]
      have hu : (completion (w.heap b2).ucb S2).ucp_arg = b2 := ha2
      have hv : (completion (w.heap b2).ucb S2).ucp_fun = (w.heap b2).ucb.ucb_fun := rfl
      have hx : (completion (w.heap b2).ucb S2).ucp_res = S2 := rfl
      simp only [hu, hv, hx]
      rw [c_loop_own _ _ _ _ _ _ _ _ _ hrc2 hown2 hr, e2]
    have facts := two_bridge_run w b1 b2 S1 S2 (w.heap b1).ucb.ucb_fun (w.heap b2).ucb.ucb_fun
      r (w.heap b1).eventfd.event_fd w.poll_fd (completion (w.heap b1).ucb S1)
      (completion (w.heap b2).ucb S2) hne hfd1 hfd2 b1f b2f
    rw [key]
    exact ⟨congrArg some facts.1, facts.2.1, facts.2.2.1, facts.2.2.2, rfl, rfl, rfl⟩

/-- Witness of C3: bridges at addresses 1 and 2, `S1 = 7`, `S2 = -5`. -/
theorem foreign_completion_dispatched_before_own_witness :
    (sync_api_t.wait cppWorld 1 0
        [pollRuntime, pollOwnAfter [completion (cppWorld.heap 1).ucb 7]] [readOk]
        [⟨1, completion (cppWorld.heap 2).ucb (-5)⟩]).ret = some 7 ∧
    ((sync_api_t.wait cppWorld 1 0
        [pollRuntime, pollOwnAfter [completion (cppWorld.heap 1).ucb 7]] [readOk]
        [⟨1, completion (cppWorld.heap 2).ucb (-5)⟩]).world.heap 2).rs = -5 ∧
    (common_sync_wait cWorld 1 0
        [pollRuntime, pollOwnAfter [completion (cWorld.heap 1).ucb 7]] [readOk]
        [⟨1, completion (cWorld.heap 2).ucb (-5)⟩]).ret = some 7 ∧
    ((common_sync_wait cWorld 1 0
        [pollRuntime, pollOwnAfter [completion (cWorld.heap 1).ucb 7]] [readOk]
        [⟨1, completion (cWorld.heap 2).ucb (-5)⟩]).world.heap 2).rs = -5 :=
  ⟨((foreign_completion_dispatched_before_own cppWorld 1 2 7 (-5) pollRuntime
        (pollOwnAfter [completion (cppWorld.heap 1).ucb 7]) readOk [] [] []
        (by decide) (by decide) (by decide) rfl rfl rfl (by decide) (by decide) (by decide)
        rfl (by decide) (by decide) rfl).1 ⟨rfl, rfl⟩ _ rfl).1,
    ((foreign_completion_dispatched_before_own cppWorld 1 2 7 (-5) pollRuntime
        (pollOwnAfter [completion (cppWorld.heap 1).ucb 7]) readOk [] [] []
        (by decide) (by decide) (by decide) rfl rfl rfl (by decide) (by decide) (by decide)
        rfl (by decide) (by decide) rfl).1 ⟨rfl, rfl⟩ _ rfl).2.1,
    ((foreign_completion_dispatched_before_own cWorld 1 2 7 (-5) pollRuntime
        (pollOwnAfter [completion (cWorld.heap 1).ucb 7]) readOk [] [] []
        (by decide) (by decide) (by decide) rfl rfl rfl (by decide) (by decide) (by decide)
        rfl (by decide) (by decide) rfl).2 ⟨rfl, rfl⟩ _ rfl).1,
    ((foreign_completion_dispatched_before_own cWorld 1 2 7 (-5) pollRuntime
        (pollOwnAfter [completion (cWorld.heap 1).ucb 7]) readOk [] [] []
        (by decide) (by decide) (by decide) rfl rfl rfl (by decide) (by decide) (by decide)
        rfl (by decide) (by decide) rfl).2 ⟨rfl, rfl⟩ _ rfl).2.1⟩

/-- C4: the readiness wait fails with `EINTR` or reports zero ready descriptors
on its first `N` calls (the replies `pre`, `N = pre.length`) and on the next
call reports the bridge's own signal; the completion has already recorded `S`
and the read of the signal succeeds.  Then `wait(0)` returns `S`; the log gains
`N + 1` calls of `poll` followed by the read and nothing else (no drain, no
callback), and no reply of the drain primitive is consumed.  Both for
`sync_api_t::wait` and for `common_sync_wait`. -/
theorem interrupted_waits_are_retried (w : World) (this : Nat) (S : Int)
    (pre : List PollReply) (p : PollReply) (r : ReadReply)
    (polls : List PollReply) (reads : List ReadReply) (drains : List DrainReply)
    (hfd : 0 ≤ (w.heap this).eventfd.event_fd)
    (hS : (w.heap this).rs = S)
    (hpre : ∀ q ∈ pre, q.during = [] ∧ ((q.rc < 0 ∧ q.errno = EINTR) ∨ q.rc = 0))
    (hq : p.during = []) (hrc : 0 < p.rc) (hin : p.revents0 &&& POLLIN ≠ 0)
    (hr : r.ret = 8) :
    ∀ o : Outcome,
      (o = sync_api_t.wait w this 0 (pre ++ p :: polls) (r :: reads) drains ∨
        o = common_sync_wait w this 0 (pre ++ p :: polls) (r :: reads) drains) →
      o.ret = some S ∧ o.polls = polls ∧ o.reads = reads ∧ o.drains = drains ∧
      o.world.log = w.log
        ++ List.replicate (pre.length + 1) (.poll (w.heap this).eventfd.event_fd w.poll_fd)
        ++ [.efd_read (w.heap this).eventfd.event_fd] := by
  intro o ho
  rcases ho with ho | ho
  · obtain ⟨v, h1, h2, h3, h4⟩ := cpp_loop_retries this (w.heap this).eventfd.event_fd
      w.poll_fd (p :: polls) (r :: reads) drains pre w hpre
    have g : 0 ≤ ((sys_poll v (w.heap this).eventfd.event_fd w.poll_fd p).heap
        this).eventfd.event_fd := by
      rw [sys_poll_quiet _ _ _ _ hq, emit_heap, h1]; exact hfd
    rw [ho, cpp_wait_accepted, h4, cpp_loop_own _ _ _ _ _ _ _ _ _ hrc hin g hr]
    refine ⟨?_, rfl, rfl, rfl, ?_⟩
    · simp only [sys_eventfd_read_rs, sys_poll_quiet _ _ _ _ hq, emit_heap, h1, hS]
    · simp only [sys_eventfd_read_log, sys_poll_quiet _ _ _ _ hq, emit_heap, emit_log, h1,
        h3, List.replicate_succ', List.append_assoc]
  · obtain ⟨v, h1, h2, h3, h4⟩ := c_loop_retries this (w.heap this).eventfd.event_fd
      w.poll_fd (p :: polls) (r :: reads) drains pre w hpre
    rw [ho, c_wait_accepted, h4, c_loop_own _ _ _ _ _ _ _ _ _ hrc hin hr]
    refine ⟨?_, rfl, rfl, rfl, ?_⟩
    · simp only [sys_eventfd_read_rs, sys_poll_quiet _ _ _ _ hq, emit_heap, h1, hS]
    · simp only [sys_eventfd_read_log, sys_poll_quiet _ _ _ _ hq, emit_heap, emit_log, h1,
        h3, List.replicate_succ', List.append_assoc]

/-- Witness of C4: `N = 2` (one `EINTR`, one wakeup without ready descriptor),
recorded status `S = -5`. -/
theorem interrupted_waits_are_retried_witness :
    (sync_api_t.wait (complete cppWorld (cppWorld.heap 1).ucb (-5)) 1 0
        [pollFail EINTR, pollNone, pollOwn] [readOk] []).ret = some (-5) ∧
    (common_sync_wait (complete cWorld (cWorld.heap 1).ucb (-5)) 1 0
        [pollFail EINTR, pollNone, pollOwn] [readOk] []).ret = some (-5) :=
  ⟨(interrupted_waits_are_retried (complete cppWorld (cppWorld.heap 1).ucb (-5)) 1 (-5)
        [pollFail EINTR, pollNone] pollOwn readOk [] [] [] (by decide) rfl (by decide) rfl
        (by decide) (by decide) rfl _ (Or.inl rfl)).1,
    (interrupted_waits_are_retried (complete cWorld (cWorld.heap 1).ucb (-5)) 1 (-5)
        [pollFail EINTR, pollNone] pollOwn readOk [] [] [] (by decide) rfl (by decide) rfl
        (by decide) (by decide) rfl _ (Or.inr rfl)).1⟩

/-- C5: an accepted submission (`rc = 0`).  Whenever the readiness wait fails
with an `errno` other than `EINTR` - at the first iteration of `wait(0)` or at
any later iteration of its loop, in any state of the world and whatever the
runtime delivered while `poll` was blocked - `wait` returns `RED_EINVAL`
(`-22`) at once: no further reply is consumed and the drain primitive is not
called.  Both for `sync_api_t::wait` and for `common_sync_wait`. -/
theorem poll_failure_returns_einval (w : World) (this : Nat) (fd0 fd1 : Int)
    (p : PollReply)
    (polls : List PollReply) (reads : List ReadReply) (drains : List DrainReply)
    (h1 : p.rc < 0) (h2 : p.errno ≠ EINTR) :
    ∀ o : Outcome,
      (o = sync_api_t.wait w this 0 (p :: polls) reads drains ∨
        o = sync_api_t.wait_loop this fd0 fd1 w (p :: polls) reads drains ∨
        o = common_sync_wait w this 0 (p :: polls) reads drains ∨
        o = common_sync_wait_loop this fd0 fd1 w (p :: polls) reads drains) →
      o.ret = some (-22) ∧ o.ret = some RED_EINVAL ∧
      o.polls = polls ∧ o.reads = reads ∧ o.drains = drains ∧
      countPolls o.world.log = countPolls w.log + 1 ∧
      countDrains o.world.log = countDrains w.log ∧
      dispatched o.world.log = dispatched w.log := by
  intro o ho
  rcases ho with ho | ho | ho | ho
  · rw [ho, cpp_wait_accepted, cpp_loop_error _ _ _ _ _ _ _ _ h1 h2]
    exact ⟨rfl, rfl, rfl, rfl, rfl, countPolls_sys_poll _ _ _ _, countDrains_sys_poll _ _ _ _,
      dispatched_sys_poll _ _ _ _⟩
  · rw [ho, cpp_loop_error _ _ _ _ _ _ _ _ h1 h2]
    exact ⟨rfl, rfl, rfl, rfl, rfl, countPolls_sys_poll _ _ _ _, countDrains_sys_poll _ _ _ _,
      dispatched_sys_poll _ _ _ _⟩
  · rw [ho, c_wait_accepted, c_loop_error _ _ _ _ _ _ _ _ h1 h2]
    exact ⟨rfl, rfl, rfl, rfl, rfl, countPolls_sys_poll _ _ _ _, countDrains_sys_poll _ _ _ _,
      dispatched_sys_poll _ _ _ _⟩
  · rw [ho, c_loop_error _ _ _ _ _ _ _ _ h1 h2]
    exact ⟨rfl, rfl, rfl, rfl, rfl, countPolls_sys_poll _ _ _ _, countDrains_sys_poll _ _ _ _,
      dispatched_sys_poll _ _ _ _⟩

/-- Witness of C5: `poll` fails with `EBADF` (9) although the completion has
already recorded status 0 and raised the signal. -/
theorem poll_failure_returns_einval_witness :
    (sync_api_t.wait (complete cppWorld (cppWorld.heap 1).ucb 0) 1 0
        [pollFail 9, pollOwn] [readOk] []).ret = some (-22) ∧
    (common_sync_wait (complete cWorld (cWorld.heap 1).ucb 0) 1 0
        [pollFail 9, pollOwn] [readOk] []).ret = some (-22) :=
  ⟨(poll_failure_returns_einval (complete cppWorld (cppWorld.heap 1).ucb 0) 1 0 0
        (pollFail 9) [pollOwn] [readOk] [] (by decide) (by decide) _ (Or.inl rfl)).1,
    (poll_failure_returns_einval (complete cWorld (cWorld.heap 1).ucb 0) 1 0 0
        (pollFail 9) [pollOwn] [readOk] [] (by decide) (by decide) _
        (Or.inr (Or.inr (Or.inl rfl)))).1⟩

/-- Counterexample to C6 as stated: the submission result `1` is non-negative,
yet both waits return `1` at once without calling `poll`, although the next
`poll` would have delivered the completion with status `-5`. -/
theorem positive_submission_result_short_circuits :
    ¬ ((1 : Int) < 0) ∧
    (sync_api_t.wait cppWorld 1 1
        [pollOwnAfter [completion (cppWorld.heap 1).ucb (-5)]] [readOk] []).ret = some 1 ∧
    (sync_api_t.wait cppWorld 1 1
        [pollOwnAfter [completion (cppWorld.heap 1).ucb (-5)]] [readOk] []).polls
      = [pollOwnAfter [completion (cppWorld.heap 1).ucb (-5)]] ∧
    countPolls (sync_api_t.wait cppWorld 1 1
        [pollOwnAfter [completion (cppWorld.heap 1).ucb (-5)]] [readOk] []).world.log = 0 ∧
    (common_sync_wait cWorld 1 1
        [pollOwnAfter [completion (cWorld.heap 1).ucb (-5)]] [readOk] []).ret = some 1 ∧
    (common_sync_wait cWorld 1 1
        [pollOwnAfter [completion (cWorld.heap 1).ucb (-5)]] [readOk] []).polls
      = [pollOwnAfter [completion (cWorld.heap 1).ucb (-5)]] ∧
    countPolls (common_sync_wait cWorld 1 1
        [pollOwnAfter [completion (cWorld.heap 1).ucb (-5)]] [readOk] []).world.log = 0 := by
  refine ⟨by decide, ?_, ?_, ?_, ?_, ?_, ?_⟩ <;> rfl

/-- C6 as amended: `wait` short-circuits exactly on the non-zero submission
results.  For `r ≠ 0` (negative or positive) it returns `r` at once, consumes
no reply and calls `poll` not at all; for `r = 0`, and only then, it enters the
readiness loop (it calls `poll`) and returns the status later written by the
completion callback: when, after any number of interrupted or empty wakeups
`pre`, the runtime completes the call with `S` through the bridge's own
callback record while `wait` is blocked in `poll`, and that `poll` reports the
private signal and the read of it succeeds, then `wait(0)` returns `S`, the
status recorded in the bridge, having called `poll` once per wakeup.  In no run
does `wait(0)` return a status other than the one recorded in the bridge or
`RED_EINVAL`.  Both for `sync_api_t::wait` and for `common_sync_wait`. -/
theorem wait_short_circuits_iff_nonzero (w : World) (this : Nat) (r : Int)
    (polls : List PollReply) (reads : List ReadReply) (drains : List DrainReply) :
    ∀ o : Outcome,
      (o = sync_api_t.wait w this r polls reads drains ∨
        o = common_sync_wait w this r polls reads drains) →
      (r ≠ 0 → o.ret = some r ∧ o.polls = polls ∧ o.reads = reads ∧ o.drains = drains) ∧
      (countPolls o.world.log = countPolls w.log ↔ r ≠ 0) ∧
      (r = 0 →
        ∀ (S : Int) (pre : List PollReply) (p : PollReply) (rd : ReadReply)
          (rest : List PollReply) (reads2 : List ReadReply),
          polls = pre ++ p :: rest → reads = rd :: reads2 →
          0 ≤ (w.heap this).eventfd.event_fd →
          (w.heap this).ucb.ucb_fun.isBridge = true → (w.heap this).ucb.ucb_arg = this →
          (∀ q ∈ pre, q.during = [] ∧ ((q.rc < 0 ∧ q.errno = EINTR) ∨ q.rc = 0)) →
          p.during = [completion (w.heap this).ucb S] → 0 < p.rc →
          p.revents0 &&& POLLIN ≠ 0 → rd.ret = 8 →
          o.ret = some S ∧ (o.world.heap this).rs = S ∧
          o.polls = rest ∧ o.reads = reads2 ∧ o.drains = drains ∧
          o.world.log = w.log
            ++ List.replicate pre.length (.poll (w.heap this).eventfd.event_fd w.poll_fd)
            ++ [.poll (w.heap this).eventfd.event_fd w.poll_fd,
                .direct (completion (w.heap this).ucb S),
                .efd_write (w.heap this).eventfd.event_fd,
                .efd_read (w.heap this).eventfd.event_fd]) ∧
      (r = 0 → ∀ s, o.ret = some s → s = RED_EINVAL ∨ s = (o.world.heap this).rs) := by
  intro o ho
  by_cases hr : r = 0
  · subst hr
    have ht : Trace this w drains o := by
      rcases ho with ho | ho
      · rw [ho]; exact cpp_wait_trace _ _ _ _ _
      · rw [ho]; exact c_wait_trace _ _ _ _ _
    refine ⟨fun h => absurd rfl h, ?_, ?_, fun _ => ht.2.2.1⟩
    · have := ht.2.1
      constructor
      · intro h; omega
      · intro h; exact absurd rfl h
    · intro _ S pre p rd rest reads2 hp hrd hfd bf ha hpre hq hrc hown hrr
      subst hp hrd
      have e0 : ∀ v : World, sys_poll v (w.heap this).eventfd.event_fd w.poll_fd p
          = call ((v.emit (.poll (w.heap this).eventfd.event_fd w.poll_fd)).emit
              (.direct (completion (w.heap this).ucb S))) (w.heap this).ucb.ucb_fun S this := by
        intro v
        simp only [sys_poll, hq, deliver, completion, ha]
      rcases ho with ho | ho
      · obtain ⟨v, h1, _, h3, h4⟩ := cpp_loop_retries this (w.heap this).eventfd.event_fd
          w.poll_fd (p :: rest) (rd :: reads2) drains pre w hpre
        have hfdv : 0 ≤ (v.heap this).eventfd.event_fd := by rw [h1]; exact hfd
        have g0 : 0 ≤ ((sys_poll v (w.heap this).eventfd.event_fd w.poll_fd p).heap
            this).eventfd.event_fd := by
          rw [stable_fd (stable_sys_poll _ _ _ _)]; exact hfdv
        have fa := own_direct_run v this S (w.heap this).ucb.ucb_fun rd
          (w.heap this).eventfd.event_fd w.poll_fd (completion (w.heap this).ucb S) hfdv bf
        rw [ho, cpp_wait_accepted, h4, cpp_loop_own _ _ _ _ _ _ _ _ _ hrc hown g0 hrr, e0]
        refine ⟨congrArg some fa.1, fa.1, rfl, rfl, rfl, ?_⟩
        rw [fa.2, h3, h1]
      · obtain ⟨v, h1, _, h3, h4⟩ := c_loop_retries this (w.heap this).eventfd.event_fd
          w.poll_fd (p :: rest) (rd :: reads2) drains pre w hpre
        have hfdv : 0 ≤ (v.heap this).eventfd.event_fd := by rw [h1]; exact hfd
        have fa := own_direct_run v this S (w.heap this).ucb.ucb_fun rd
          (w.heap this).eventfd.event_fd w.poll_fd (completion (w.heap this).ucb S) hfdv bf
        rw [ho, c_wait_accepted, h4, c_loop_own _ _ _ _ _ _ _ _ _ hrc hown hrr, e0]
        refine ⟨congrArg some fa.1, fa.1, rfl, rfl, rfl, ?_⟩
        rw [fa.2, h3, h1]
  · rcases ho with ho | ho
    · rw [ho, cpp_wait_rejected _ _ _ hr]
      refine ⟨fun _ => ⟨by rw [done_rs], rfl, rfl, rfl⟩, ?_, fun h => absurd h hr,
        fun h => absurd h hr⟩
      exact ⟨fun _ => hr, fun _ => countPolls_done _ _ _⟩
    · rw [ho, c_wait_rejected _ _ _ hr]
      exact ⟨fun _ => ⟨rfl, rfl, rfl, rfl⟩, ⟨fun _ => hr, fun _ => rfl⟩,
        fun h => absurd h hr, fun h => absurd h hr⟩

/-- Witness of the amended C6: at `r = 1` both waits return 1 at once; at
`r = 0`, after one interrupted wakeup, the completion recorded during the
second `poll` with status -5 is returned. -/
theorem wait_short_circuits_iff_nonzero_witness :
    (sync_api_t.wait cppWorld 1 1 [pollOwn] [readOk] []).ret = some 1 ∧
    (common_sync_wait cWorld 1 1 [pollOwn] [readOk] []).ret = some 1 ∧
    (sync_api_t.wait cppWorld 1 0
        [pollFail EINTR, pollOwnAfter [completion (cppWorld.heap 1).ucb (-5)]]
        [readOk] []).ret = some (-5) ∧
    (common_sync_wait cWorld 1 0
        [pollFail EINTR, pollOwnAfter [completion (cWorld.heap 1).ucb (-5)]]
        [readOk] []).ret = some (-5) :=
  ⟨((wait_short_circuits_iff_nonzero cppWorld 1 1 [pollOwn] [readOk] [] _
        (Or.inl rfl)).1 (by decide)).1,
    ((wait_short_circuits_iff_nonzero cWorld 1 1 [pollOwn] [readOk] [] _
        (Or.inr rfl)).1 (by decide)).1,
    ((wait_short_circuits_iff_nonzero cppWorld 1 0
        [pollFail EINTR, pollOwnAfter [completion (cppWorld.heap 1).ucb (-5)]] [readOk] [] _
        (Or.inl rfl)).2.2.1 rfl (-5) [pollFail EINTR]
        (pollOwnAfter [completion (cppWorld.heap 1).ucb (-5)]) readOk [] [] rfl rfl
        (by decide) rfl rfl (by decide) rfl (by decide) (by decide) rfl).1,
    ((wait_short_circuits_iff_nonzero cWorld 1 0
        [pollFail EINTR, pollOwnAfter [completion (cWorld.heap 1).ucb (-5)]] [readOk] [] _
        (Or.inr rfl)).2.2.1 rfl (-5) [pollFail EINTR]
        (pollOwnAfter [completion (cWorld.heap 1).ucb (-5)]) readOk [] [] rfl rfl
        (by decide) rfl rfl (by decide) rfl (by decide) (by decide) rfl).1⟩

/-- C7: an iteration of the loop in which `poll` reports the runtime descriptor
ready and the bridge's own signal not.  `wait` calls the drain primitive once,
with `num_ucps = 1`; if the answer is `1` with a non-null callback, it calls
that callback once with `(ucp_res, ucp_arg)` and goes on with the next
iteration; otherwise (answer `0`, negative, or a null callback) it calls
nothing, returns nothing and goes on with the next iteration.  Consequently, in
every run of `wait(0)` the callbacks invoked by `wait` are, in the same order,
the completions of the consumed answers of the drain primitive that pass this
test.  Both for `sync_api_t::wait` and for `common_sync_wait`. -/
theorem drain_step_dispatches_in_order (w : World) (this : Nat) (fd0 fd1 : Int)
    (p : PollReply) (d : DrainReply)
    (polls : List PollReply) (reads : List ReadReply) (drains : List DrainReply)
    (hrc : 0 < p.rc) (hown : ¬ (p.revents0 &&& POLLIN ≠ 0))
    (hrt : p.revents1 &&& POLLIN ≠ 0) :
    (d.rc = 1 ∧ d.ucp.ucp_fun ≠ .null →
      sync_api_t.wait_loop this fd0 fd1 w (p :: polls) reads (d :: drains)
        = sync_api_t.wait_loop this fd0 fd1
            (call (((sys_poll w fd0 fd1 p).emit (.lib_poll 1)).emit (.dispatch d.ucp))
              d.ucp.ucp_fun d.ucp.ucp_res d.ucp.ucp_arg) polls reads drains ∧
      common_sync_wait_loop this fd0 fd1 w (p :: polls) reads (d :: drains)
        = common_sync_wait_loop this fd0 fd1
            (call (((sys_poll w fd0 fd1 p).emit (.lib_poll 1)).emit (.dispatch d.ucp))
              d.ucp.ucp_fun d.ucp.ucp_res d.ucp.ucp_arg) polls reads drains) ∧
    (¬ (d.rc = 1 ∧ d.ucp.ucp_fun ≠ .null) →
      sync_api_t.wait_loop this fd0 fd1 w (p :: polls) reads (d :: drains)
        = sync_api_t.wait_loop this fd0 fd1
            ((sys_poll w fd0 fd1 p).emit (.lib_poll 1)) polls reads drains ∧
      common_sync_wait_loop this fd0 fd1 w (p :: polls) reads (d :: drains)
        = common_sync_wait_loop this fd0 fd1
            ((sys_poll w fd0 fd1 p).emit (.lib_poll 1)) polls reads drains) ∧
    (∀ (v : World) (ps : List PollReply) (rs : List ReadReply) (ds : List DrainReply)
        (o : Outcome),
      (o = sync_api_t.wait v this 0 ps rs ds ∨ o = common_sync_wait v this 0 ps rs ds) →
      ∃ used : List DrainReply, ds = used ++ o.drains ∧
        dispatched o.world.log
          = dispatched v.log ++ (used.filter DrainReply.invoked).map DrainReply.ucp) := by
  refine ⟨fun hc => ⟨?_, ?_⟩, fun hc => ⟨?_, ?_⟩, ?_⟩
  · rw [cpp_loop_drain _ _ _ _ _ _ _ _ _ hrc hown hrt, if_pos hc]
  · rw [c_loop_drain _ _ _ _ _ _ _ _ _ hrc hown hrt, if_pos hc]
  · rw [cpp_loop_drain _ _ _ _ _ _ _ _ _ hrc hown hrt, if_neg hc]
  · rw [c_loop_drain _ _ _ _ _ _ _ _ _ hrc hown hrt, if_neg hc]
  · intro v ps rs ds o ho
    rcases ho with ho | ho
    · rw [ho]; exact (cpp_wait_trace v this ps rs ds).2.2.2
    · rw [ho]; exact (c_wait_trace v this ps rs ds).2.2.2

/-- Witness of C7: the drain primitive returns the completion of the bridge at
address 2 with status `-5` while the bridge at address 1 waits. -/
theorem drain_step_dispatches_in_order_witness :
    sync_api_t.wait_loop 1 11 3 cppWorld [pollRuntime] []
        [⟨1, completion (cppWorld.heap 2).ucb (-5)⟩]
      = sync_api_t.wait_loop 1 11 3
          (call (((sys_poll cppWorld 11 3 pollRuntime).emit (.lib_poll 1)).emit
            (.dispatch (completion (cppWorld.heap 2).ucb (-5))))
            .sync_api_callback (-5) 2) [] [] [] ∧
    common_sync_wait_loop 1 11 3 cWorld [pollRuntime] []
        [⟨0, completion (cWorld.heap 2).ucb (-5)⟩]
      = common_sync_wait_loop 1 11 3
          ((sys_poll cWorld 11 3 pollRuntime).emit (.lib_poll 1)) [] [] [] ∧
    (∃ used : List DrainReply,
      [(⟨1, completion (cppWorld.heap 2).ucb (-5)⟩ : DrainReply)] = used ++
        (sync_api_t.wait cppWorld 1 0 [pollRuntime, pollOwn] [readOk]
          [⟨1, completion (cppWorld.heap 2).ucb (-5)⟩]).drains ∧
      dispatched (sync_api_t.wait cppWorld 1 0 [pollRuntime, pollOwn] [readOk]
          [⟨1, completion (cppWorld.heap 2).ucb (-5)⟩]).world.log
        = dispatched cppWorld.log ++ (used.filter DrainReply.invoked).map DrainReply.ucp) :=
  ⟨((drain_step_dispatches_in_order cppWorld 1 11 3 pollRuntime
        ⟨1, completion (cppWorld.heap 2).ucb (-5)⟩ [] [] []
        (by decide) (by decide) (by decide)).1 (by decide)).1,
    ((drain_step_dispatches_in_order cWorld 1 11 3 pollRuntime
        ⟨0, completion (cWorld.heap 2).ucb (-5)⟩ [] [] []
        (by decide) (by decide) (by decide)).2.1 (by decide)).2,
    (drain_step_dispatches_in_order cppWorld 1 11 3 pollRuntime
        ⟨1, completion (cppWorld.heap 2).ucb (-5)⟩ [] [] []
        (by decide) (by decide) (by decide)).2.2 cppWorld [pollRuntime, pollOwn] [readOk]
        [⟨1, completion (cppWorld.heap 2).ucb (-5)⟩] _ (Or.inl rfl)⟩

/-- C8: a wakeup in which `poll` reports both the bridge's own signal and the
runtime descriptor ready, and the read of the own signal succeeds.  `wait`
returns the status recorded in the bridge at that wakeup; the iteration
consists of the `poll` and the read only: the drain primitive is not called,
none of its answers is consumed and no callback is invoked by `wait`.  This
holds at the first iteration of `wait(0)` and at any later iteration of its
loop, for `sync_api_t::wait` and for `common_sync_wait`. -/
theorem own_completion_has_priority (w : World) (this : Nat) (fd0 fd1 : Int)
    (p : PollReply) (r : ReadReply)
    (polls : List PollReply) (reads : List ReadReply) (drains : List DrainReply)
    (hfd : 0 ≤ (w.heap this).eventfd.event_fd)
    (hrc : 0 < p.rc) (hown : p.revents0 &&& POLLIN ≠ 0) (_hrt : p.revents1 &&& POLLIN ≠ 0)
    (hr : r.ret = 8) :
    (∀ o : Outcome,
      (o = sync_api_t.wait_loop this fd0 fd1 w (p :: polls) (r :: reads) drains ∨
        o = common_sync_wait_loop this fd0 fd1 w (p :: polls) (r :: reads) drains) →
      o.ret = some ((sys_poll w fd0 fd1 p).heap this).rs ∧
      o.polls = polls ∧ o.reads = reads ∧ o.drains = drains ∧
      o.world.log = (sys_poll w fd0 fd1 p).log ++ [.efd_read (w.heap this).eventfd.event_fd] ∧
      countDrains o.world.log = countDrains w.log ∧
      dispatched o.world.log = dispatched w.log) ∧
    (∀ o : Outcome,
      (o = sync_api_t.wait w this 0 (p :: polls) (r :: reads) drains ∨
        o = common_sync_wait w this 0 (p :: polls) (r :: reads) drains) →
      o.ret = some ((sys_poll w (w.heap this).eventfd.event_fd w.poll_fd p).heap this).rs ∧
      o.polls = polls ∧ o.reads = reads ∧ o.drains = drains ∧
      countDrains o.world.log = countDrains w.log ∧
      dispatched o.world.log = dispatched w.log) := by
  have key : ∀ (g0 g1 : Int) (o : Outcome),
      (o = sync_api_t.wait_loop this g0 g1 w (p :: polls) (r :: reads) drains ∨
        o = common_sync_wait_loop this g0 g1 w (p :: polls) (r :: reads) drains) →
      o.ret = some ((sys_poll w g0 g1 p).heap this).rs ∧
      o.polls = polls ∧ o.reads = reads ∧ o.drains = drains ∧
      o.world.log = (sys_poll w g0 g1 p).log ++ [.efd_read (w.heap this).eventfd.event_fd] ∧
      countDrains o.world.log = countDrains w.log ∧
      dispatched o.world.log = dispatched w.log := by
    intro g0 g1 o ho
    have hs := stable_sys_poll w g0 g1 p
    have g : 0 ≤ ((sys_poll w g0 g1 p).heap this).eventfd.event_fd := by
      rw [stable_fd hs]; exact hfd
    have e : o = ⟨some ((sys_eventfd_read (sys_poll w g0 g1 p) this r).heap this).rs,
        sys_eventfd_read (sys_poll w g0 g1 p) this r, polls, reads, drains⟩ := by
      rcases ho with ho | ho
      · rw [ho, cpp_loop_own _ _ _ _ _ _ _ _ _ hrc hown g hr]
      · rw [ho, c_loop_own _ _ _ _ _ _ _ _ _ hrc hown hr]
    rw [e]
    refine ⟨by rw [sys_eventfd_read_rs], rfl, rfl, rfl, ?_, ?_, ?_⟩
    · rw [sys_eventfd_read_log, stable_fd hs]
    · rw [countDrains_sys_eventfd_read, countDrains_sys_poll]
    · rw [dispatched_sys_eventfd_read, dispatched_sys_poll]
  refine ⟨key fd0 fd1, ?_⟩
  intro o ho
  have h := key (w.heap this).eventfd.event_fd w.poll_fd o (by
    rcases ho with ho | ho
    · left; rw [ho, cpp_wait_accepted]
    · right; rw [ho, c_wait_accepted])
  exact ⟨h.1, h.2.1, h.2.2.1, h.2.2.2.1, h.2.2.2.2.2.1, h.2.2.2.2.2.2⟩

/-- Witness of C8: both descriptors ready, the recorded status is `-5`, and a
foreign completion is pending in the runtime. -/
theorem own_completion_has_priority_witness :
    (sync_api_t.wait (complete cppWorld (cppWorld.heap 1).ucb (-5)) 1 0
        [pollBoth] [readOk] [⟨1, completion (cppWorld.heap 2).ucb 0⟩]).ret = some (-5) ∧
    (sync_api_t.wait (complete cppWorld (cppWorld.heap 1).ucb (-5)) 1 0
        [pollBoth] [readOk] [⟨1, completion (cppWorld.heap 2).ucb 0⟩]).drains
      = [⟨1, completion (cppWorld.heap 2).ucb 0⟩] ∧
    (common_sync_wait (complete cWorld (cWorld.heap 1).ucb (-5)) 1 0
        [pollBoth] [readOk] [⟨1, completion (cWorld.heap 2).ucb 0⟩]).ret = some (-5) ∧
    (common_sync_wait (complete cWorld (cWorld.heap 1).ucb (-5)) 1 0
        [pollBoth] [readOk] [⟨1, completion (cWorld.heap 2).ucb 0⟩]).drains
      = [⟨1, completion (cWorld.heap 2).ucb 0⟩] :=
  ⟨((own_completion_has_priority (complete cppWorld (cppWorld.heap 1).ucb (-5)) 1 0 0
        pollBoth readOk [] [] [⟨1, completion (cppWorld.heap 2).ucb 0⟩]
        (by decide) (by decide) (by decide) (by decide) rfl).2 _ (Or.inl rfl)).1,
    ((own_completion_has_priority (complete cppWorld (cppWorld.heap 1).ucb (-5)) 1 0 0
        pollBoth readOk [] [] [⟨1, completion (cppWorld.heap 2).ucb 0⟩]
        (by decide) (by decide) (by decide) (by decide) rfl).2 _ (Or.inl rfl)).2.2.2.1,
    ((own_completion_has_priority (complete cWorld (cWorld.heap 1).ucb (-5)) 1 0 0
        pollBoth readOk [] [] [⟨1, completion (cWorld.heap 2).ucb 0⟩]
        (by decide) (by decide) (by decide) (by decide) rfl).2 _ (Or.inr rfl)).1,
    ((own_completion_has_priority (complete cWorld (cWorld.heap 1).ucb (-5)) 1 0 0
        pollBoth readOk [] [] [⟨1, completion (cWorld.heap 2).ucb 0⟩]
        (by decide) (by decide) (by decide) (by decide) rfl).2 _ (Or.inr rfl)).2.2.2.1⟩

/-- C9: the result of the bridge does not depend on how its own completion is
delivered.  (a) The runtime calls the bridge's callback itself while `poll` is
blocked, and `poll` reports the private signal: `wait(0)` returns `S`.  (b) The
first `poll` reports only the runtime descriptor and the drain primitive
returns the bridge's own completion record (its callback, the bridge as
argument, result `S`): `wait` calls the callback inline, the next `poll`
reports the private signal, `wait` consumes it and returns `S` as well.  Both
for `sync_api_t::wait` and for `common_sync_wait`. -/
theorem own_completion_by_either_delivery (w : World) (this : Nat) (S : Int)
    (p p1 p2 : PollReply) (r : ReadReply)
    (polls : List PollReply) (reads : List ReadReply) (drains : List DrainReply)
    (hfd : 0 ≤ (w.heap this).eventfd.event_fd)
    (ha : (w.heap this).ucb.ucb_arg = this)
    (hq : p.during = [completion (w.heap this).ucb S]) (hrc : 0 < p.rc)
    (hown : p.revents0 &&& POLLIN ≠ 0)
    (hq1 : p1.during = []) (hrc1 : 0 < p1.rc)
    (hown1 : ¬ (p1.revents0 &&& POLLIN ≠ 0)) (hrt1 : p1.revents1 &&& POLLIN ≠ 0)
    (hq2 : p2.during = []) (hrc2 : 0 < p2.rc) (hown2 : p2.revents0 &&& POLLIN ≠ 0)
    (hr : r.ret = 8) :
    ((w.heap this).ucb.ucb_fun = .sync_api_callback →
      (∀ o : Outcome,
        o = sync_api_t.wait w this 0 (p :: polls) (r :: reads) drains →
        o.ret = some S ∧
        o.world.log = w.log ++
          [.poll (w.heap this).eventfd.event_fd w.poll_fd,
            .direct (completion (w.heap this).ucb S),
            .efd_write (w.heap this).eventfd.event_fd,
            .efd_read (w.heap this).eventfd.event_fd]) ∧
      (∀ o : Outcome,
        o = sync_api_t.wait w this 0 (p1 :: p2 :: polls) (r :: reads)
              (⟨1, completion (w.heap this).ucb S⟩ :: drains) →
        o.ret = some S ∧
        o.world.log = w.log ++
          [.poll (w.heap this).eventfd.event_fd w.poll_fd, .lib_poll 1,
            .dispatch (completion (w.heap this).ucb S),
            .efd_write (w.heap this).eventfd.event_fd,
            .poll (w.heap this).eventfd.event_fd w.poll_fd,
            .efd_read (w.heap this).eventfd.event_fd])) ∧
    ((w.heap this).ucb.ucb_fun = .common_sync_api_callback →
      (∀ o : Outcome,
        o = common_sync_wait w this 0 (p :: polls) (r :: reads) drains →
        o.ret = some S ∧
        o.world.log = w.log ++
          [.poll (w.heap this).eventfd.event_fd w.poll_fd,
            .direct (completion (w.heap this).ucb S),
            .efd_write (w.heap this).eventfd.event_fd,
            .efd_read (w.heap this).eventfd.event_fd]) ∧
      (∀ o : Outcome,
        o = common_sync_wait w this 0 (p1 :: p2 :: polls) (r :: reads)
              (⟨1, completion (w.heap this).ucb S⟩ :: drains) →
        o.ret = some S ∧
        o.world.log = w.log ++
          [.poll (w.heap this).eventfd.event_fd w.poll_fd, .lib_poll 1,
            .dispatch (completion (w.heap this).ucb S),
            .efd_write (w.heap this).eventfd.event_fd,
            .poll (w.heap this).eventfd.event_fd w.poll_fd,
            .efd_read (w.heap this).eventfd.event_fd])) := by
  constructor
  · intro hf
    have bf : ((w.heap this).ucb.ucb_fun).isBridge = true := by rw [hf]; rfl
    have hd : (1 : Int) = 1 ∧ (completion (w.heap this).ucb S).ucp_fun ≠ CbFun.null := by
      simp [completion, hf]
    have hu : (completion (w.heap this).ucb S).ucp_arg = this := ha
    have hv : (completion (w.heap this).ucb S).ucp_fun = (w.heap this).ucb.ucb_fun := rfl
    have hx : (completion (w.heap this).ucb S).ucp_res = S := rfl
    have e0 : sys_poll w (w.heap this).eventfd.event_fd w.poll_fd p
        = call ((w.emit (.poll (w.heap this).eventfd.event_fd w.poll_fd)).emit
            (.direct (completion (w.heap this).ucb S))) (w.heap this).ucb.ucb_fun S this := by
      simp only [sys_poll, hq, deliver, completion, ha]
    have e1 : sys_poll w (w.heap this).eventfd.event_fd w.poll_fd p1
        = w.emit (.poll (w.heap this).eventfd.event_fd w.poll_fd) := sys_poll_quiet _ _ _ _ hq1
    have g0 : 0 ≤ ((sys_poll w (w.heap this).eventfd.event_fd w.poll_fd p).heap
        this).eventfd.event_fd := by
      rw [stable_fd (stable_sys_poll _ _ _ _)]; exact hfd
    have g1 : 0 ≤ ((sys_poll (call (((w.emit (.poll (w.heap this).eventfd.event_fd
        w.poll_fd)).emit (.lib_poll 1)).emit (.dispatch (completion (w.heap this).ucb S)))
        (w.heap this).ucb.ucb_fun S this) (w.heap this).eventfd.event_fd w.poll_fd p2).heap
        this).eventfd.event_fd := by
      rw [stable_fd ((stable_emit w _).trans ((stable_emit _ _).trans ((stable_emit _ _).trans
        ((stable_call _ _ _ _).trans (stable_sys_poll _ _ _ _)))))]
      exact hfd
    have fa := own_direct_run w this S (w.heap this).ucb.ucb_fun r
      (w.heap this).eventfd.event_fd w.poll_fd (completion (w.heap this).ucb S) hfd bf
    have fb := own_drain_run w this S (w.heap this).ucb.ucb_fun r
      (w.heap this).eventfd.event_fd w.poll_fd (completion (w.heap this).ucb S) hfd bf
    refine ⟨?_, ?_⟩
    · intro o ho
      rw [ho, cpp_wait_accepted, cpp_loop_own _ _ _ _ _ _ _ _ _ hrc hown g0 hr, e0]
      exact ⟨congrArg some fa.1, fa.2⟩
    · intro o ho
      rw [ho, cpp_wait_accepted, cpp_loop_drain _ _ _ _ _ _ _ _ _ hrc1 hown1 hrt1, if_pos hd, e1]
      simp only [hu, hv, hx]
      rw [cpp_loop_own _ _ _ _ _ _ _ _ _ hrc2 hown2 g1 hr, sys_poll_quiet _ _ _ _ hq2]
      exact ⟨congrArg some fb.1, fb.2⟩
  · intro hf
    have bf : ((w.heap this).ucb.ucb_fun).isBridge = true := by rw [hf]; rfl
    have hd : (1 : Int) = 1 ∧ (completion (w.heap this).ucb S).ucp_fun ≠ CbFun.null := by
      simp [completion, hf]
    have hu : (completion (w.heap this).ucb S).ucp_arg = this := ha
    have hv : (completion (w.heap this).ucb S).ucp_fun = (w.heap this).ucb.ucb_fun := rfl
    have hx : (completion (w.heap this).ucb S).ucp_res = S := rfl
    have e0 : sys_poll w (w.heap this).eventfd.event_fd w.poll_fd p
        = call ((w.emit (.poll (w.heap this).eventfd.event_fd w.poll_fd)).emit
            (.direct (completion (w.heap this).ucb S))) (w.heap this).ucb.ucb_fun S this := by
      simp only [sys_poll, hq, deliver, completion, ha]
    have e1 : sys_poll w (w.heap this).eventfd.event_fd w.poll_fd p1
        = w.emit (.poll (w.heap this).eventfd.event_fd w.poll_fd) := sys_poll_quiet _ _ _ _ hq1
    have g0 : 0 ≤ ((sys_poll w (w.heap this).eventfd.event_fd w.poll_fd p).heap
        this).eventfd.event_fd := by
      rw [stable_fd (stable_sys_poll _ _ _ _)]; exact hfd
    have g1 : 0 ≤ ((sys_poll (call (((w.emit (.poll (w.heap this).eventfd.event_fd
        w.poll_fd)).emit (.lib_poll 1)).emit (.dispatch (completion (w.heap this).ucb S)))
        (w.heap this).ucb.ucb_fun S this) (w.heap this).eventfd.event_fd w.poll_fd p2).heap
        this).eventfd.event_fd := by
      rw [stable_fd ((stable_emit w _).trans ((stable_emit _ _).trans ((stable_emit _ _).trans
        ((stable_call _ _ _ _).trans (stable_sys_poll _ _ _ _)))))]
      exact hfd
    have fa := own_direct_run w this S (w.heap this).ucb.ucb_fun r
      (w.heap this).eventfd.event_fd w.poll_fd (completion (w.heap this).ucb S) hfd bf
    have fb := own_drain_run w this S (w.heap this).ucb.ucb_fun r
      (w.heap this).eventfd.event_fd w.poll_fd (completion (w.heap this).ucb S) hfd bf
    refine ⟨?_, ?_⟩
    · intro o ho
      rw [ho, c_wait_accepted, c_loop_own _ _ _ _ _ _ _ _ _ hrc hown hr, e0]
      exact ⟨congrArg some fa.1, fa.2⟩
    · intro o ho
      rw [ho, c_wait_accepted, c_loop_drain _ _ _ _ _ _ _ _ _ hrc1 hown1 hrt1, if_pos hd, e1]
      simp only [hu, hv, hx]
      rw [c_loop_own _ _ _ _ _ _ _ _ _ hrc2 hown2 hr, sys_poll_quiet _ _ _ _ hq2]
      exact ⟨congrArg some fb.1, fb.2⟩

/-- Witness of C9 at status `S = -5`. -/
theorem own_completion_by_either_delivery_witness :
    (sync_api_t.wait cppWorld 1 0
        [pollOwnAfter [completion (cppWorld.heap 1).ucb (-5)]] [readOk] []).ret = some (-5) ∧
    (sync_api_t.wait cppWorld 1 0 [pollRuntime, pollOwn] [readOk]
        [⟨1, completion (cppWorld.heap 1).ucb (-5)⟩]).ret = some (-5) ∧
    (common_sync_wait cWorld 1 0
        [pollOwnAfter [completion (cWorld.heap 1).ucb (-5)]] [readOk] []).ret = some (-5) ∧
    (common_sync_wait cWorld 1 0 [pollRuntime, pollOwn] [readOk]
        [⟨1, completion (cWorld.heap 1).ucb (-5)⟩]).ret = some (-5) :=
  ⟨(((own_completion_by_either_delivery cppWorld 1 (-5)
        (pollOwnAfter [completion (cppWorld.heap 1).ucb (-5)]) pollRuntime pollOwn readOk
        [] [] [] (by decide) rfl rfl (by decide) (by decide) rfl (by decide) (by decide)
        (by decide) rfl (by decide) (by decide) rfl).1 rfl).1 _ rfl).1,
    (((own_completion_by_either_delivery cppWorld 1 (-5)
        (pollOwnAfter [completion (cppWorld.heap 1).ucb (-5)]) pollRuntime pollOwn readOk
        [] [] [] (by decide) rfl rfl (by decide) (by decide) rfl (by decide) (by decide)
        (by decide) rfl (by decide) (by decide) rfl).1 rfl).2 _ rfl).1,
    (((own_completion_by_either_delivery cWorld 1 (-5)
        (pollOwnAfter [completion (cWorld.heap 1).ucb (-5)]) pollRuntime pollOwn readOk
        [] [] [] (by decide) rfl rfl (by decide) (by decide) rfl (by decide) (by decide)
        (by decide) rfl (by decide) (by decide) rfl).2 rfl).1 _ rfl).1,
    (((own_completion_by_either_delivery cWorld 1 (-5)
        (pollOwnAfter [completion (cWorld.heap 1).ucb (-5)]) pollRuntime pollOwn readOk
        [] [] [] (by decide) rfl rfl (by decide) (by decide) rfl (by decide) (by decide)
        (by decide) rfl (by decide) (by decide) rfl).2 rfl).2 _ rfl).1⟩

/-- C10: the callback record of a bridge designates that bridge from its
construction on - the constructor (`sync_api_t::sync_api_t`,
`common_sync_api_init`) stores the bridge's own completion callback with the
bridge as argument, and neither a call of a callback, nor a direct delivery by
the runtime, nor a run of `wait` changes the callback record of any bridge.
Calling the callback record of a different bridge `b2`, in particular in the
drain step of the wait of `b1`, leaves the whole object `b1` (recorded status,
callback record, eventfd with its counter) as it was. -/
theorem callback_record_designates_own_bridge :
    (∀ (this : Nat) (fd : Int) (e2e : Nat),
      (sync_api_t.ctor this fd e2e).ucb.ucb_fun = .sync_api_callback ∧
      (sync_api_t.ctor this fd e2e).ucb.ucb_arg = this) ∧
    (∀ (addr : Option Nat) (fd : Int) (ctx : Nat) (b : sync_api_t),
      common_sync_api_init addr fd = some (ctx, b) →
      b.ucb.ucb_fun = .common_sync_api_callback ∧ b.ucb.ucb_arg = ctx) ∧
    (∀ (w : World) (f : CbFun) (res : Int) (arg c : Nat),
      ((call w f res arg).heap c).ucb = (w.heap c).ucb) ∧
    (∀ (w : World) (cs : List rfs_usercomp_t) (c : Nat),
      ((deliver w cs).heap c).ucb = (w.heap c).ucb) ∧
    (∀ (w : World) (this : Nat) (rc : Int) (polls : List PollReply)
        (reads : List ReadReply) (drains : List DrainReply) (c : Nat),
      sync_api_t.get_ucb (sync_api_t.wait w this rc polls reads drains).world c
        = sync_api_t.get_ucb w c ∧
      ((common_sync_wait w this rc polls reads drains).world.heap c).ucb
        = (w.heap c).ucb) ∧
    (∀ (w : World) (b1 b2 : Nat) (S : Int), b1 ≠ b2 → (w.heap b2).ucb.ucb_arg = b2 →
      (complete w (w.heap b2).ucb S).heap b1 = w.heap b1 ∧
      ((call ((w.emit (.lib_poll 1)).emit (.dispatch (completion (w.heap b2).ucb S)))
          (completion (w.heap b2).ucb S).ucp_fun (completion (w.heap b2).ucb S).ucp_res
          (completion (w.heap b2).ucb S).ucp_arg).heap b1 = w.heap b1)) := by
  refine ⟨fun _ _ _ => ⟨rfl, rfl⟩, ?_, ?_, ?_, ?_, ?_⟩
  · intro addr fd ctx b h
    cases addr with
    | none => simp [common_sync_api_init] at h
    | some a =>
      by_cases hfd : fd < 0
      · simp [common_sync_api_init, hfd] at h
      · simp only [common_sync_api_init, hfd, if_false, Option.some.injEq,
          Prod.mk.injEq] at h
        obtain ⟨h1, h2⟩ := h
        subst h1
        subst h2
        exact ⟨rfl, rfl⟩
  · intro w f res arg c
    exact ((stable_call w f res arg).2 c).1
  · intro w cs c
    exact ((stable_deliver w cs).2 c).1
  · intro w this rc polls reads drains c
    by_cases hrc : rc = 0
    · subst hrc
      exact ⟨(((cpp_wait_trace w this polls reads drains).1).2 c).1,
        (((c_wait_trace w this polls reads drains).1).2 c).1⟩
    · rw [cpp_wait_rejected _ _ _ hrc, c_wait_rejected _ _ _ hrc]
      exact ⟨((stable_done w this rc).2 c).1, ((stable_set_rs w this rc).2 c).1⟩
  · intro w b1 b2 S hne ha
    constructor
    · simp only [complete, ha]
      exact call_other _ _ _ _ _ hne
    · have hu : (completion (w.heap b2).ucb S).ucp_arg = b2 := ha
      rw [hu, call_other _ _ _ _ _ hne]
      rfl

/-- Witness of C10: the bridges at addresses 1 and 2 of a world of freshly
constructed bridges; the completion of bridge 2 with status `-5` leaves bridge
1 as constructed. -/
theorem callback_record_designates_own_bridge_witness :
    (complete cppWorld (cppWorld.heap 2).ucb (-5)).heap 1 = sync_api_t.ctor 1 11 0 ∧
    ((complete cppWorld (cppWorld.heap 2).ucb (-5)).heap 2).rs = -5 ∧
    (complete cWorld (cWorld.heap 2).ucb (-5)).heap 1 = cWorld.heap 1 ∧
    common_sync_api_init (some 1) 11 = some (1, cWorld.heap 1) ∧
    (cWorld.heap 1).ucb.ucb_fun = .common_sync_api_callback ∧
    (cWorld.heap 1).ucb.ucb_arg = 1 :=
  ⟨(callback_record_designates_own_bridge.2.2.2.2.2 cppWorld 1 2 (-5) (by decide) rfl).1,
    rfl,
    (callback_record_designates_own_bridge.2.2.2.2.2 cWorld 1 2 (-5) (by decide) rfl).1,
    rfl,
    (callback_record_designates_own_bridge.2.1 (some 1) 11 1 (cWorld.heap 1) rfl).1,
    (callback_record_designates_own_bridge.2.1 (some 1) 11 1 (cWorld.heap 1) rfl).2⟩

/-! ## simple_s3_client: shared pointers -/

@[simp] theorem s3call_fst (w : S3World) (c : IRedClient) (q : Request) :
    (w.call c q).1 = c w.calls q := rfl

@[simp] theorem s3call_calls (w : S3World) (c : IRedClient) (q : Request) :
    (w.call c q).2.calls = w.calls ++ [(q, c w.calls q)] := rfl

@[simp] theorem s3call_objects (w : S3World) (c : IRedClient) (q : Request) :
    (w.call c q).2.objects = w.objects := rfl

@[simp] theorem s3call_next (w : S3World) (c : IRedClient) (q : Request) :
    (w.call c q).2.next = w.next := rfl

@[simp] theorem s3call_logged (w : S3World) (c : IRedClient) (q : Request) :
    (w.call c q).2.logged = w.logged := rfl

@[simp] theorem s3log_calls (w : S3World) (l : LogLine) : (w.log l).calls = w.calls := rfl

@[simp] theorem s3log_objects (w : S3World) (l : LogLine) : (w.log l).objects = w.objects := rfl

@[simp] theorem s3log_next (w : S3World) (l : LogLine) : (w.log l).next = w.next := rfl

@[simp] theorem s3log_logged (w : S3World) (l : LogLine) :
    (w.log l).logged = w.logged ++ [l] := rfl

/-- Locking an expired or empty `weak_ptr` gives an empty pointer and changes
nothing. -/
theorem lock_expired (w : S3World) (p : Option Nat) (h : weak_ptr.expired w p = true) :
    weak_ptr.lock w p = (none, w) := by
  cases p with
  | none => rfl
  | some a =>
    simp only [weak_ptr.expired] at h
    simp only [weak_ptr.lock]
    cases ho : w.objects a with
    | none => rfl
    | some bn =>
      obtain ⟨b, n⟩ := bn
      rw [ho] at h
      have hn : n = 0 := by simpa using h
      simp [hn]

/-- Locking a `weak_ptr` to a live object gives a pointer to it and raises the
use count by one. -/
theorem lock_live (w : S3World) (a : Nat) (b : s3bucket) (n : Nat)
    (ho : w.objects a = some (b, n)) (hn : n ≠ 0) :
    weak_ptr.lock w (some a)
      = (some (a, b), { w with objects := Function.update w.objects a (some (b, n + 1)) }) := by
  simp [weak_ptr.lock, ho, hn]

/-- A `weak_ptr` is expired, or it refers to a live object. -/
theorem expired_or_live (w : S3World) (p : Option Nat) :
    weak_ptr.expired w p = true ∨
      ∃ a b n, p = some a ∧ w.objects a = some (b, n) ∧ n ≠ 0 := by
  cases p with
  | none => left; rfl
  | some a =>
    cases ho : w.objects a with
    | none => left; simp [weak_ptr.expired, ho]
    | some bn =>
      obtain ⟨b, n⟩ := bn
      by_cases hn : n = 0
      · left; simp [weak_ptr.expired, ho, hn]
      · right; exact ⟨a, b, n, rfl, ho, hn⟩

/-- Destroying a `shared_ptr` that is not the last owner only lowers the use
count. -/
theorem release_shared (v : S3World) (a : Nat) (b : s3bucket) (m : Nat)
    (ho : v.objects a = some (b, m)) (hm : 1 < m) :
    shared_ptr.release v a
      = { v with objects := Function.update v.objects a (some (b, m - 1)) } := by
  have : ¬ m ≤ 1 := by omega
  simp [shared_ptr.release, ho, this]

/-! ## simple_s3_client: the runs of put_object and get_object -/

theorem put_object_expired (self : s3client) (w : S3World) (p : Option Nat)
    (key data : String) (size : Nat) (h : weak_ptr.expired w p = true) :
    self.put_object w p key data size = (RED_EINVAL, w.log .invalid_bucket_handle) := by
  simp only [s3client.put_object, lock_expired w p h]

theorem get_object_expired (self : s3client) (w : S3World) (p : Option Nat)
    (key buffer : String) (size : Nat) (n0 : Int) (h : weak_ptr.expired w p = true) :
    self.get_object w p key buffer size n0
      = (RED_EINVAL, n0, w.log .invalid_bucket_handle) := by
  simp only [s3client.get_object, lock_expired w p h]

/-- Destroying the `shared_ptr` taken by `lock` restores the objects; the
world `v` is the one after `lock` and any number of client calls and log
lines. -/
theorem release_locked (w v : S3World) (a : Nat) (b : s3bucket) (n : Nat)
    (ho : w.objects a = some (b, n)) (hn : n ≠ 0)
    (hv : v.objects = Function.update w.objects a (some (b, n + 1))) :
    shared_ptr.release v a
      = { v with objects := w.objects } := by
  have h1 : v.objects a = some (b, n + 1) := by rw [hv]; simp
  rw [release_shared v a b (n + 1) h1 (by omega)]
  have h2 : Function.update v.objects a (some (b, n + 1 - 1)) = w.objects := by
    simp only [hv, Function.update_idem, Nat.add_sub_cancel]
    rw [← ho]
    exact Function.update_eq_self a w.objects
  rw [h2]

theorem put_object_shape (self : s3client) (w : S3World) (a : Nat) (b : s3bucket) (n : Nat)
    (key data : String) (size : Nat)
    (ho : w.objects a = some (b, n)) (hn : n ≠ 0) :
    ∃ tr, (self.put_object w (some a) key data size).2.calls = w.calls ++ tr ∧
      (self.put_object w (some a) key data size).2.objects = w.objects ∧
      (self.put_object w (some a) key data size).2.next = w.next ∧
      RunShape b.handle key (O_CREAT ||| O_WRONLY) 0o644 (fun oh => .pwrite oh data size 0)
        (self.put_object w (some a) key data size).1 tr := by
  simp only [s3client.put_object, lock_live w a b n ho hn]
  split
  · rename_i h1
    rw [release_locked w _ a b n ho hn]
    · simp only [s3call_calls, s3log_calls, s3call_fst, s3call_next, s3log_next]
      refine ⟨_, rfl, trivial, trivial, ?_⟩
      exact Or.inl ⟨_, h1, rfl, rfl⟩
    · rfl
  · rename_i h1
    split
    · rename_i h2
      rw [release_locked w _ a b n ho hn]
      · simp only [s3call_calls, s3log_calls, s3call_fst, s3call_next, s3log_next,
          List.append_assoc, List.singleton_append, List.cons_append, List.nil_append]
        refine ⟨_, rfl, trivial, trivial, ?_⟩
        exact Or.inr (Or.inl ⟨_, _, _, not_not.mp h1, h2, rfl, rfl⟩)
      · rfl
    · rename_i h2
      rw [release_locked w _ a b n ho hn]
      · have e : ∀ (c : Prop) [Decidable c] (x : S3World) (l : LogLine),
            (if c then x.log l else x).calls = x.calls ∧
            (if c then x.log l else x).next = x.next := by
          intro c _ x l; split <;> exact ⟨rfl, rfl⟩
        simp only [s3call_calls, s3log_calls, s3call_fst, s3call_next, s3log_next, e,
          List.append_assoc, List.singleton_append, List.cons_append, List.nil_append]
        refine ⟨_, rfl, trivial, trivial, ?_⟩
        exact Or.inr (Or.inr ⟨_, _, _, _, _, not_not.mp h1, not_not.mp h2, rfl, rfl⟩)
      · simp only [s3call_objects]
        split <;> rfl

theorem get_object_shape (self : s3client) (w : S3World) (a : Nat) (b : s3bucket) (n : Nat)
    (key buffer : String) (size : Nat) (n0 : Int)
    (ho : w.objects a = some (b, n)) (hn : n ≠ 0) :
    ∃ tr, (self.get_object w (some a) key buffer size n0).2.2.calls = w.calls ++ tr ∧
      (self.get_object w (some a) key buffer size n0).2.2.objects = w.objects ∧
      (self.get_object w (some a) key buffer size n0).2.2.next = w.next ∧
      RunShape b.handle key O_RDONLY 0 (fun oh => .pread oh buffer size 0)
        (self.get_object w (some a) key buffer size n0).1 tr := by
  simp only [s3client.get_object, lock_live w a b n ho hn]
  split
  · rename_i h1
    rw [release_locked w _ a b n ho hn]
    · simp only [s3call_calls, s3log_calls, s3call_fst, s3call_next, s3log_next]
      refine ⟨_, rfl, trivial, trivial, ?_⟩
      exact Or.inl ⟨_, h1, rfl, rfl⟩
    · rfl
  · rename_i h1
    split
    · rename_i h2
      rw [release_locked w _ a b n ho hn]
      · simp only [s3call_calls, s3log_calls, s3call_fst, s3call_next, s3log_next,
          List.append_assoc, List.singleton_append, List.cons_append, List.nil_append]
        refine ⟨_, rfl, trivial, trivial, ?_⟩
        exact Or.inr (Or.inl ⟨_, _, _, not_not.mp h1, h2, rfl, rfl⟩)
      · rfl
    · rename_i h2
      rw [release_locked w _ a b n ho hn]
      · have e : ∀ (c : Prop) [Decidable c] (x : S3World) (l : LogLine),
            (if c then x.log l else x).calls = x.calls ∧
            (if c then x.log l else x).next = x.next := by
          intro c _ x l; split <;> exact ⟨rfl, rfl⟩
        simp only [s3call_calls, s3log_calls, s3call_fst, s3call_next, s3log_next, e,
          List.append_assoc, List.singleton_append, List.cons_append, List.nil_append]
        refine ⟨_, rfl, trivial, trivial, ?_⟩
        exact Or.inr (Or.inr ⟨_, _, _, _, _, not_not.mp h1, not_not.mp h2, rfl, rfl⟩)
      · simp only [s3call_objects]
        split <;> rfl

/-- Every run of `put_object`: the exchanges it adds, in one of the three
shapes, or none at all for an expired reference. -/
theorem put_object_run (self : s3client) (w : S3World) (p : Option Nat)
    (key data : String) (size : Nat) :
    ∃ tr, (self.put_object w p key data size).2.calls = w.calls ++ tr ∧
      (self.put_object w p key data size).2.objects = w.objects ∧
      (self.put_object w p key data size).2.next = w.next ∧
      ((weak_ptr.expired w p = true ∧ tr = [] ∧
          (self.put_object w p key data size).1 = RED_EINVAL) ∨
        ∃ a b n, p = some a ∧ w.objects a = some (b, n) ∧ n ≠ 0 ∧
          RunShape b.handle key (O_CREAT ||| O_WRONLY) 0o644
            (fun oh => .pwrite oh data size 0)
            (self.put_object w p key data size).1 tr) := by
  rcases expired_or_live w p with h | ⟨a, b, n, hp, ho, hn⟩
  · rw [put_object_expired self w p key data size h]
    exact ⟨[], by simp, rfl, rfl, Or.inl ⟨h, rfl, rfl⟩⟩
  · subst hp
    obtain ⟨tr, h1, h2, h3, h4⟩ := put_object_shape self w a b n key data size ho hn
    exact ⟨tr, h1, h2, h3, Or.inr ⟨a, b, n, rfl, ho, hn, h4⟩⟩

/-- Every run of `get_object`: the exchanges it adds, in one of the three
shapes, or none at all for an expired reference. -/
theorem get_object_run (self : s3client) (w : S3World) (p : Option Nat)
    (key buffer : String) (size : Nat) (n0 : Int) :
    ∃ tr, (self.get_object w p key buffer size n0).2.2.calls = w.calls ++ tr ∧
      (self.get_object w p key buffer size n0).2.2.objects = w.objects ∧
      (self.get_object w p key buffer size n0).2.2.next = w.next ∧
      ((weak_ptr.expired w p = true ∧ tr = [] ∧
          (self.get_object w p key buffer size n0).1 = RED_EINVAL) ∨
        ∃ a b n, p = some a ∧ w.objects a = some (b, n) ∧ n ≠ 0 ∧
          RunShape b.handle key O_RDONLY 0 (fun oh => .pread oh buffer size 0)
            (self.get_object w p key buffer size n0).1 tr) := by
  rcases expired_or_live w p with h | ⟨a, b, n, hp, ho, hn⟩
  · rw [get_object_expired self w p key buffer size n0 h]
    exact ⟨[], by simp, rfl, rfl, Or.inl ⟨h, rfl, rfl⟩⟩
  · subst hp
    obtain ⟨tr, h1, h2, h3, h4⟩ := get_object_shape self w a b n key buffer size n0 ho hn
    exact ⟨tr, h1, h2, h3, Or.inr ⟨a, b, n, rfl, ho, hn, h4⟩⟩

/-- In each of the three shapes the handles closed are the handles opened, in
reverse order. -/
theorem runShape_closed (h : rfs_dataset_hndl_t) (key : String) (flags mode : Nat)
    (io : rfs_open_hndl_t → Request) (rs : Int) (tr : List (Request × Reply))
    (hio : ∀ oh r l, opened ((io oh, r) :: l) = opened l ∧
      closed ((io oh, r) :: l) = closed l)
    (hs : RunShape h key flags mode io rs tr) :
    closed tr = (opened tr).reverse := by
  rcases hs with ⟨r1, h1, _, ht⟩ | ⟨r1, r2, r3, h1, h2, _, ht⟩ |
    ⟨r1, r2, r3, r4, r5, h1, h2, _, ht⟩
  · subst ht; simp [opened, closed, h1]
  · subst ht; simp [opened, closed, h1, h2]
  · subst ht
    simp [opened, closed, h1, h2, (hio r2.oh r3 _).1, (hio r2.oh r3 _).2]

/-- In each of the three shapes a step that failed decides the result. -/
theorem runShape_failed_step (h : rfs_dataset_hndl_t) (key : String) (flags mode : Nat)
    (io : rfs_open_hndl_t → Request) (rs : Int) (tr : List (Request × Reply))
    (hs : RunShape h key flags mode io rs tr) :
    ∀ q r, (q, r) ∈ tr → q.isStep = true → r.rs ≠ RED_SUCCESS → rs = r.rs := by
  intro q r hm hq hr
  rcases hs with ⟨r1, h1, e, ht⟩ | ⟨r1, r2, r3, h1, h2, e, ht⟩ |
    ⟨r1, r2, r3, r4, r5, h1, h2, e, ht⟩
  · subst ht
    simp only [List.mem_singleton, Prod.mk.injEq] at hm
    rw [hm.2]; exact e
  · subst ht
    simp only [List.mem_cons, Prod.mk.injEq, List.mem_singleton, List.not_mem_nil,
      or_false] at hm
    rcases hm with hm | hm | hm
    · rw [hm.2] at hr; exact absurd h1 hr
    · rw [hm.2]; exact e
    · rw [hm.1] at hq; simp [Request.isStep] at hq
  · subst ht
    simp only [List.mem_cons, Prod.mk.injEq, List.mem_singleton, List.not_mem_nil,
      or_false] at hm
    rcases hm with hm | hm | hm | hm | hm
    · rw [hm.2] at hr; exact absurd h1 hr
    · rw [hm.2] at hr; exact absurd h2 hr
    · rw [hm.2]; exact e
    · rw [hm.1] at hq; simp [Request.isStep] at hq
    · rw [hm.1] at hq; simp [Request.isStep] at hq

theorem closedDatasets_append (l m : List (Request × Reply)) :
    closedDatasets (l ++ m) = closedDatasets l ++ closedDatasets m := by
  induction l with
  | nil => rfl
  | cons x l ih =>
    obtain ⟨q, r⟩ := x
    cases q <;> simp [closedDatasets, ih]

/-! ## Claims on simple_s3_client -/

/-- Counterexample to C11 as stated: `open_root` and `openat` succeed with the
handles `{2}` and `{3}`, `pwrite` fails with status `-5`; `put_object` returns
`-5` and calls `close` twice, not once: on `{3}` and then on `{2}`. -/
theorem put_object_write_failure_closes_twice :
    (putRun (mockWriteFails (-5) 0)).1 = -5 ∧
    requests (putRun (mockWriteFails (-5) 0)).2.calls
      = [.open_root ⟨1⟩, .openat ⟨2⟩ "test_object" 65 420,
          .pwrite ⟨3⟩ "test data" 9 0, .close ⟨3⟩, .close ⟨2⟩] ∧
    closed (putRun (mockWriteFails (-5) 0)).2.calls = [⟨3⟩, ⟨2⟩] ∧
    (closed (putRun (mockWriteFails (-5) 0)).2.calls).length ≠ 1 := by
  refine ⟨rfl, rfl, rfl, ?_⟩
  decide

/-- C11 as amended: in every run of `put_object` in which the `pwrite` step is
made (so the weak reference resolved and `open_root` and `openat` succeeded)
and returns a failure status, the run returns that status and issues exactly
two `close` calls: first on the object handle returned by `openat`, then on the
root handle returned by `open_root`. -/
theorem put_object_write_failure_closes_both (self : s3client) (w : S3World)
    (p : Option Nat) (key data : String) (size : Nat) (tr : List (Request × Reply))
    (oh : rfs_open_hndl_t) (buf : String) (count : Nat) (off : Int) (r : Reply)
    (htr : (self.put_object w p key data size).2.calls = w.calls ++ tr)
    (hm : (Request.pwrite oh buf count off, r) ∈ tr) (hr : r.rs ≠ RED_SUCCESS) :
    (self.put_object w p key data size).1 = r.rs ∧
    ∃ (h : rfs_dataset_hndl_t) (r1 r2 r4 r5 : Reply),
      r1.rs = RED_SUCCESS ∧ r2.rs = RED_SUCCESS ∧
      tr = [(.open_root h, r1), (.openat r1.oh key (O_CREAT ||| O_WRONLY) 0o644, r2),
        (.pwrite r2.oh data size 0, r), (.close r2.oh, r4), (.close r1.oh, r5)] ∧
      closed tr = [r2.oh, r1.oh] := by
  obtain ⟨tr0, h1, _, _, h4⟩ := put_object_run self w p key data size
  have e : tr = tr0 := List.append_cancel_left (htr.symm.trans h1)
  subst e
  rcases h4 with ⟨_, ht, _⟩ | ⟨a, b, n, _, _, _, hs⟩
  · rw [ht] at hm; simp at hm
  · have hres := runShape_failed_step _ _ _ _ _ _ _ hs _ r hm rfl hr
    refine ⟨hres, ?_⟩
    rcases hs with ⟨r1, _, _, ht⟩ | ⟨r1, r2, r3, _, _, _, ht⟩ |
      ⟨r1, r2, r3, r4, r5, g1, g2, _, ht⟩
    · subst ht; simp at hm
    · subst ht; simp at hm
    · subst ht
      simp only [List.mem_cons, Prod.mk.injEq, List.mem_singleton, List.not_mem_nil,
        or_false, false_and, false_or, reduceCtorEq] at hm
      obtain ⟨_, hm2⟩ := hm
      subst hm2
      exact ⟨b.handle, r1, r2, r4, r5, g1, g2, rfl, by simp [closed]⟩

/-- Witness of the amended C11: the run of the counterexample. -/
theorem put_object_write_failure_closes_both_witness :
    (putRun (mockWriteFails (-5) 0)).1 = -5 :=
  (put_object_write_failure_closes_both { buckets := [0], red_client := mockWriteFails (-5) 0 }
    (oneBucket (mockWriteFails (-5) 0)) (some 0) "test_object" "test data" 9
    [(.open_root ⟨1⟩, ⟨0, ⟨2⟩, ⟨0⟩, 0⟩), (.openat ⟨2⟩ "test_object" 65 420, ⟨0, ⟨3⟩, ⟨0⟩, 0⟩),
      (.pwrite ⟨3⟩ "test data" 9 0, ⟨-5, ⟨0⟩, ⟨0⟩, -1⟩), (.close ⟨3⟩, ⟨0, ⟨0⟩, ⟨0⟩, 0⟩),
      (.close ⟨2⟩, ⟨0, ⟨0⟩, ⟨0⟩, 0⟩)]
    ⟨3⟩ "test data" 9 0 ⟨-5, ⟨0⟩, ⟨0⟩, -1⟩ rfl (by simp) (by decide)).1

/-- C12: in every run of `put_object` and of `get_object`, whatever the client
answers, the handles passed to `close` are exactly the handles returned by the
successful `open_root` and `openat` calls of that run, in reverse order: each
opened handle is closed once, and nothing else is closed. -/
theorem opened_handles_closed_exactly_once (self : s3client) (w : S3World)
    (p : Option Nat) (key data buffer : String) (size : Nat) (n0 : Int) :
    (∃ tr, (self.put_object w p key data size).2.calls = w.calls ++ tr ∧
      closed tr = (opened tr).reverse ∧
      ∀ oh, (closed tr).count oh = (opened tr).count oh) ∧
    (∃ tr, (self.get_object w p key buffer size n0).2.2.calls = w.calls ++ tr ∧
      closed tr = (opened tr).reverse ∧
      ∀ oh, (closed tr).count oh = (opened tr).count oh) := by
  constructor
  · obtain ⟨tr, h1, _, _, h4⟩ := put_object_run self w p key data size
    have hc : closed tr = (opened tr).reverse := by
      rcases h4 with ⟨_, ht, _⟩ | ⟨a, b, n, _, _, _, hs⟩
      · subst ht; rfl
      · exact runShape_closed _ _ _ _ (fun oh => .pwrite oh data size 0) _ _
          (fun _ _ _ => ⟨rfl, rfl⟩) hs
    exact ⟨tr, h1, hc, fun oh => by rw [hc, List.count_reverse]⟩
  · obtain ⟨tr, h1, _, _, h4⟩ := get_object_run self w p key buffer size n0
    have hc : closed tr = (opened tr).reverse := by
      rcases h4 with ⟨_, ht, _⟩ | ⟨a, b, n, _, _, _, hs⟩
      · subst ht; rfl
      · exact runShape_closed _ _ _ _ (fun oh => .pread oh buffer size 0) _ _
          (fun _ _ _ => ⟨rfl, rfl⟩) hs
    exact ⟨tr, h1, hc, fun oh => by rw [hc, List.count_reverse]⟩

/-- C13: if a step of `put_object` or `get_object` (`open_root`, `openat`,
`pwrite`, `pread`) returns a failure status, the operation returns exactly that
status, whatever the client answers to the `close` calls that follow. -/
theorem failed_step_status_is_returned (self : s3client) (w : S3World)
    (p : Option Nat) (key data buffer : String) (size : Nat) (n0 : Int) :
    (∀ tr, (self.put_object w p key data size).2.calls = w.calls ++ tr →
      ∀ q r, (q, r) ∈ tr → q.isStep = true → r.rs ≠ RED_SUCCESS →
        (self.put_object w p key data size).1 = r.rs) ∧
    (∀ tr, (self.get_object w p key buffer size n0).2.2.calls = w.calls ++ tr →
      ∀ q r, (q, r) ∈ tr → q.isStep = true → r.rs ≠ RED_SUCCESS →
        (self.get_object w p key buffer size n0).1 = r.rs) := by
  constructor
  · intro tr htr q r hm hq hr
    obtain ⟨tr0, h1, _, _, h4⟩ := put_object_run self w p key data size
    have e : tr = tr0 := List.append_cancel_left (htr.symm.trans h1)
    subst e
    rcases h4 with ⟨_, ht, _⟩ | ⟨a, b, n, _, _, _, hs⟩
    · rw [ht] at hm; simp at hm
    · exact runShape_failed_step _ _ _ _ _ _ _ hs q r hm hq hr
  · intro tr htr q r hm hq hr
    obtain ⟨tr0, h1, _, _, h4⟩ := get_object_run self w p key buffer size n0
    have e : tr = tr0 := List.append_cancel_left (htr.symm.trans h1)
    subst e
    rcases h4 with ⟨_, ht, _⟩ | ⟨a, b, n, _, _, _, hs⟩
    · rw [ht] at hm; simp at hm
    · exact runShape_failed_step _ _ _ _ _ _ _ hs q r hm hq hr

/-- Witness of C13: `pwrite` fails with `-5` and both `close` calls fail with
`-9`; `put_object` returns `-5`. -/
theorem failed_step_status_is_returned_witness :
    (putRun (mockWriteFails (-5) (-9))).1 = -5 :=
  (failed_step_status_is_returned { buckets := [0], red_client := mockWriteFails (-5) (-9) }
    (oneBucket (mockWriteFails (-5) (-9))) (some 0) "test_object" "test data" "" 9 0).1
    [(.open_root ⟨1⟩, ⟨0, ⟨2⟩, ⟨0⟩, 0⟩), (.openat ⟨2⟩ "test_object" 65 420, ⟨0, ⟨3⟩, ⟨0⟩, 0⟩),
      (.pwrite ⟨3⟩ "test data" 9 0, ⟨-5, ⟨0⟩, ⟨0⟩, -1⟩), (.close ⟨3⟩, ⟨-9, ⟨0⟩, ⟨0⟩, 0⟩),
      (.close ⟨2⟩, ⟨-9, ⟨0⟩, ⟨0⟩, 0⟩)]
    rfl (.pwrite ⟨3⟩ "test data" 9 0) ⟨-5, ⟨0⟩, ⟨0⟩, -1⟩ (by simp) rfl (by decide)

/-- C14: `put_object` and `get_object` called with an expired or empty weak
bucket reference return `RED_EINVAL` (`-22`) and make no call to the client. -/
theorem expired_bucket_reference_is_rejected (self : s3client) (w : S3World)
    (p : Option Nat) (key data buffer : String) (size : Nat) (n0 : Int)
    (h : weak_ptr.expired w p = true) :
    (self.put_object w p key data size).1 = -22 ∧
    (self.put_object w p key data size).1 = RED_EINVAL ∧
    (self.put_object w p key data size).2.calls = w.calls ∧
    (self.get_object w p key buffer size n0).1 = RED_EINVAL ∧
    (self.get_object w p key buffer size n0).2.2.calls = w.calls := by
  rw [put_object_expired self w p key data size h,
    get_object_expired self w p key buffer size n0 h]
  exact ⟨rfl, rfl, rfl, rfl, rfl⟩

/-- Witness of C14: an empty `weak_ptr`, and a `weak_ptr` to an address where
no bucket lives. -/
theorem expired_bucket_reference_is_rejected_witness :
    (s3client.put_object (s3client.ctor mockClient) emptyS3 none
        "test_object" "test data" 9).1 = -22 ∧
    (s3client.get_object (s3client.ctor mockClient) emptyS3 (some 5)
        "test_object" "" 9 0).1 = -22 :=
  ⟨(expired_bucket_reference_is_rejected (s3client.ctor mockClient) emptyS3 none
      "test_object" "test data" "" 9 0 rfl).1,
    (expired_bucket_reference_is_rejected (s3client.ctor mockClient) emptyS3 (some 5)
      "test_object" "test data" "" 9 0 rfl).2.2.2.1⟩

/-- C15: the destructor of `s3bucket` calls `close_dataset` once, on the
bucket's handle, if the handle is valid (its pointer is not null), and makes no
call if the handle equals `RED_INVALID_HANDLE`. -/
theorem bucket_destructor_closes_valid_handle_once (w : S3World) (b : s3bucket) :
    (b.bucket_hndl.hndl ≠ 0 →
      (s3bucket.dtor w b).calls = w.calls ++
        [(.close_dataset b.bucket_hndl,
          b.red_client w.calls (.close_dataset b.bucket_hndl))] ∧
      closedDatasets (s3bucket.dtor w b).calls
        = closedDatasets w.calls ++ [b.bucket_hndl]) ∧
    (b.bucket_hndl = RED_INVALID_HANDLE → (s3bucket.dtor w b).calls = w.calls) := by
  constructor
  · intro h
    have hv : RED_IS_VALID_HANDLE b.bucket_hndl = true := by
      simp [RED_IS_VALID_HANDLE, h]
    have e : (s3bucket.dtor w b).calls = w.calls ++
        [(.close_dataset b.bucket_hndl,
          b.red_client w.calls (.close_dataset b.bucket_hndl))] := by
      simp [s3bucket.dtor, hv]
    refine ⟨e, ?_⟩
    rw [e, closedDatasets_append]
    rfl
  · intro h
    simp [s3bucket.dtor, h, RED_IS_VALID_HANDLE, RED_INVALID_HANDLE]

/-- Witness of C15: a bucket with handle `{1}` and one with the invalid
handle. -/
theorem bucket_destructor_closes_valid_handle_once_witness :
    closedDatasets (s3bucket.dtor emptyS3
      { bucket_hndl := ⟨1⟩, bucket_name := "test_bucket", red_client := mockClient }).calls
      = [⟨1⟩] ∧
    (s3bucket.dtor emptyS3
      { bucket_hndl := RED_INVALID_HANDLE, bucket_name := "test_bucket",
        red_client := mockClient }).calls = [] :=
  ⟨((bucket_destructor_closes_valid_handle_once emptyS3
      { bucket_hndl := ⟨1⟩, bucket_name := "test_bucket", red_client := mockClient }).1
      (by decide)).2,
    (bucket_destructor_closes_valid_handle_once emptyS3
      { bucket_hndl := RED_INVALID_HANDLE, bucket_name := "test_bucket",
        red_client := mockClient }).2 rfl⟩

/-- C17: the bucket reference resolves to a bucket with dataset handle
`b.handle` and every step of the run succeeds.  Then `put_object` returns
`RED_SUCCESS` and its exchanges with the client are exactly `open_root` on the
bucket's handle, `openat` on the returned root handle with the key (flags
`O_CREAT | O_WRONLY`, mode `0644`), `pwrite` of the `size` bytes of `data` at
offset 0 to the returned object handle, `close` of the object handle and
`close` of the root handle, in this order. -/
theorem put_object_success_call_sequence (self : s3client) (w : S3World)
    (a : Nat) (b : s3bucket) (n : Nat) (key data : String) (size : Nat)
    (ho : w.objects a = some (b, n)) (hn : n ≠ 0)
    (hok : ∀ tr, (self.put_object w (some a) key data size).2.calls = w.calls ++ tr →
      ∀ q r, (q, r) ∈ tr → q.isStep = true → r.rs = RED_SUCCESS) :
    (self.put_object w (some a) key data size).1 = RED_SUCCESS ∧
    ∃ r1 r2 r3 r4 r5 : Reply,
      (self.put_object w (some a) key data size).2.calls = w.calls ++
        [(.open_root b.handle, r1), (.openat r1.oh key (O_CREAT ||| O_WRONLY) 0o644, r2),
          (.pwrite r2.oh data size 0, r3), (.close r2.oh, r4), (.close r1.oh, r5)] := by
  obtain ⟨tr, h1, _, _, hs⟩ := put_object_shape self w a b n key data size ho hn
  have hk := hok tr h1
  rcases hs with ⟨r1, g1, _, ht⟩ | ⟨r1, r2, r3, _, g2, _, ht⟩ |
    ⟨r1, r2, r3, r4, r5, g1, g2, e, ht⟩
  · subst ht
    exact absurd (hk (.open_root b.handle) r1 (by simp) rfl) g1
  · subst ht
    exact absurd
      (hk (.openat r1.oh key (O_CREAT ||| O_WRONLY) 0o644) r2 (by simp) rfl) g2
  · subst ht
    refine ⟨?_, r1, r2, r3, r4, r5, h1⟩
    rw [e]
    exact hk (.pwrite r2.oh data size 0) r3 (by simp) rfl

/-- Witness of C17: the unit test `PutObject` (key "test_object", data
"test data", root handle `{2}`, object handle `{3}`). -/
theorem put_object_success_call_sequence_witness :
    (putRun mockClient).1 = 0 ∧
    requests (putRun mockClient).2.calls
      = [.open_root ⟨1⟩, .openat ⟨2⟩ "test_object" 65 420,
          .pwrite ⟨3⟩ "test data" 9 0, .close ⟨3⟩, .close ⟨2⟩] :=
  ⟨(put_object_success_call_sequence { buckets := [0], red_client := mockClient }
      (oneBucket mockClient) 0
      { bucket_hndl := ⟨1⟩, bucket_name := "test_bucket", red_client := mockClient } 1
      "test_object" "test data" 9 rfl (by decide)
      (fun tr h q r hm _ => by
        have e : [((Request.open_root ⟨1⟩, (⟨0, ⟨2⟩, ⟨0⟩, 0⟩ : Reply)) : Request × Reply),
            (.openat ⟨2⟩ "test_object" 65 420, ⟨0, ⟨3⟩, ⟨0⟩, 0⟩),
            (.pwrite ⟨3⟩ "test data" 9 0, ⟨0, ⟨0⟩, ⟨0⟩, 9⟩), (.close ⟨3⟩, ⟨0, ⟨0⟩, ⟨0⟩, 0⟩),
            (.close ⟨2⟩, ⟨0, ⟨0⟩, ⟨0⟩, 0⟩)] = tr := h
        subst e
        simp only [List.mem_cons, Prod.mk.injEq, List.mem_singleton, List.not_mem_nil,
          or_false] at hm
        rcases hm with hm | hm | hm | hm | hm <;> (rw [hm.2]; rfl))).1,
    rfl⟩

/-! ## simple_s3_client: the life of a bucket -/

theorem runShape_no_close_dataset (h : rfs_dataset_hndl_t) (key : String) (flags mode : Nat)
    (io : rfs_open_hndl_t → Request) (rs : Int) (tr : List (Request × Reply))
    (hio : ∀ oh r l, closedDatasets ((io oh, r) :: l) = closedDatasets l)
    (hs : RunShape h key flags mode io rs tr) :
    closedDatasets tr = [] := by
  rcases hs with ⟨r1, _, _, ht⟩ | ⟨r1, r2, r3, _, _, _, ht⟩ |
    ⟨r1, r2, r3, r4, r5, _, _, _, ht⟩
  · subst ht; rfl
  · subst ht; rfl
  · subst ht
    simp [closedDatasets, hio r2.oh r3 _]

/-- Calls of `put_object` and `get_object` leave the buckets as they are and
never call `close_dataset`. -/
theorem run_preserves (self : s3client) (ops : List S3Op) :
    ∀ w : S3World, ∃ tr, (self.run w ops).calls = w.calls ++ tr ∧
      closedDatasets tr = [] ∧ (self.run w ops).objects = w.objects ∧
      (self.run w ops).next = w.next := by
  induction ops with
  | nil => intro w; exact ⟨[], by simp [s3client.run], rfl, rfl, rfl⟩
  | cons op ops ih =>
    intro w
    cases op with
    | put p key data size =>
      obtain ⟨t1, a1, a2, a3, a4⟩ := put_object_run self w p key data size
      obtain ⟨t2, b1, b2, b3, b4⟩ := ih (self.put_object w p key data size).2
      have c1 : closedDatasets t1 = [] := by
        rcases a4 with ⟨_, ht, _⟩ | ⟨a, b, n, _, _, _, hs⟩
        · subst ht; rfl
        · exact runShape_no_close_dataset _ _ _ _ (fun oh => .pwrite oh data size 0) _ _
            (fun _ _ _ => rfl) hs
      refine ⟨t1 ++ t2, ?_, ?_, ?_, ?_⟩
      · simp only [s3client.run]; rw [b1, a1, List.append_assoc]
      · rw [closedDatasets_append, c1, b2]; rfl
      · simp only [s3client.run]; rw [b3, a2]
      · simp only [s3client.run]; rw [b4, a3]
    | get p key buffer size n0 =>
      obtain ⟨t1, a1, a2, a3, a4⟩ := get_object_run self w p key buffer size n0
      obtain ⟨t2, b1, b2, b3, b4⟩ := ih (self.get_object w p key buffer size n0).2.2
      have c1 : closedDatasets t1 = [] := by
        rcases a4 with ⟨_, ht, _⟩ | ⟨a, b, n, _, _, _, hs⟩
        · subst ht; rfl
        · exact runShape_no_close_dataset _ _ _ _ (fun oh => .pread oh buffer size 0) _ _
            (fun _ _ _ => rfl) hs
      refine ⟨t1 ++ t2, ?_, ?_, ?_, ?_⟩
      · simp only [s3client.run]; rw [b1, a1, List.append_assoc]
      · rw [closedDatasets_append, c1, b2]; rfl
      · simp only [s3client.run]; rw [b3, a2]
      · simp only [s3client.run]; rw [b4, a3]

/-- A successful `create_bucket` on a new client: the bucket is created at
the next free address with use count 1 and is the only element of `buckets`. -/
theorem create_bucket_success (c : IRedClient) (w : S3World) (cluster bucket_name : String)
    (hrs : (c w.calls (.obtain_dataset bucket_name cluster
      { nstripes := RED_MAX_STRIPES, bucket_size := 256 * 1024, block_size := 4 * 1024,
        ec_nparity := 2, poolid := 1, ltid := 1 })).rs = RED_SUCCESS) :
    ((s3client.ctor c).create_bucket w cluster bucket_name).1 = some w.next ∧
    ((s3client.ctor c).create_bucket w cluster bucket_name).2.1.buckets = [w.next] ∧
    ((s3client.ctor c).create_bucket w cluster bucket_name).2.2.calls
      = w.calls ++ [(.obtain_dataset bucket_name cluster
          { nstripes := RED_MAX_STRIPES, bucket_size := 256 * 1024, block_size := 4 * 1024,
            ec_nparity := 2, poolid := 1, ltid := 1 },
          c w.calls (.obtain_dataset bucket_name cluster
          { nstripes := RED_MAX_STRIPES, bucket_size := 256 * 1024, block_size := 4 * 1024,
            ec_nparity := 2, poolid := 1, ltid := 1 }))] ∧
    ((s3client.ctor c).create_bucket w cluster bucket_name).2.2.objects w.next
      = some (s3bucket.mk (c w.calls (.obtain_dataset bucket_name cluster
          { nstripes := RED_MAX_STRIPES, bucket_size := 256 * 1024, block_size := 4 * 1024,
            ec_nparity := 2, poolid := 1, ltid := 1 })).hndl bucket_name c, 1) := by
  have hr : ¬ (c w.calls (.obtain_dataset bucket_name cluster
      { nstripes := RED_MAX_STRIPES, bucket_size := 256 * 1024, block_size := 4 * 1024,
        ec_nparity := 2, poolid := 1, ltid := 1 })).rs ≠ RED_SUCCESS := not_not.mpr hrs
  simp only [s3client.create_bucket, s3client.ctor, s3call_fst, hr, if_false, make_shared,
    List.not_mem_nil, List.nil_append, s3call_next, s3call_objects, s3call_calls]
  refine ⟨trivial, trivial, ?_, ?_⟩
  · simp [shared_ptr.copy, shared_ptr.release]
  · simp [shared_ptr.copy, shared_ptr.release]

/-- C16: a new client whose `obtain_dataset` succeeds with a valid dataset
handle `h`.  `create_bucket` returns a weak reference that is not expired,
and stays so through any sequence `ops` of `put_object` and `get_object` calls
on the client; the exchanges of the whole life of the client, from
`create_bucket` through its destruction, contain exactly one `close_dataset`,
on `h`; after the destruction the reference is expired. -/
theorem created_bucket_closed_once_at_destruction (c : IRedClient) (w : S3World)
    (cluster bucket_name : String) (ops : List S3Op) (h : rfs_dataset_hndl_t)
    (weak : Option Nat) (self1 : s3client) (w1 : S3World)
    (hrs : (c w.calls (.obtain_dataset bucket_name cluster
      { nstripes := RED_MAX_STRIPES, bucket_size := 256 * 1024, block_size := 4 * 1024,
        ec_nparity := 2, poolid := 1, ltid := 1 })).rs = RED_SUCCESS)
    (hh : (c w.calls (.obtain_dataset bucket_name cluster
      { nstripes := RED_MAX_STRIPES, bucket_size := 256 * 1024, block_size := 4 * 1024,
        ec_nparity := 2, poolid := 1, ltid := 1 })).hndl = h)
    (hv : h.hndl ≠ 0)
    (hcb : (s3client.ctor c).create_bucket w cluster bucket_name = (weak, self1, w1)) :
    weak_ptr.expired w1 weak = false ∧
    weak_ptr.expired (self1.run w1 ops) weak = false ∧
    (∃ tr, (self1.dtor (self1.run w1 ops)).calls = w.calls ++ tr ∧
      closedDatasets tr = [h]) ∧
    weak_ptr.expired (self1.dtor (self1.run w1 ops)) weak = true := by
  obtain ⟨f1, f2, f3, f4⟩ := create_bucket_success c w cluster bucket_name hrs
  rw [hcb] at f1 f2 f3 f4
  simp only at f1 f2 f3 f4
  rw [hh] at f4
  obtain ⟨tr, g1, g2, g3, _⟩ := run_preserves self1 ops w1
  have hvalid : RED_IS_VALID_HANDLE h = true := by simp [RED_IS_VALID_HANDLE, hv]
  have o2 : (self1.run w1 ops).objects w.next = some (s3bucket.mk h bucket_name c, 1) := by
    rw [g3, f4]
  have hco : (self1.run w1 ops).clear_order [w.next] = [w.next] :=
    List.perm_singleton.mp ((self1.run w1 ops).clear_perm _)
  subst f1
  refine ⟨?_, ?_, ?_, ?_⟩
  · simp [weak_ptr.expired, f4]
  · simp [weak_ptr.expired, o2]
  · refine ⟨(Request.obtain_dataset bucket_name cluster
        { nstripes := RED_MAX_STRIPES, bucket_size := 256 * 1024, block_size := 4 * 1024,
          ec_nparity := 2, poolid := 1, ltid := 1 },
        c w.calls (.obtain_dataset bucket_name cluster
        { nstripes := RED_MAX_STRIPES, bucket_size := 256 * 1024, block_size := 4 * 1024,
          ec_nparity := 2, poolid := 1, ltid := 1 })) :: (tr ++
        [(.close_dataset h, c (self1.run w1 ops).calls (.close_dataset h))]), ?_, ?_⟩
    · simp [s3client.dtor, f2, hco, shared_ptr.release, o2, s3bucket.dtor, hvalid,
        S3World.call, g1, f3]
    · have : closedDatasets ((tr ++
          [(Request.close_dataset h, c (self1.run w1 ops).calls (.close_dataset h))]))
          = [h] := by
        rw [closedDatasets_append, g2]; rfl
      simpa [closedDatasets] using this
  · simp [s3client.dtor, f2, hco, shared_ptr.release, o2, s3bucket.dtor, hvalid,
      S3World.call, weak_ptr.expired]

/-- Witness of C16: the unit test `CreateBucket` (cluster "infinia", bucket
"test_bucket", dataset handle `{1}`), followed by a `put_object` before the
client is destroyed. -/
theorem created_bucket_closed_once_at_destruction_witness :
    weak_ptr.expired
      ((s3client.ctor mockClient).create_bucket emptyS3 "infinia" "test_bucket").2.2
      ((s3client.ctor mockClient).create_bucket emptyS3 "infinia" "test_bucket").1 = false ∧
    ∃ tr, (s3client.dtor
        ((s3client.ctor mockClient).create_bucket emptyS3 "infinia" "test_bucket").2.1
        (s3client.run
          ((s3client.ctor mockClient).create_bucket emptyS3 "infinia" "test_bucket").2.1
          ((s3client.ctor mockClient).create_bucket emptyS3 "infinia" "test_bucket").2.2
          [.put (some 0) "test_object" "test data" 9])).calls = emptyS3.calls ++ tr ∧
      closedDatasets tr = [⟨1⟩] :=
  ⟨(created_bucket_closed_once_at_destruction mockClient emptyS3 "infinia" "test_bucket"
      [.put (some 0) "test_object" "test data" 9] ⟨1⟩ _ _ _ rfl rfl (by decide) rfl).1,
    (created_bucket_closed_once_at_destruction mockClient emptyS3 "infinia" "test_bucket"
      [.put (some 0) "test_object" "test data" 9] ⟨1⟩ _ _ _ rfl rfl (by decide) rfl).2.2.1⟩

/-! ## string_utils: tokens -/

theorem takeWhile_all (p : Char → Bool) (l : List Char) (h : ∀ c ∈ l, p c = true) :
    l.takeWhile p = l := by
  induction l with
  | nil => rfl
  | cons c cs ih =>
    have hc : p c = true := h c (List.mem_cons_self _ _)
    simp only [List.takeWhile, hc]
    rw [ih (fun x hx => h x (List.mem_cons_of_mem _ hx))]

theorem dropWhile_all (p : Char → Bool) (l : List Char) (h : ∀ c ∈ l, p c = true) :
    l.dropWhile p = [] := by
  induction l with
  | nil => rfl
  | cons c cs ih =>
    have hc : p c = true := h c (List.mem_cons_self _ _)
    simp only [List.dropWhile, hc]
    exact ih (fun x hx => h x (List.mem_cons_of_mem _ hx))

theorem takeWhile_stop (p : Char → Bool) (l m : List Char) (d : Char)
    (h : ∀ c ∈ l, p c = true) (hd : p d = false) :
    (l ++ d :: m).takeWhile p = l := by
  induction l with
  | nil => simp [List.takeWhile, hd]
  | cons c cs ih =>
    have hc : p c = true := h c (List.mem_cons_self _ _)
    rw [List.cons_append, List.takeWhile_cons_of_pos hc,
      ih (fun x hx => h x (List.mem_cons_of_mem _ hx))]

theorem dropWhile_stop (p : Char → Bool) (l m : List Char) (d : Char)
    (h : ∀ c ∈ l, p c = true) (hd : p d = false) :
    (l ++ d :: m).dropWhile p = d :: m := by
  induction l with
  | nil => simp [List.dropWhile, hd]
  | cons c cs ih =>
    have hc : p c = true := h c (List.mem_cons_self _ _)
    rw [List.cons_append, List.dropWhile_cons_of_pos hc]
    exact ih (fun x hx => h x (List.mem_cons_of_mem _ hx))

theorem contains_single (d c : Char) : [d].contains c = (c == d) := by
  cases h : c == d <;> simp [List.contains, List.elem, h]

/-- A non-empty string without delimiters is one token, and nothing is left. -/
theorem strtok_whole (l : List Char) (d : Char) (hne : l ≠ [])
    (h : ∀ c ∈ l, c ≠ d) : strtok_r l [d] = some (l, []) := by
  obtain ⟨a, cs, rfl⟩ := List.exists_cons_of_ne_nil hne
  have ha : [d].contains a = false := by
    rw [contains_single]; simpa using h a (List.mem_cons_self _ _)
  have hall : ∀ c ∈ a :: cs, (fun x => !([d].contains x)) c = true := by
    intro c hc
    simp only [contains_single]
    simpa using h c hc
  have e1 : (a :: cs).dropWhile (fun c => [d].contains c) = a :: cs := by
    simp only [List.dropWhile, ha]
  simp only [strtok_r, e1]
  rw [takeWhile_all _ _ hall, dropWhile_all _ _ hall]
  rfl

/-- A non-empty string without delimiters, followed by a delimiter: the token
is that string, and what follows the delimiter is left. -/
theorem strtok_first (l m : List Char) (d : Char) (hne : l ≠ [])
    (h : ∀ c ∈ l, c ≠ d) : strtok_r (l ++ d :: m) [d] = some (l, m) := by
  obtain ⟨a, cs, rfl⟩ := List.exists_cons_of_ne_nil hne
  have ha : [d].contains a = false := by
    rw [contains_single]; simpa using h a (List.mem_cons_self _ _)
  have hall : ∀ c ∈ a :: cs, (fun x => !([d].contains x)) c = true := by
    intro c hc
    simp only [contains_single]
    simpa using h c hc
  have hd : (fun x => !([d].contains x)) d = false := by
    simp [contains_single]
  have e1 : (a :: cs ++ d :: m).dropWhile (fun c => [d].contains c) = a :: (cs ++ d :: m) := by
    rw [List.cons_append, List.dropWhile_cons_of_neg (by rw [ha]; simp)]
  simp only [strtok_r, e1]
  have e2 : a :: (cs ++ d :: m) = (a :: cs) ++ d :: m := rfl
  rw [e2, takeWhile_stop _ _ _ _ hall hd, dropWhile_stop _ _ _ _ hall hd]
  rfl

theorem strtok_nil (delim : List Char) : strtok_r [] delim = none := rfl

/-- A string that neither starts nor ends with a space is not changed by the
two trimming loops. -/
theorem trim_unchanged (l : List Char) (a z : Char) (cs ds : List Char)
    (h1 : l = a :: cs) (h2 : l = ds ++ [z]) (ha : a ≠ ' ') (hz : z ≠ ' ') :
    cut_trailing_spaces (skip_spaces l) = l := by
  have e1 : skip_spaces l = l := by
    rw [h1]
    have : (a == ' ') = false := by simpa using ha
    simp only [skip_spaces, List.dropWhile, this]
  rw [e1, h2]
  have : (z == ' ') = false := by simpa using hz
  simp only [cut_trailing_spaces, List.reverse_append, List.reverse_cons, List.reverse_nil,
    List.nil_append, List.singleton_append, List.dropWhile, this, List.reverse_reverse]

/-- A non-empty string without spaces is not changed by the two trimming
loops. -/
theorem trim_no_space (l : List Char) (hne : l ≠ []) (h : ∀ c ∈ l, c ≠ ' ') :
    cut_trailing_spaces (skip_spaces l) = l := by
  obtain ⟨a, cs, h1⟩ := List.exists_cons_of_ne_nil hne
  have h2 : l = l.dropLast ++ [l.getLast hne] := (List.dropLast_append_getLast hne).symm
  exact trim_unchanged l a (l.getLast hne) cs l.dropLast h1 h2
    (h a (by rw [h1]; exact List.mem_cons_self _ _)) (h _ (List.getLast_mem hne))

theorem find_first_of_none (l : List Char) (d : Char) (h : ∀ c ∈ l, c ≠ d) :
    find_first_of l [d] = none := by
  induction l with
  | nil => rfl
  | cons c cs ih =>
    have hc : [d].contains c = false := by
      rw [contains_single]; simpa using h c (List.mem_cons_self _ _)
    simp only [find_first_of, hc]
    rw [ih (fun x hx => h x (List.mem_cons_of_mem _ hx))]
    rfl

theorem find_first_of_stop (l m : List Char) (d : Char) (h : ∀ c ∈ l, c ≠ d) :
    find_first_of (l ++ d :: m) [d] = some l.length := by
  induction l with
  | nil => simp [find_first_of, contains_single]
  | cons c cs ih =>
    have hc : [d].contains c = false := by
      rw [contains_single]; simpa using h c (List.mem_cons_self _ _)
    rw [List.cons_append]
    simp only [find_first_of, hc]
    rw [ih (fun x hx => h x (List.mem_cons_of_mem _ hx))]
    rfl

theorem find_first_of_lt (l chars : List Char) :
    ∀ pos, find_first_of l chars = some pos → pos < l.length := by
  induction l with
  | nil => intro pos h; simp [find_first_of] at h
  | cons c cs ih =>
    intro pos h
    simp only [find_first_of] at h
    split at h
    · simp only [Option.some.injEq] at h
      subst h
      simp
    · cases hf : find_first_of cs chars with
      | none => rw [hf] at h; simp at h
      | some q =>
        rw [hf] at h
        simp only [Option.map_some', Option.some.injEq] at h
        have := ih q hf
        subst h
        simp only [List.length_cons]
        omega

/-- With more iterations than characters the loop ends, and it only appends
to `tenant_vec`. -/
theorem tenant_vec_loop_enough (fuel : Nat) :
    ∀ (env : List Char) (vec : List (List Char)), env.length < fuel →
      ∃ e v, tenant_vec_loop fuel env vec = some (e, vec ++ v) := by
  induction fuel with
  | zero => intro env vec h; omega
  | succ fuel ih =>
    intro env vec h
    simp only [tenant_vec_loop]
    cases hf : find_first_of env [','] with
    | none => exact ⟨env, [], by simp⟩
    | some pos =>
      have hp := find_first_of_lt env [','] pos hf
      have hl : (env.drop (pos + 1)).length < fuel := by
        simp only [List.length_drop]; omega
      obtain ⟨e, v, hv⟩ := ih (env.drop (pos + 1)) (vec ++ [env.take pos]) hl
      exact ⟨e, [env.take pos] ++ v, by simp only [hv, List.append_assoc]⟩

theorem tenant_vec_loop_plain (l : List Char) (h : ∀ c ∈ l, c ≠ ',') :
    tenant_vec_loop (l.length + 1) l [] = some (l, []) := by
  simp only [tenant_vec_loop, find_first_of_none l ',' h]

theorem strdup_ok (mem : List Char → Bool) (hmem : ∀ x, mem x = true) (x : List Char) :
    strdup mem x = some x := by
  simp [strdup, hmem x]

/-! ## Claims on string_utils -/

/-- C18: round trip of the format "tenant/subtenant".  For non-empty strings
`t` and `s` without '/', ',' and ' ', and with `strdup` succeeding, both
`common_split_tensubten` (C) and `common::split_tensubten` (C++) applied to
`t ++ "/" ++ s` store `t` as tenant and `s` as subtenant. -/
theorem tenant_subtenant_round_trip (mem : List Char → Bool) (hmem : ∀ x, mem x = true)
    (t s : List Char) (ht0 : t ≠ []) (hs0 : s ≠ [])
    (ht : ∀ c ∈ t, c ≠ '/' ∧ c ≠ ',' ∧ c ≠ ' ')
    (hs : ∀ c ∈ s, c ≠ '/' ∧ c ≠ ',' ∧ c ≠ ' ') :
    common_split_tensubten mem (some (t ++ '/' :: s)) = (some t, some s) ∧
    common.split_tensubten mem (t ++ '/' :: s) = some (some t, some s) := by
  obtain ⟨a, t', rfl⟩ := List.exists_cons_of_ne_nil ht0
  have hin : (a :: t') ++ '/' :: s = a :: (t' ++ '/' :: s) := rfl
  have hcomma : ∀ c ∈ a :: (t' ++ '/' :: s), c ≠ ',' := by
    intro c hc
    rw [← hin] at hc
    rcases List.mem_append.mp hc with h | h
    · exact (ht c h).2.1
    · rcases List.mem_cons.mp h with h | h
      · rw [h]; decide
      · exact (hs c h).2.1
  have k1 : strtok_r (a :: (t' ++ '/' :: s)) [','] = some (a :: (t' ++ '/' :: s), []) :=
    strtok_whole _ ',' (by simp) hcomma
  have k2 : cut_trailing_spaces (skip_spaces (a :: (t' ++ '/' :: s)))
      = a :: (t' ++ '/' :: s) := by
    refine trim_unchanged _ a (s.getLast hs0) (t' ++ '/' :: s)
      ((a :: t') ++ '/' :: s.dropLast) rfl ?_ (ht a (List.mem_cons_self _ _)).2.2
      (hs _ (List.getLast_mem hs0)).2.2
    simp only [List.append_assoc, List.cons_append]
    rw [List.dropLast_append_getLast hs0]
  have k3 : strtok_r (a :: (t' ++ '/' :: s)) ['/'] = some (a :: t', s) :=
    strtok_first (a :: t') s '/' ht0 (fun c hc => (ht c hc).1)
  have k4 : strtok_r s ['/'] = some (s, []) :=
    strtok_whole s '/' hs0 (fun c hc => (hs c hc).1)
  rw [hin]
  constructor
  · simp only [common_split_tensubten, strdup_ok mem hmem, k1, k2, k3, k4]
  · simp only [common.split_tensubten, tenant_vec_loop_plain _ hcomma]
    simp [strdup_ok mem hmem, k3, k4]

/-- Witness of C18: the string "tenant/sub". -/
theorem tenant_subtenant_round_trip_witness :
    common_split_tensubten memOk (some ("tenant".toList ++ '/' :: "sub".toList))
      = (some "tenant".toList, some "sub".toList) ∧
    common.split_tensubten memOk ("tenant".toList ++ '/' :: "sub".toList)
      = some (some "tenant".toList, some "sub".toList) :=
  tenant_subtenant_round_trip memOk (fun _ => rfl) "tenant".toList "sub".toList
    (by decide) (by decide) (by decide) (by decide)

/-- C19: missing components default to "red".  With `strdup` succeeding, the
C function gives ("red", "red") for `NULL` and for the empty string, the C++
function for the empty string; for a non-empty string `t` without '/', ','
and ' ' both give (`t`, "red"). -/
theorem missing_components_default_to_red (mem : List Char → Bool)
    (hmem : ∀ x, mem x = true) :
    common_split_tensubten mem none = (some RED_STR, some RED_STR) ∧
    common_split_tensubten mem (some []) = (some RED_STR, some RED_STR) ∧
    common.split_tensubten mem [] = some (some RED_STR, some RED_STR) ∧
    ∀ t : List Char, t ≠ [] → (∀ c ∈ t, c ≠ '/' ∧ c ≠ ',' ∧ c ≠ ' ') →
      common_split_tensubten mem (some t) = (some t, some RED_STR) ∧
      common.split_tensubten mem t = some (some t, some RED_STR) := by
  refine ⟨?_, ?_, ?_, ?_⟩
  · simp only [common_split_tensubten, strdup_ok mem hmem]
  · simp only [common_split_tensubten, strdup_ok mem hmem]
  · simp [common.split_tensubten, tenant_vec_loop, find_first_of, strdup_ok mem hmem]
  · intro t ht0 ht
    obtain ⟨a, t', rfl⟩ := List.exists_cons_of_ne_nil ht0
    have k1 : strtok_r (a :: t') [','] = some (a :: t', []) :=
      strtok_whole _ ',' ht0 (fun c hc => (ht c hc).2.1)
    have k2 : cut_trailing_spaces (skip_spaces (a :: t')) = a :: t' :=
      trim_no_space _ ht0 (fun c hc => (ht c hc).2.2)
    have k3 : strtok_r (a :: t') ['/'] = some (a :: t', []) :=
      strtok_whole _ '/' ht0 (fun c hc => (ht c hc).1)
    constructor
    · simp only [common_split_tensubten, strdup_ok mem hmem, k1, k2, k3, strtok_nil]
    · simp only [common.split_tensubten,
        tenant_vec_loop_plain _ (fun c hc => (ht c hc).2.1)]
      simp [strdup_ok mem hmem, k3, strtok_nil]

/-- Witness of C19: the string "tenant". -/
theorem missing_components_default_to_red_witness :
    common_split_tensubten memOk (some "tenant".toList)
      = (some "tenant".toList, some RED_STR) ∧
    common.split_tensubten memOk "tenant".toList
      = some (some "tenant".toList, some RED_STR) :=
  (missing_components_default_to_red memOk (fun _ => rfl)).2.2.2 "tenant".toList
    (by decide) (by decide)

/-- C20: only the first of several comma-separated tenants is used.  For a
non-empty string `first` without ',' and any string `rest`, with `strdup`
succeeding, both functions give for `first ++ "," ++ rest` the same pair as
for `first`. -/
theorem only_first_tenant_is_used (mem : List Char → Bool) (hmem : ∀ x, mem x = true)
    (first rest : List Char) (h0 : first ≠ []) (hc : ∀ c ∈ first, c ≠ ',') :
    common_split_tensubten mem (some (first ++ ',' :: rest))
      = common_split_tensubten mem (some first) ∧
    common.split_tensubten mem (first ++ ',' :: rest)
      = common.split_tensubten mem first := by
  obtain ⟨a, f, rfl⟩ := List.exists_cons_of_ne_nil h0
  have hin : (a :: f) ++ ',' :: rest = a :: (f ++ ',' :: rest) := rfl
  have k1 : strtok_r (a :: (f ++ ',' :: rest)) [','] = some (a :: f, rest) :=
    strtok_first (a :: f) rest ',' h0 hc
  have k2 : strtok_r (a :: f) [','] = some (a :: f, []) := strtok_whole _ ',' h0 hc
  constructor
  · rw [hin]
    simp only [common_split_tensubten, strdup_ok mem hmem, k1, k2]
  · have e1 : find_first_of ((a :: f) ++ ',' :: rest) [','] = some (a :: f).length :=
      find_first_of_stop (a :: f) rest ',' hc
    have e2 : ((a :: f) ++ ',' :: rest).drop ((a :: f).length + 1) = rest := by
      rw [List.drop_append_eq_append_drop]
      simp
    have e3 : ((a :: f) ++ ',' :: rest).take (a :: f).length = a :: f := by
      rw [List.take_append_eq_append_take]
      simp
    obtain ⟨e, v, hv⟩ := tenant_vec_loop_enough (((a :: f) ++ ',' :: rest).length)
      rest ([] ++ [a :: f]) (by simp; omega)
    have l1 : tenant_vec_loop (((a :: f) ++ ',' :: rest).length + 1)
        ((a :: f) ++ ',' :: rest) [] = some (e, [a :: f] ++ v) := by
      simp only [tenant_vec_loop, e1, e2, e3]
      exact hv
    have l2 : tenant_vec_loop ((a :: f).length + 1) (a :: f) [] = some (a :: f, []) :=
      tenant_vec_loop_plain _ hc
    simp only [common.split_tensubten, l1, l2]
    by_cases he : e.length > 0
    · simp [he]
    · simp [he]

/-- Witness of C20: the list "a/b,c/d". -/
theorem only_first_tenant_is_used_witness :
    common_split_tensubten memOk (some ("a/b".toList ++ ',' :: "c/d".toList))
      = (some ['a'], some ['b']) ∧
    common.split_tensubten memOk ("a/b".toList ++ ',' :: "c/d".toList)
      = some (some ['a'], some ['b']) :=
  ⟨(only_first_tenant_is_used memOk (fun _ => rfl) "a/b".toList "c/d".toList
      (by decide) (by decide)).1.trans (by decide),
    (only_first_tenant_is_used memOk (fun _ => rfl) "a/b".toList "c/d".toList
      (by decide) (by decide)).2.trans (by decide)⟩

/-! ## Status conversion, checksum types and the part iterator -/

/-- Clearing the three low bits of a 64-bit number rounds it down to a
multiple of 8. -/
theorem land_clear_low3 (x : Nat) (hx : x < 2 ^ 64) : x &&& (2 ^ 64 - 8) = 8 * (x / 8) := by
  apply Nat.eq_of_testBit_eq
  intro i
  have h8 : (2 : Nat) ^ 64 - 8 = 2 ^ 64 - (7 + 1) := rfl
  have h7 : (7 : Nat) = 2 ^ 3 - 1 := rfl
  rw [Nat.testBit_and, h8, Nat.testBit_two_pow_sub_succ (by norm_num), h7,
    Nat.testBit_two_pow_sub_one]
  have e8 : (8 : Nat) = 2 ^ 3 := rfl
  rw [e8, Nat.testBit_mul_pow_two, ← Nat.shiftRight_eq_div_pow, Nat.testBit_shiftRight]
  by_cases h3 : i < 3
  · simp [h3, Nat.not_le.mpr h3]
  · have h3' : 3 ≤ i := Nat.le_of_not_lt h3
    by_cases h64 : i < 64
    · simp [h3, h3', h64, Nat.add_sub_cancel' h3']
    · have hbig : x.testBit i = false := by
        apply Nat.testBit_lt_two_pow
        exact lt_of_lt_of_le hx (Nat.pow_le_pow_right (by norm_num) (Nat.le_of_not_lt h64))
      simp [h3, h3', h64, Nat.add_sub_cancel' h3', hbig]

/-- Without wrap-around `red_next_s3_partinfo` rounds the end of the record up
to a multiple of 8. -/
theorem red_next_s3_partinfo_eq (S p e : Nat) (h : p + S + e + 7 < 2 ^ 64) :
    red_next_s3_partinfo S p e = 8 * ((p + S + e + 7) / 8) := by
  have h1 : (S + e) % 2 ^ 64 = S + e := Nat.mod_eq_of_lt (by omega)
  have h2 : (p + (S + e) + 7) % 2 ^ 64 = p + S + e + 7 := by
    rw [Nat.mod_eq_of_lt (by omega)]; omega
  simp only [red_next_s3_partinfo, h1, h2]
  exact land_clear_low3 _ h

/-- C21: `red_rc2status` maps every non-negative return code to `RED_SUCCESS`
(0) and every negative one to itself; so the result is `RED_SUCCESS` exactly
for the non-negative codes, and applying the function twice gives the same as
applying it once. -/
theorem rc2status_keeps_failures_and_collapses_successes (rc : Int) :
    (0 ≤ rc → red_rc2status rc = RED_SUCCESS) ∧
    (0 ≤ rc → red_rc2status rc = 0) ∧
    (rc < 0 → red_rc2status rc = rc) ∧
    (red_rc2status rc = RED_SUCCESS ↔ 0 ≤ rc) ∧
    red_rc2status (red_rc2status rc) = red_rc2status rc := by
  unfold red_rc2status RED_SUCCESS
  refine ⟨?_, ?_, ?_, ?_, ?_⟩
  · intro h; simp [Int.not_lt.mpr h]
  · intro h; simp [Int.not_lt.mpr h]
  · intro h; simp [h]
  · by_cases h : rc < 0
    · simp [h]; omega
    · simp [h]; omega
  · by_cases h : rc < 0
    · simp [h]
    · simp [h]

/-- Witness of C21: the return codes 5 and -22. -/
theorem rc2status_keeps_failures_and_collapses_successes_witness :
    red_rc2status 5 = RED_SUCCESS ∧ red_rc2status (-22) = -22 :=
  ⟨(rc2status_keeps_failures_and_collapses_successes 5).1 (by decide),
    (rc2status_keeps_failures_and_collapses_successes (-22)).2.2.1 (by decide)⟩

/-- C23: the validators agree with the roles documented in the enumeration.
`rfs_is_valid_etag_type` accepts exactly CRC32C, MD5, UUID and GTX;
`rfs_is_valid_checksum_type` accepts exactly NONE and CRC32, CRC32C, SHA1,
SHA256 and CRC64NVME; CRC32C is the only value accepted by both; and
`RED_S3CS_TOTAL` and every value outside the enumeration are accepted by
neither. -/
theorem checksum_validators_match_documented_roles (t : Int) :
    (rfs_is_valid_etag_type t = true ↔ t ∈ documentedEtagTypes) ∧
    (rfs_is_valid_checksum_type t = true ↔
      t = RED_S3CS_NONE ∨ t ∈ documentedChecksumTypes) ∧
    (rfs_is_valid_etag_type t = true ∧ rfs_is_valid_checksum_type t = true ↔
      t = RED_S3CS_CRC32C) ∧
    (t < RED_S3CS_NONE ∨ RED_S3CS_TOTAL ≤ t →
      rfs_is_valid_etag_type t = false ∧ rfs_is_valid_checksum_type t = false) := by
  simp only [rfs_is_valid_etag_type, rfs_is_valid_checksum_type, documentedEtagTypes,
    documentedChecksumTypes, RED_S3CS_NONE, RED_S3CS_CRC32, RED_S3CS_CRC32C, RED_S3CS_SHA1,
    RED_S3CS_SHA256, RED_S3CS_MD5, RED_S3CS_CRC64NVME, RED_S3CS_UUID, RED_S3CS_GTX,
    RED_S3CS_TOTAL, Bool.or_eq_true, beq_iff_eq, List.mem_cons, List.mem_singleton,
    List.not_mem_nil, or_false, Bool.or_eq_false_iff, beq_eq_false_iff_ne, ne_eq]
  refine ⟨?_, ?_, ?_, ?_⟩
  · omega
  · omega
  · omega
  · omega

/-- Witness of C23: `RED_S3CS_TOTAL` and the value -1. -/
theorem checksum_validators_match_documented_roles_witness :
    (rfs_is_valid_etag_type RED_S3CS_TOTAL = false ∧
      rfs_is_valid_checksum_type RED_S3CS_TOTAL = false) ∧
    (rfs_is_valid_etag_type (-1) = false ∧ rfs_is_valid_checksum_type (-1) = false) :=
  ⟨(checksum_validators_match_documented_roles RED_S3CS_TOTAL).2.2.2 (Or.inr (by decide)),
    (checksum_validators_match_documented_roles (-1)).2.2.2 (Or.inl (by decide))⟩

/-- C24: for a part-info address `p` and an etag size `e` with
`p + sizeof(red_part_info_t) + e + 7 < 2^64`, `red_next_s3_partinfo` returns
the least multiple of 8 that is at least `p + sizeof(red_part_info_t) + e`: the
result is a multiple of 8, not below the end of the etag, fewer than 8 bytes
past it, and not above any other such multiple.  `S` is the value of
`sizeof(red_part_info_t)`. -/
theorem next_partinfo_is_least_aligned_address (S p e : Nat)
    (h : p + S + e + 7 < 2 ^ 64) :
    red_next_s3_partinfo S p e % 8 = 0 ∧
    p + S + e ≤ red_next_s3_partinfo S p e ∧
    red_next_s3_partinfo S p e < p + S + e + 8 ∧
    ∀ m, m % 8 = 0 → p + S + e ≤ m → red_next_s3_partinfo S p e ≤ m := by
  rw [red_next_s3_partinfo_eq S p e h]
  refine ⟨by omega, by omega, by omega, ?_⟩
  intro m hm hle
  omega

/-- Witness of C24: a record of 72 bytes at address 4096 with an etag of 33
bytes; the next record starts at 4208. -/
theorem next_partinfo_is_least_aligned_address_witness :
    red_next_s3_partinfo 72 4096 33 % 8 = 0 ∧
    4096 + 72 + 33 ≤ red_next_s3_partinfo 72 4096 33 ∧
    red_next_s3_partinfo 72 4096 33 < 4096 + 72 + 33 + 8 ∧
    ∀ m, m % 8 = 0 → 4096 + 72 + 33 ≤ m → red_next_s3_partinfo 72 4096 33 ≤ m :=
  next_partinfo_is_least_aligned_address 72 4096 33 (by norm_num)

/-! ## The two bridges compared -/

/-- As long as every read of the eventfd succeeds or fails with `EAGAIN` or
`EINTR`, the loops of `sync_api_t::wait` and of `common_sync_wait` do the
same. -/
theorem loops_agree_without_failed_reads (this : Nat) (fd0 fd1 : Int)
    (polls : List PollReply) :
    ∀ (w : World) (reads : List ReadReply) (drains : List DrainReply),
      0 ≤ (w.heap this).eventfd.event_fd →
      (∀ r ∈ reads, r.ret = 8 ∨ r.errno = EAGAIN ∨ r.errno = EINTR) →
      sync_api_t.wait_loop this fd0 fd1 w polls reads drains
        = common_sync_wait_loop this fd0 fd1 w polls reads drains := by
  induction polls with
  | nil => intro w reads drains _ _; rfl
  | cons p polls ih =>
    intro w reads drains hfd hr
    have hfd1 : 0 ≤ ((sys_poll w fd0 fd1 p).heap this).eventfd.event_fd := by
      rw [((stable_sys_poll w fd0 fd1 p).2 this).2]; exact hfd
    simp only [sync_api_t.wait_loop, common_sync_wait_loop]
    by_cases h1 : p.rc < 0
    · by_cases h2 : p.errno = EINTR
      · simp only [h1, h2, if_true]
        exact ih _ _ _ hfd1 hr
      · simp only [h1, h2, if_true, if_false]
    · simp only [h1, if_false]
      by_cases h3 : p.rc = 0
      · simp only [h3, if_true]
        exact ih _ _ _ hfd1 hr
      · simp only [h3, if_false]
        by_cases h4 : p.revents0 &&& POLLIN ≠ 0
        · simp only [if_pos h4]
          cases reads with
          | nil => simp [eventfd_t.read, not_lt.mpr hfd1]
          | cons r rest =>
            have hfd2 : 0 ≤ ((sys_eventfd_read (sys_poll w fd0 fd1 p) this r).heap
                this).eventfd.event_fd := by
              rw [((stable_sys_eventfd_read (sys_poll w fd0 fd1 p) this r).2 this).2]
              exact hfd1
            by_cases h8 : r.ret = 8
            · simp [eventfd_t.read, not_lt.mpr hfd1, eventfd_read, h8]
            · have he : r.errno = EAGAIN ∨ r.errno = EINTR := by
                rcases hr r (List.mem_cons_self _ _) with h | h
                · exact absurd h h8
                · exact h
              simp only [eventfd_t.read, not_lt.mpr hfd1, eventfd_read, h8, he, if_false,
                ne_eq, not_false_eq_true, if_true]
              simp only [show ((-1 : Int) < 0) = True from by simp, if_true]
              exact ih _ _ _ hfd2 (fun x hx => hr x (List.mem_cons_of_mem _ hx))
        · simp only [if_neg h4]
          by_cases h5 : p.revents1 &&& POLLIN ≠ 0
          · simp only [if_pos h5]
            cases drains with
            | nil => rfl
            | cons d drains2 =>
              simp only
              by_cases hd : d.rc = 1 ∧ d.ucp.ucp_fun ≠ .null
              · simp only [hd, and_self, ne_eq, not_false_eq_true, if_true]
                refine ih _ _ _ ?_ hr
                rw [((stable_call _ d.ucp.ucp_fun d.ucp.ucp_res d.ucp.ucp_arg).2 this).2]
                exact hfd1
              · simp only [hd, if_false]
                exact ih _ _ _ hfd1 hr
          · simp only [if_neg h5]
            exact ih _ _ _ hfd1 hr

/-- On a valid eventfd, and as long as every read of the eventfd succeeds or
fails with `EAGAIN` or `EINTR`, `sync_api_t::wait` and `common_sync_wait`
return the same status and invoke the same drained callbacks. -/
theorem bridges_agree_without_failed_reads (w : World) (this : Nat) (rc : Int)
    (polls : List PollReply) (reads : List ReadReply) (drains : List DrainReply)
    (hfd : 0 ≤ (w.heap this).eventfd.event_fd)
    (hr : ∀ r ∈ reads, r.ret = 8 ∨ r.errno = EAGAIN ∨ r.errno = EINTR) :
    (sync_api_t.wait w this rc polls reads drains).ret
      = (common_sync_wait w this rc polls reads drains).ret ∧
    dispatched (sync_api_t.wait w this rc polls reads drains).world.log
      = dispatched (common_sync_wait w this rc polls reads drains).world.log := by
  by_cases h : rc = 0
  · subst h
    simp only [sync_api_t.wait, common_sync_wait, ne_eq, not_true_eq_false, if_false]
    rw [loops_agree_without_failed_reads this _ _ polls w reads drains hfd hr]
    exact ⟨rfl, rfl⟩
  · rw [cpp_wait_rejected w this rc h, c_wait_rejected w this rc h]
    simp only [done_rs, done_log w this rc hfd, dispatched_append]
    exact ⟨trivial, by simp [World.store, dispatched]⟩

/-! ## The hello_world drivers -/

/-- In `example_create_object`, when the object was created with a valid
handle and the write fails, the returned status is the status of the close
made at `put_xerror`. -/
theorem example_create_object_write_failure (k : ObjectCalls)
    (h1 : k.ctx_create = true) (h2 : k.create_version = RED_SUCCESS)
    (h3 : k.write ≠ RED_SUCCESS) (h4 : k.created_oh.fd ≠ 0) (h5 : k.ctx_cleanup = true) :
    example_create_object k = k.cleanup_close := by
  simp [example_create_object, example_create_object.put_xerror, RED_IS_VALID_OPEN_HANDLE,
    h1, h2, h3, h4, h5]

/-- In `rfs_create_object`, when the object was created and the write fails,
the returned status is the status of the write. -/
theorem rfs_create_object_write_failure (k : ObjectCalls)
    (h2 : k.create_version = RED_SUCCESS) (h3 : k.write ≠ RED_SUCCESS) :
    rfs_create_object k = k.write := by
  simp only [rfs_create_object, rfs_create_object.put_xerror, h2, h3, ne_eq,
    not_true_eq_false, if_false, not_false_eq_true, if_true]
  split
  · split
    · rfl
    · rfl
  · rfl

/-- C22: run of `example_create_object` (C) in which the object is created
with a valid handle, the write fails with `RED_EIO` (-5) and the close made at
`put_xerror` succeeds: the function returns `RED_SUCCESS`, not the status of
the write.  On the same run `rfs_create_object` (C++) returns -5. -/
theorem cleanup_close_overwrites_write_failure :
    (writeFails RED_EIO RED_SUCCESS).write = -5 ∧
    (writeFails RED_EIO RED_SUCCESS).cleanup_close = RED_SUCCESS ∧
    example_create_object (writeFails RED_EIO RED_SUCCESS) = RED_SUCCESS ∧
    example_create_object (writeFails RED_EIO RED_SUCCESS) ≠ -5 ∧
    rfs_create_object (writeFails RED_EIO RED_SUCCESS) = -5 := by
  refine ⟨rfl, rfl, rfl, ?_, rfl⟩
  decide

/-- C29: run of the two `main` functions in which `red_establish_session`
fails with `RED_EIO` (-5) after the library was initialised and the client
became ready: both exit with `EXIT_SUCCESS`, because the status is stored in
`rc` and the exit status is computed from `rs`. -/
theorem failed_session_exits_with_success :
    (sessionFails RED_EIO).establish_session ≠ RED_SUCCESS ∧
    hello_world_c.main (sessionFails RED_EIO) = EXIT_SUCCESS ∧
    hello_world_cpp.main (sessionFails RED_EIO) = EXIT_SUCCESS := by
  refine ⟨?_, rfl, rfl⟩
  decide

/-! ## Failed reads of the eventfd -/

/-- C25: a read of the eventfd that fails with `EBADF` (9): `eventfd_read`
gives -1, the errno is neither `EAGAIN` nor `EINTR`, and `eventfd_t::read`
returns true. -/
theorem failed_read_is_reported_as_consumed :
    eventfd_read ⟨-1, 9⟩ = -1 ∧ (9 : Int) ≠ EAGAIN ∧ (9 : Int) ≠ EINTR ∧
    (eventfd_t.read cppWorld 1 [⟨-1, 9⟩]).map (fun r => r.1) = some true := by
  refine ⟨rfl, ?_, ?_, rfl⟩
  · decide
  · decide

/-- C26: the two bridges on the same outcomes of the primitives.  The own
eventfd is reported readable and the read fails with `EBADF` (9); then the
runtime descriptor is reported readable and the drain primitive returns the
completion of the bridge's own call with status -5; then the own eventfd is
reported readable and the read succeeds.  `sync_api_t::wait` returns
`RED_SUCCESS` after the first `poll` and invokes no callback;
`common_sync_wait` calls `poll` three times, invokes the drained callback and
returns -5. -/
theorem bridges_differ_after_failed_read :
    (sync_api_t.wait cppWorld 1 0 [pollOwn, pollRuntime, pollOwn] [⟨-1, 9⟩, readOk]
        [⟨1, completion (cppWorld.heap 1).ucb (-5)⟩]).ret = some 0 ∧
    countPolls (sync_api_t.wait cppWorld 1 0 [pollOwn, pollRuntime, pollOwn]
        [⟨-1, 9⟩, readOk] [⟨1, completion (cppWorld.heap 1).ucb (-5)⟩]).world.log = 1 ∧
    dispatched (sync_api_t.wait cppWorld 1 0 [pollOwn, pollRuntime, pollOwn]
        [⟨-1, 9⟩, readOk] [⟨1, completion (cppWorld.heap 1).ucb (-5)⟩]).world.log = [] ∧
    (common_sync_wait cWorld 1 0 [pollOwn, pollRuntime, pollOwn] [⟨-1, 9⟩, readOk]
        [⟨1, completion (cWorld.heap 1).ucb (-5)⟩]).ret = some (-5) ∧
    countPolls (common_sync_wait cWorld 1 0 [pollOwn, pollRuntime, pollOwn]
        [⟨-1, 9⟩, readOk] [⟨1, completion (cWorld.heap 1).ucb (-5)⟩]).world.log = 3 ∧
    dispatched (common_sync_wait cWorld 1 0 [pollOwn, pollRuntime, pollOwn]
        [⟨-1, 9⟩, readOk] [⟨1, completion (cWorld.heap 1).ucb (-5)⟩]).world.log
      = [completion (cWorld.heap 1).ucb (-5)] := by
  refine ⟨rfl, rfl, rfl, rfl, rfl, rfl⟩

/-! ## A short write in put_object -/

/-- C28: the unit test `PutObject` against a client whose `pwrite` succeeds
with 8 of the 9 bytes: `put_object` logs the failed write, closes both handles
and returns `RED_SUCCESS`.  For the same answer of the write
`rfs_example_write` returns `RED_EINVAL`. -/
theorem short_write_returns_success :
    (putRun mockShortWrite).2.calls
      = [(.open_root ⟨1⟩, ⟨0, ⟨2⟩, ⟨0⟩, 0⟩),
          (.openat ⟨2⟩ "test_object" 65 420, ⟨0, ⟨3⟩, ⟨0⟩, 0⟩),
          (.pwrite ⟨3⟩ "test data" 9 0, ⟨0, ⟨0⟩, ⟨0⟩, 8⟩),
          (.close ⟨3⟩, ⟨0, ⟨0⟩, ⟨0⟩, 0⟩), (.close ⟨2⟩, ⟨0, ⟨0⟩, ⟨0⟩, 0⟩)] ∧
    (putRun mockShortWrite).2.logged = [.write_failed 0] ∧
    (putRun mockShortWrite).1 = RED_SUCCESS ∧
    rfs_example_write 0 8 9 RED_S3CS_SHA256 0 0 = some RED_EINVAL := by
  refine ⟨rfl, rfl, rfl, ?_⟩
  decide

/-! ## The two implementations of split_tensubten compared -/

/-- A non-empty string whose first character is not a space and whose last
character is not a space is not changed by the two trimming loops. -/
theorem trim_of_ends (l : List Char) (h0 : l ≠ []) (hs : l.head? ≠ some ' ')
    (he : l.getLast? ≠ some ' ') : cut_trailing_spaces (skip_spaces l) = l := by
  obtain ⟨a, cs, h1⟩ := List.exists_cons_of_ne_nil h0
  have h2 : l = l.dropLast ++ [l.getLast h0] := (List.dropLast_append_getLast h0).symm
  refine trim_unchanged l a (l.getLast h0) cs l.dropLast h1 h2 ?_ ?_
  · intro ha
    apply hs
    rw [h1, ha]
    rfl
  · intro hz
    apply he
    rw [List.getLast?_eq_getLast l h0, hz]

/-- The C function uses only the first element of a comma-separated list. -/
theorem c_split_first_element (mem : List Char → Bool) (hmem : ∀ x, mem x = true)
    (first rest : List Char) (h0 : first ≠ []) (hc : ∀ c ∈ first, c ≠ ',') :
    common_split_tensubten mem (some (first ++ ',' :: rest))
      = common_split_tensubten mem (some first) := by
  obtain ⟨a, f, rfl⟩ := List.exists_cons_of_ne_nil h0
  have hin : (a :: f) ++ ',' :: rest = a :: (f ++ ',' :: rest) := rfl
  have k1 : strtok_r (a :: (f ++ ',' :: rest)) [','] = some (a :: f, rest) :=
    strtok_first (a :: f) rest ',' h0 hc
  have k2 : strtok_r (a :: f) [','] = some (a :: f, []) := strtok_whole _ ',' h0 hc
  rw [hin]
  simp only [common_split_tensubten, strdup_ok mem hmem, k1, k2]

/-- The C++ function uses only the first element of a comma-separated list. -/
theorem cpp_split_first_element (mem : List Char → Bool)
    (first rest : List Char) (h0 : first ≠ []) (hc : ∀ c ∈ first, c ≠ ',') :
    common.split_tensubten mem (first ++ ',' :: rest)
      = common.split_tensubten mem first := by
  have e1 : find_first_of (first ++ ',' :: rest) [','] = some first.length :=
    find_first_of_stop first rest ',' hc
  have e2 : (first ++ ',' :: rest).drop (first.length + 1) = rest := by
    rw [List.drop_append_eq_append_drop]
    simp
  have e3 : (first ++ ',' :: rest).take first.length = first := by
    rw [List.take_append_eq_append_take]
    simp
  obtain ⟨e, v, hv⟩ := tenant_vec_loop_enough ((first ++ ',' :: rest).length)
    rest ([] ++ [first]) (by simp; omega)
  have l1 : tenant_vec_loop ((first ++ ',' :: rest).length + 1)
      (first ++ ',' :: rest) [] = some (e, [first] ++ v) := by
    simp only [tenant_vec_loop, e1, e2, e3]
    exact hv
  have l2 : tenant_vec_loop (first.length + 1) first [] = some (first, []) :=
    tenant_vec_loop_plain _ hc
  have hlen : first.length > 0 := List.length_pos.mpr h0
  simp only [common.split_tensubten, l1, l2]
  by_cases he : e.length > 0
  · simp [he, hlen]
  · simp [he, hlen]

/-- On a non-empty string without comma that the trimming loops leave
unchanged, the two functions give the same pair. -/
theorem split_single_element_agree (mem : List Char → Bool) (hmem : ∀ x, mem x = true)
    (l : List Char) (h0 : l ≠ []) (hc : ∀ c ∈ l, c ≠ ',')
    (ht : cut_trailing_spaces (skip_spaces l) = l) :
    common.split_tensubten mem l = some (common_split_tensubten mem (some l)) := by
  obtain ⟨a, t, rfl⟩ := List.exists_cons_of_ne_nil h0
  have k1 : strtok_r (a :: t) [','] = some (a :: t, []) := strtok_whole _ ',' h0 hc
  simp only [common.split_tensubten, tenant_vec_loop_plain _ hc]
  simp only [common_split_tensubten, strdup_ok mem hmem, k1, ht]
  cases h : strtok_r (a :: t) ['/'] with
  | none => simp [h]
  | some x =>
    obtain ⟨s1, s2⟩ := x
    simp [h]

/-- The C function skips an empty first element: a leading comma does not
change its result. -/
theorem c_split_leading_comma (mem : List Char → Bool) (hmem : ∀ x, mem x = true)
    (rest : List Char) :
    common_split_tensubten mem (some (',' :: rest))
      = common_split_tensubten mem (some rest) := by
  have k : strtok_r (',' :: rest) [','] = strtok_r rest [','] := by
    have hc : [','].contains ',' = true := by decide
    simp only [strtok_r, List.dropWhile, hc]
  cases rest with
  | nil => simp only [common_split_tensubten, strdup_ok mem hmem, k, strtok_nil]
  | cons c cs => simp only [common_split_tensubten, strdup_ok mem hmem, k]

/-- The C++ function takes the empty first element of a list that starts with
a comma, and answers with the defaults. -/
theorem cpp_split_leading_comma (mem : List Char → Bool) (hmem : ∀ x, mem x = true)
    (rest : List Char) :
    common.split_tensubten mem (',' :: rest) = some (some RED_STR, some RED_STR) := by
  have e1 : find_first_of (',' :: rest) [','] = some 0 := by
    have hc : [','].contains ',' = true := by decide
    simp only [find_first_of, hc, if_true]
  obtain ⟨e, v, hv⟩ := tenant_vec_loop_enough (rest.length + 1) rest ([] ++ [[]])
    (Nat.lt_succ_self _)
  have l1 : tenant_vec_loop ((',' :: rest).length + 1) (',' :: rest) []
      = some (e, [[]] ++ v) := by
    simp only [List.length_cons, tenant_vec_loop, e1, List.drop_succ_cons, List.drop_zero,
      List.take_zero]
    exact hv
  simp only [common.split_tensubten, l1]
  by_cases he : e.length > 0
  · simp [he, strdup_ok mem hmem, strtok_nil]
  · simp [he, strdup_ok mem hmem, strtok_nil]

/-- C27 as stated fails: for the input ",a/b" the C function gives ("a", "b")
and the C++ function ("red", "red"); for " a/b , c" the C function gives
("a", "b") and the C++ function (" a", "b "). -/
theorem split_tensubten_implementations_differ :
    common_split_tensubten memOk (some ",a/b".toList) = (some ['a'], some ['b']) ∧
    common.split_tensubten memOk ",a/b".toList = some (some RED_STR, some RED_STR) ∧
    common.split_tensubten memOk ",a/b".toList
      ≠ some (common_split_tensubten memOk (some ",a/b".toList)) ∧
    common_split_tensubten memOk (some " a/b , c".toList) = (some ['a'], some ['b']) ∧
    common.split_tensubten memOk " a/b , c".toList
      = some (some [' ', 'a'], some ['b', ' ']) ∧
    common.split_tensubten memOk " a/b , c".toList
      ≠ some (common_split_tensubten memOk (some " a/b , c".toList)) := by
  decide

/-- C27 as amended: with `strdup` succeeding, `common_split_tensubten` (C) and
`common::split_tensubten` (C++) return the same pair for the empty string, for
every non-empty string `first` without comma that neither starts nor ends with
a space, and for every list `first ++ "," ++ rest` with such a first element
(whatever `rest` holds: further elements, empty elements, spaces).  On an input
that starts with a comma the C++ function returns ("red", "red") whatever
follows, and the C function returns what it returns for the input without that
comma. -/
theorem split_tensubten_agree_on_trimmed_first_element (mem : List Char → Bool)
    (hmem : ∀ x, mem x = true) (first rest : List Char) (h0 : first ≠ [])
    (hc : ∀ c ∈ first, c ≠ ',') (hs : first.head? ≠ some ' ')
    (he : first.getLast? ≠ some ' ') :
    common.split_tensubten mem [] = some (common_split_tensubten mem (some [])) ∧
    common.split_tensubten mem first = some (common_split_tensubten mem (some first)) ∧
    common.split_tensubten mem (first ++ ',' :: rest)
      = some (common_split_tensubten mem (some (first ++ ',' :: rest))) ∧
    common.split_tensubten mem (',' :: rest) = some (some RED_STR, some RED_STR) ∧
    common_split_tensubten mem (some (',' :: rest))
      = common_split_tensubten mem (some rest) := by
  have ht := trim_of_ends first h0 hs he
  have h1 := split_single_element_agree mem hmem first h0 hc ht
  refine ⟨?_, h1, ?_, cpp_split_leading_comma mem hmem rest,
    c_split_leading_comma mem hmem rest⟩
  · simp [common.split_tensubten, common_split_tensubten, tenant_vec_loop, find_first_of,
      strdup_ok mem hmem]
  · rw [cpp_split_first_element mem first rest h0 hc,
      c_split_first_element mem hmem first rest h0 hc]
    exact h1

/-- Witness of C27 as amended: the list "my ten/sub, x/y,,"; and the input
", x/y,,", for which the C++ function gives ("red", "red") and the C function
the same as for " x/y,,". -/
theorem split_tensubten_agree_on_trimmed_first_element_witness :
    common.split_tensubten memOk "my ten/sub".toList
      = some (common_split_tensubten memOk (some "my ten/sub".toList)) ∧
    common.split_tensubten memOk ("my ten/sub".toList ++ ',' :: " x/y,,".toList)
      = some (common_split_tensubten memOk
          (some ("my ten/sub".toList ++ ',' :: " x/y,,".toList))) ∧
    common.split_tensubten memOk (',' :: " x/y,,".toList)
      = some (some RED_STR, some RED_STR) ∧
    common_split_tensubten memOk (some (',' :: " x/y,,".toList))
      = common_split_tensubten memOk (some " x/y,,".toList) :=
  (split_tensubten_agree_on_trimmed_first_element memOk (fun _ => rfl)
    "my ten/sub".toList " x/y,,".toList (by decide) (by decide) (by decide) (by decide)).2

/-! ## A failed create_bucket -/

/-- Destroying a shared pointer in two worlds with the same buckets passes
the same handles to `close_dataset` and leaves the same buckets. -/
theorem release_same_requests (w1 w2 : S3World) (a : Nat) (ho : w1.objects = w2.objects) :
    (shared_ptr.release w1 a).objects = (shared_ptr.release w2 a).objects ∧
    ∃ L, closedDatasets (shared_ptr.release w1 a).calls = closedDatasets w1.calls ++ L ∧
      closedDatasets (shared_ptr.release w2 a).calls = closedDatasets w2.calls ++ L := by
  unfold shared_ptr.release
  rw [ho]
  cases h : w2.objects a with
  | none => exact ⟨ho, [], by simp, by simp⟩
  | some x =>
    obtain ⟨b, n⟩ := x
    simp only
    by_cases hn : n ≤ 1
    · simp only [hn, if_true, s3bucket.dtor]
      by_cases hv : RED_IS_VALID_HANDLE b.bucket_hndl = true
      · simp only [hv, if_true, S3World.call]
        refine ⟨trivial, [b.bucket_hndl], ?_, ?_⟩
        · rw [closedDatasets_append]; rfl
        · rw [closedDatasets_append]; rfl
      · have hv' : RED_IS_VALID_HANDLE b.bucket_hndl = false := by simpa using hv
        simp only [hv', Bool.false_eq_true, if_false]
        exact ⟨trivial, [], by simp, by simp⟩
    · simp only [hn, if_false]
      exact ⟨trivial, [], by simp, by simp⟩

/-- Destroying the same set of buckets in two worlds with the same buckets
passes the same handles to `close_dataset`. -/
theorem dtor_same_requests (l : List Nat) :
    ∀ w1 w2 : S3World, w1.objects = w2.objects →
      ∃ L, closedDatasets (l.foldl shared_ptr.release w1).calls
          = closedDatasets w1.calls ++ L ∧
        closedDatasets (l.foldl shared_ptr.release w2).calls
          = closedDatasets w2.calls ++ L := by
  induction l with
  | nil => intro w1 w2 _; exact ⟨[], by simp, by simp⟩
  | cons a l ih =>
    intro w1 w2 ho
    obtain ⟨h1, L1, a1, a2⟩ := release_same_requests w1 w2 a ho
    obtain ⟨L2, b1, b2⟩ := ih _ _ h1
    refine ⟨L1 ++ L2, ?_, ?_⟩
    · simp only [List.foldl_cons]; rw [b1, a1, List.append_assoc]
    · simp only [List.foldl_cons]; rw [b2, a2, List.append_assoc]

/-- C30: `create_bucket` is atomic on failure.  When `obtain_dataset` returns
a status other than `RED_SUCCESS`, `create_bucket` returns an empty (expired)
weak reference, the client with its set of buckets is unchanged, no bucket
object is created, the only exchange with the storage is the `obtain_dataset`
call, and no `close_dataset` call is issued; the destruction of the client
afterwards passes to `close_dataset` exactly the handles `L` that a
destruction without the attempt passes, and none at all if the client holds
no bucket. -/
theorem failed_create_bucket_leaves_no_trace (self : s3client) (w : S3World)
    (cluster bucket_name : String)
    (hrs : (self.red_client w.calls (.obtain_dataset bucket_name cluster
      { nstripes := RED_MAX_STRIPES, bucket_size := 256 * 1024, block_size := 4 * 1024,
        ec_nparity := 2, poolid := 1, ltid := 1 })).rs ≠ RED_SUCCESS) :
    (self.create_bucket w cluster bucket_name).1 = none ∧
    weak_ptr.expired (self.create_bucket w cluster bucket_name).2.2
      (self.create_bucket w cluster bucket_name).1 = true ∧
    (self.create_bucket w cluster bucket_name).2.1 = self ∧
    (self.create_bucket w cluster bucket_name).2.2.objects = w.objects ∧
    (self.create_bucket w cluster bucket_name).2.2.calls
      = w.calls ++ [(.obtain_dataset bucket_name cluster
          { nstripes := RED_MAX_STRIPES, bucket_size := 256 * 1024, block_size := 4 * 1024,
            ec_nparity := 2, poolid := 1, ltid := 1 },
          self.red_client w.calls (.obtain_dataset bucket_name cluster
          { nstripes := RED_MAX_STRIPES, bucket_size := 256 * 1024, block_size := 4 * 1024,
            ec_nparity := 2, poolid := 1, ltid := 1 }))] ∧
    closedDatasets (self.create_bucket w cluster bucket_name).2.2.calls
      = closedDatasets w.calls ∧
    (∃ L, closedDatasets ((self.create_bucket w cluster bucket_name).2.1.dtor
          (self.create_bucket w cluster bucket_name).2.2).calls
        = closedDatasets w.calls ++ L ∧
      closedDatasets (self.dtor w).calls = closedDatasets w.calls ++ L) ∧
    (self.buckets = [] →
      closedDatasets ((self.create_bucket w cluster bucket_name).2.1.dtor
          (self.create_bucket w cluster bucket_name).2.2).calls
        = closedDatasets w.calls) := by
  have e : self.create_bucket w cluster bucket_name
      = (none, self, (w.call self.red_client (.obtain_dataset bucket_name cluster
          { nstripes := RED_MAX_STRIPES, bucket_size := 256 * 1024,
            block_size := 4 * 1024, ec_nparity := 2, poolid := 1, ltid := 1 })).2.log
          (.obtain_dataset_failed (self.red_client w.calls
            (.obtain_dataset bucket_name cluster
              { nstripes := RED_MAX_STRIPES, bucket_size := 256 * 1024,
                block_size := 4 * 1024, ec_nparity := 2, poolid := 1, ltid := 1 })).rs)) := by
    simp only [s3client.create_bucket, s3call_fst, hrs, ne_eq, not_false_eq_true, if_true]
  rw [e]
  have hc : closedDatasets (w.calls ++ [((Request.obtain_dataset bucket_name cluster
        { nstripes := RED_MAX_STRIPES, bucket_size := 256 * 1024, block_size := 4 * 1024,
          ec_nparity := 2, poolid := 1, ltid := 1 }),
        self.red_client w.calls (.obtain_dataset bucket_name cluster
        { nstripes := RED_MAX_STRIPES, bucket_size := 256 * 1024, block_size := 4 * 1024,
          ec_nparity := 2, poolid := 1, ltid := 1 }))]) = closedDatasets w.calls := by
    rw [closedDatasets_append]
    simp [closedDatasets]
  refine ⟨rfl, rfl, rfl, rfl, rfl, hc, ?_, ?_⟩
  · obtain ⟨L, a1, a2⟩ := dtor_same_requests (w.clear_order self.buckets)
      ((w.call self.red_client (.obtain_dataset bucket_name cluster
          { nstripes := RED_MAX_STRIPES, bucket_size := 256 * 1024,
            block_size := 4 * 1024, ec_nparity := 2, poolid := 1, ltid := 1 })).2.log
          (.obtain_dataset_failed (self.red_client w.calls
            (.obtain_dataset bucket_name cluster
              { nstripes := RED_MAX_STRIPES, bucket_size := 256 * 1024,
                block_size := 4 * 1024, ec_nparity := 2, poolid := 1, ltid := 1 })).rs))
      w rfl
    exact ⟨L, a1.trans (congrArg (· ++ L) hc), a2⟩
  · intro hb
    have hn : w.clear_order [] = [] := List.perm_nil.mp (w.clear_perm [])
    simp only [s3client.dtor, hb, S3World.log, S3World.call, hn, List.foldl_nil]
    exact hc

/-- Witness of C30: a new client whose `obtain_dataset` fails with `RED_EIO`;
the only exchange is the `obtain_dataset` call, also after the destruction. -/
theorem failed_create_bucket_leaves_no_trace_witness :
    ((s3client.ctor (mockObtainFails RED_EIO)).create_bucket emptyS3
        "infinia" "test_bucket").1 = none ∧
    closedDatasets (((s3client.ctor (mockObtainFails RED_EIO)).create_bucket emptyS3
        "infinia" "test_bucket").2.1.dtor
      ((s3client.ctor (mockObtainFails RED_EIO)).create_bucket emptyS3
        "infinia" "test_bucket").2.2).calls = closedDatasets emptyS3.calls :=
  ⟨(failed_create_bucket_leaves_no_trace (s3client.ctor (mockObtainFails RED_EIO)) emptyS3
      "infinia" "test_bucket" (by decide)).1,
    (failed_create_bucket_leaves_no_trace (s3client.ctor (mockObtainFails RED_EIO)) emptyS3
      "infinia" "test_bucket" (by decide)).2.2.2.2.2.2.2 rfl⟩

end RedSdk
